import Mathlib

/-!
# MollenOS stream buffer (`librt/libddk/streambuffer.c`)

A shallow embedding of the shared-memory byte ring of MollenOS and proofs about
its index arithmetic, its byte-stream operations and its packet operations.

Conventions of the embedding

* `unsigned int` cursors are natural numbers below `2^32`; every store to a cursor
  is reduced modulo `2^32`.
* `size_t` is `sz` bits wide (`32` on i386, `64` on amd64); `size_sub` and `size_add`
  are the wrapping `size_t` operations.
* The ring storage is a list of bytes, the caller's buffers are lists of bytes.
* Execution is single-threaded: an atomic load/store is a plain field access, a
  compare-and-swap on a value that was just loaded succeeds, a futex wait never
  returns (outcome `suspended`) and a commit-order busy-wait whose condition holds
  on entry never exits (outcome `spinning`).
* Two sections leave the single thread: the loops with `wakes` are the same loops for
  a thread whose futex waits return, and `Machine` interleaves the steps of several
  threads inside `streambuffer_stream_out`.
-/

namespace MollenOS

/-! ## Machine integers -/

/-- The C constant `UINT_MAX` for a 32-bit `unsigned int`. -/
def UINT_MAX : Nat := 4294967295

/-- Number of values of an `unsigned int` cursor. -/
def UINT_MOD : Nat := 4294967296

/-- The `size_t` subtraction `a - b`, wrapping modulo `2^sz`. -/
def size_sub (sz a b : Nat) : Nat := (a + 2 ^ sz - b) % 2 ^ sz

/-- The `size_t` addition `a + b`, wrapping modulo `2^sz`. -/
def size_add (sz a b : Nat) : Nat := (a + b) % 2 ^ sz

/-! ## Index arithmetic -/

/-- The C function `bytes_writable(capacity, read_index, write_index)`. -/
def bytes_writable (sz capacity read_index write_index : Nat) : Nat :=
  if read_index > write_index then
    if read_index ≥ size_sub sz UINT_MAX capacity then
      size_sub sz (read_index &&& size_sub sz capacity 1)
        (write_index &&& size_sub sz capacity 1)
    else
      0
  else
    size_sub sz capacity (size_sub sz write_index read_index)

/-- The C function `bytes_readable(capacity, read_index, write_index)`. -/
def bytes_readable (sz capacity read_index write_index : Nat) : Nat :=
  if read_index > write_index then
    if read_index ≥ size_sub sz UINT_MAX capacity then
      size_sub sz
        (size_add sz (size_sub sz capacity (read_index &&& size_sub sz capacity 1))
          (write_index &&& size_sub sz capacity 1))
        1
    else
      0
  else
    size_sub sz write_index read_index

/-! ## Data model -/

/-- Modelled from the spec: the option flags of `ddk/streambuffer.h`, a header that
is not part of the sources at hand.  The code only ever tests a flag with
`options & FLAG`, sets flags with `|=` and clears them with `&= ~`, so an option
word is represented by one Boolean per flag (each flag being a distinct bit). -/
structure Options where
  OVERWRITE_ENABLED : Bool
  ALLOW_PARTIAL : Bool
  NO_BLOCK : Bool
  MULTIPLE_READERS : Bool
  MULTIPLE_WRITERS : Bool
  GLOBAL : Bool
  PEEK : Bool
deriving DecidableEq, Repr

/-- The empty option word `0`. -/
def Options.none : Options := ⟨false, false, false, false, false, false, false⟩

/-- The C expression `a | b` on option words. -/
def Options.or (a b : Options) : Options :=
  ⟨a.OVERWRITE_ENABLED || b.OVERWRITE_ENABLED, a.ALLOW_PARTIAL || b.ALLOW_PARTIAL,
   a.NO_BLOCK || b.NO_BLOCK, a.MULTIPLE_READERS || b.MULTIPLE_READERS,
   a.MULTIPLE_WRITERS || b.MULTIPLE_WRITERS, a.GLOBAL || b.GLOBAL, a.PEEK || b.PEEK⟩

/-- The C expression `a & ~b` on option words. -/
def Options.andNot (a b : Options) : Options :=
  ⟨a.OVERWRITE_ENABLED && !b.OVERWRITE_ENABLED, a.ALLOW_PARTIAL && !b.ALLOW_PARTIAL,
   a.NO_BLOCK && !b.NO_BLOCK, a.MULTIPLE_READERS && !b.MULTIPLE_READERS,
   a.MULTIPLE_WRITERS && !b.MULTIPLE_WRITERS, a.GLOBAL && !b.GLOBAL, a.PEEK && !b.PEEK⟩

/-- The C type `streambuffer_t`: capacity, options, the four cursors, the two waiter
counters and the trailing ring storage `buffer`. -/
structure streambuffer where
  capacity : Nat
  options : Options
  producer_index : Nat
  producer_comitted_index : Nat
  consumer_index : Nat
  consumer_comitted_index : Nat
  producer_count : Nat
  consumer_count : Nat
  buffer : List Nat
deriving DecidableEq, Repr

/-- The futex words the code waits on or wakes. -/
inductive Futex where
  | producer_comitted_index
  | consumer_comitted_index
deriving DecidableEq, Repr

/-- A call of the external wait/wake primitive, with the fields of `FutexParameters_t`
the code fills in: the futex word, `_val0`, and whether the `PRIVATE` flag is passed
(`STREAMBUFFER_WAIT_FLAGS` / `STREAMBUFFER_WAKE_FLAGS`). -/
inductive Event where
  | Syscall_FutexWait (futex0 : Futex) (val0 : Nat) (priv : Bool)
  | Syscall_FutexWake (futex0 : Futex) (val0 : Nat) (priv : Bool)
deriving DecidableEq, Repr

/-- How a single-threaded call ends: it returns a value, it is suspended in
`Syscall_FutexWait` (nobody else can wake it), it busy-waits on a committed cursor
that nobody else can advance, or the model ran out of loop fuel. -/
inductive Outcome (α : Type) where
  | returned (value : α) (stream : streambuffer) (events : List Event)
  | suspended (stream : streambuffer) (events : List Event)
  | spinning (stream : streambuffer) (events : List Event)
  | out_of_fuel
deriving DecidableEq, Repr

/-! ## Option macros -/

/-- The macro `STREAMBUFFER_CAN_OVERWRITE(stream)`. -/
def STREAMBUFFER_CAN_OVERWRITE (stream : streambuffer) : Bool :=
  stream.options.OVERWRITE_ENABLED

/-- The macro `STREAMBUFFER_PARTIAL_OP(options)`. -/
def STREAMBUFFER_PARTIAL_OP (options : Options) : Bool :=
  options.ALLOW_PARTIAL

/-- The macro `STREAMBUFFER_PARTIAL_OP_SAFE(options, bytes_available)`. -/
def STREAMBUFFER_PARTIAL_OP_SAFE (options : Options) (bytes_available : Nat) : Bool :=
  STREAMBUFFER_PARTIAL_OP options && bytes_available != 0

/-- The macro `STREAMBUFFER_CAN_READ(options, bytes_available, length)`. -/
def STREAMBUFFER_CAN_READ (options : Options) (bytes_available length : Nat) : Bool :=
  bytes_available == length || STREAMBUFFER_PARTIAL_OP_SAFE options bytes_available

/-- The macro `STREAMBUFFER_CAN_WRITE(options, bytes_available, length)`. -/
def STREAMBUFFER_CAN_WRITE (options : Options) (bytes_available length : Nat) : Bool :=
  bytes_available == length || STREAMBUFFER_PARTIAL_OP options

/-- The macro `STREAMBUFFER_CAN_STREAM(stream, options, bytes_available, length)`. -/
def STREAMBUFFER_CAN_STREAM (stream : streambuffer) (options : Options)
    (bytes_available length : Nat) : Bool :=
  bytes_available == length || STREAMBUFFER_CAN_OVERWRITE stream ||
    STREAMBUFFER_PARTIAL_OP_SAFE options bytes_available

/-- The macro `STREAMBUFFER_CAN_BLOCK(options)`. -/
def STREAMBUFFER_CAN_BLOCK (options : Options) : Bool :=
  !options.NO_BLOCK

/-- The macro `STREAMBUFFER_HAS_MULTIPLE_READERS(stream)`. -/
def STREAMBUFFER_HAS_MULTIPLE_READERS (stream : streambuffer) : Bool :=
  stream.options.MULTIPLE_READERS

/-- The macro `STREAMBUFFER_HAS_MULTIPLE_WRITERS(stream)`. -/
def STREAMBUFFER_HAS_MULTIPLE_WRITERS (stream : streambuffer) : Bool :=
  stream.options.MULTIPLE_WRITERS

/-- The macros `STREAMBUFFER_WAIT_FLAGS(stream)` and `STREAMBUFFER_WAKE_FLAGS(stream)`:
`true` stands for the `PRIVATE` flag, `false` for `0`. -/
def STREAMBUFFER_FUTEX_FLAGS (stream : streambuffer) : Bool :=
  !stream.options.GLOBAL

/-! ## Construction and options -/

/-- The C function `streambuffer_construct`: `memset` clears the header of the
object handed in (and with it the first storage byte, the `buffer[1]` member of the
header); the storage behind it keeps whatever the memory held. -/
def streambuffer_construct (stream : streambuffer) (capacity : Nat) (options : Options) :
    streambuffer :=
  { capacity := capacity
    options := options
    producer_index := 0
    producer_comitted_index := 0
    consumer_index := 0
    consumer_comitted_index := 0
    producer_count := 0
    consumer_count := 0
    buffer := stream.buffer.set 0 0 }

/-- The two values of `OsStatus_t` that `streambuffer_create` returns (the enumeration
itself is declared in a header that is not part of the sources at hand). -/
inductive OsStatus_t where
  | OsSuccess
  | OsOutOfMemory
deriving DecidableEq, Repr

/-- The C function `streambuffer_create`.  `malloc` is what the allocator hands back for
the request of `(sizeof(streambuffer_t) - 1) + capacity` bytes: `none` for a null
pointer, otherwise the raw object in memory.  The result is the status together with
the content of `*stream_out` after the call. -/
def streambuffer_create (malloc : Option streambuffer) (capacity : Nat) (options : Options)
    (stream_out : Option streambuffer) : OsStatus_t × Option streambuffer :=
  match malloc with
  | none => (.OsOutOfMemory, stream_out)
  | some stream => (.OsSuccess, some (streambuffer_construct stream capacity options))

/-- The C function `streambuffer_set_option`. -/
def streambuffer_set_option (stream : streambuffer) (option : Options) : streambuffer :=
  { stream with options := stream.options.or option }

/-- The C function `streambuffer_clear_option`. -/
def streambuffer_clear_option (stream : streambuffer) (option : Options) : streambuffer :=
  { stream with options := stream.options.andNot option }

/-! ## Byte-stream operations -/

/-- The copy loop of `streambuffer_stream_out` (and of `streambuffer_write_packet_data`):
`while (n--) stream->buffer[write_index++ & (capacity - 1)] = casted_ptr[bytes_written++];`
It returns the storage, `write_index` and `bytes_written` after the loop. -/
def write_loop (sz capacity : Nat) (casted_ptr : List Nat) :
    Nat → List Nat → Nat → Nat → List Nat × Nat × Nat
  | 0, buffer, write_index, bytes_written => (buffer, write_index, bytes_written)
  | n + 1, buffer, write_index, bytes_written =>
    write_loop sz capacity casted_ptr n
      (buffer.set (write_index &&& size_sub sz capacity 1) (casted_ptr.getD bytes_written 0))
      ((write_index + 1) % UINT_MOD) (bytes_written + 1)

/-- The copy loop of `streambuffer_stream_in` (and of `streambuffer_read_packet_data`):
`while (n--) casted_ptr[bytes_read++] = stream->buffer[read_index++ & (capacity - 1)];`
It returns the caller's buffer, `read_index` and `bytes_read` after the loop. -/
def read_loop (sz capacity : Nat) (buffer : List Nat) :
    Nat → List Nat → Nat → Nat → List Nat × Nat × Nat
  | 0, casted_ptr, read_index, bytes_read => (casted_ptr, read_index, bytes_read)
  | n + 1, casted_ptr, read_index, bytes_read =>
    read_loop sz capacity buffer n
      (casted_ptr.set bytes_read (buffer.getD (read_index &&& size_sub sz capacity 1) 0))
      ((read_index + 1) % UINT_MOD) (bytes_read + 1)

/-- The C function `streambuffer_try_truncate`.  The compare-and-swap leaves the local
`read_index` at the value it loaded, so the commit-order wait of a buffer with
`MULTIPLE_READERS` compares against `read_index - bytes_comitted` computed from that
value. -/
def streambuffer_try_truncate (sz : Nat) (stream : streambuffer) (options : Options)
    (length : Nat) : Outcome Unit :=
  let write_index := stream.producer_comitted_index
  let read_index := stream.consumer_index
  let bytes_available := min (bytes_readable sz stream.capacity read_index write_index) length
  let bytes_comitted := bytes_available
  if !STREAMBUFFER_CAN_READ options bytes_available length then
    .returned () stream []
  else
    let stream := { stream with consumer_index := (read_index + bytes_available) % UINT_MOD }
    if STREAMBUFFER_HAS_MULTIPLE_READERS stream &&
        decide (stream.consumer_comitted_index < size_sub sz read_index bytes_comitted) then
      .spinning stream []
    else
      .returned ()
        { stream with
          consumer_comitted_index := (stream.consumer_comitted_index + bytes_comitted) % UINT_MOD }
        []

/-- The loop of the C function `streambuffer_stream_out`; `fuel` bounds the number of
times the loop condition is evaluated, `events` collects the futex calls made so far. -/
def stream_out_loop (sz : Nat) (buffer : List Nat) (length : Nat) (options : Options) :
    Nat → streambuffer → Nat → List Event → Outcome Nat
  | 0, _, _, _ => .out_of_fuel
  | fuel + 1, stream, bytes_written, events =>
    if bytes_written < length then
      let write_index := stream.producer_index
      let read_index := stream.consumer_comitted_index
      let bytes_available :=
        min (bytes_writable sz stream.capacity read_index write_index) (length - bytes_written)
      let bytes_comitted := bytes_available
      if !STREAMBUFFER_CAN_STREAM stream options bytes_available (length - bytes_written) then
        if !STREAMBUFFER_CAN_BLOCK options then
          .returned bytes_written stream events
        else
          .suspended
            { stream with producer_count := (stream.producer_count + 1) % UINT_MOD }
            (events ++ [.Syscall_FutexWait .consumer_comitted_index read_index
              (STREAMBUFFER_FUTEX_FLAGS stream)])
      else if bytes_available < length - bytes_written then
        match streambuffer_try_truncate sz stream options (length - bytes_written) with
        | .returned _ stream _ =>
          stream_out_loop sz buffer length options fuel stream bytes_written events
        | .suspended stream _ => .suspended stream events
        | .spinning stream _ => .spinning stream events
        | .out_of_fuel => .out_of_fuel
      else
        let stream :=
          { stream with producer_index := (write_index + bytes_available) % UINT_MOD }
        let copied :=
          write_loop sz stream.capacity buffer bytes_available stream.buffer write_index
            bytes_written
        let stream := { stream with buffer := copied.1 }
        let write_index := copied.2.1
        let bytes_written := copied.2.2
        if STREAMBUFFER_HAS_MULTIPLE_WRITERS stream &&
            decide (stream.producer_comitted_index < size_sub sz write_index bytes_comitted) then
          .spinning stream events
        else
          let stream :=
            { stream with
              producer_comitted_index :=
                (stream.producer_comitted_index + bytes_comitted) % UINT_MOD }
          let val0 := stream.consumer_count
          let stream := { stream with consumer_count := 0 }
          let events :=
            if val0 != 0 then
              events ++ [.Syscall_FutexWake .producer_comitted_index val0
                (STREAMBUFFER_FUTEX_FLAGS stream)]
            else events
          stream_out_loop sz buffer length options fuel stream bytes_written events
    else
      .returned bytes_written stream events

/-- The C function `streambuffer_stream_out(stream, buffer, length, options)`. -/
def streambuffer_stream_out (sz fuel : Nat) (stream : streambuffer) (buffer : List Nat)
    (length : Nat) (options : Options) : Outcome Nat :=
  stream_out_loop sz buffer length options fuel stream 0 []

/-- The C function `streambuffer_stream_in(stream, buffer, length, options)`; the value
returned is `bytes_read` together with the caller's buffer after the call.  Every path
through the loop body ends in `break`, in a futex wait, or in a failed compare-and-swap
(impossible single-threaded), so the body runs at most once. -/
def streambuffer_stream_in (sz : Nat) (stream : streambuffer) (buffer : List Nat)
    (length : Nat) (options : Options) : Outcome (Nat × List Nat) :=
  let bytes_read := 0
  if bytes_read < length then
    let write_index := stream.producer_comitted_index
    let read_index := stream.consumer_index
    let bytes_available :=
      min (bytes_readable sz stream.capacity read_index write_index) (length - bytes_read)
    let bytes_comitted := bytes_available
    if !STREAMBUFFER_CAN_READ options bytes_available (length - bytes_read) then
      if !STREAMBUFFER_CAN_BLOCK options then
        .returned (bytes_read, buffer) stream []
      else
        .suspended
          { stream with consumer_count := (stream.consumer_count + 1) % UINT_MOD }
          [.Syscall_FutexWait .producer_comitted_index write_index
            (STREAMBUFFER_FUTEX_FLAGS stream)]
    else
      let stream :=
        { stream with consumer_index := (read_index + bytes_available) % UINT_MOD }
      let copied :=
        read_loop sz stream.capacity stream.buffer bytes_available buffer read_index bytes_read
      let buffer := copied.1
      let read_index := copied.2.1
      let bytes_read := copied.2.2
      if STREAMBUFFER_HAS_MULTIPLE_READERS stream &&
          decide (stream.consumer_comitted_index < size_sub sz read_index bytes_comitted) then
        .spinning stream []
      else
        let stream :=
          { stream with
            consumer_comitted_index :=
              (stream.consumer_comitted_index + bytes_comitted) % UINT_MOD }
        let val0 := stream.producer_count
        let stream := { stream with producer_count := 0 }
        let events :=
          if val0 != 0 then
            [.Syscall_FutexWake .consumer_comitted_index val0 (STREAMBUFFER_FUTEX_FLAGS stream)]
          else []
        .returned (bytes_read, buffer) stream events
  else
    .returned (bytes_read, buffer) stream []

/-! ## Packet operations -/

/-- The value of `sizeof(size_t)`, which is `sizeof(sb_packethdr_t)`: the header has the
single member `size_t packet_len`. -/
def sizeof_size_t (sz : Nat) : Nat := sz / 8

/-- The `n` low-order bytes of `value`, least significant byte first. -/
def le_bytes : Nat → Nat → List Nat
  | 0, _ => []
  | n + 1, value => value % 256 :: le_bytes n (value / 256)

/-- The object representation of a `size_t` in memory, as the copy loop reads it byte by
byte through `&header`: little-endian, the byte order of the x86 targets (i386, amd64)
of MollenOS. -/
def size_t_bytes (sz value : Nat) : List Nat := le_bytes (sizeof_size_t sz) value

/-- The `size_t` whose object representation is the given bytes (each byte taken modulo
256), least significant byte first. -/
def size_t_of_bytes : List Nat → Nat
  | [] => 0
  | byte :: bytes => byte % 256 + 256 * size_t_of_bytes bytes

/-- The C function `streambuffer_write_packet_data(stream, buffer, length, state)`: the
result is the stream and `*state` after the call. -/
def streambuffer_write_packet_data (sz : Nat) (stream : streambuffer) (buffer : List Nat)
    (length : Nat) (state : Nat) : streambuffer × Nat :=
  let copied := write_loop sz stream.capacity buffer length stream.buffer state 0
  ({ stream with buffer := copied.1 }, copied.2.1)

/-- The C function `streambuffer_read_packet_data(stream, buffer, length, state)`: the
result is the caller's buffer and `*state` after the call. -/
def streambuffer_read_packet_data (sz : Nat) (stream : streambuffer) (buffer : List Nat)
    (length : Nat) (state : Nat) : List Nat × Nat :=
  let copied := read_loop sz stream.capacity stream.buffer length buffer state 0
  (copied.1, copied.2.1)

/-- The loop of the C function `streambuffer_write_packet_start`: `packet_len` is the
member of the local `header`, `length` the request with the header size added; the
value carried along is `bytes_allocated`, `*base_out` and `*state_out`. -/
def write_packet_start_loop (sz packet_len length : Nat) (options : Options) :
    Nat → streambuffer → Nat → Nat → Nat → List Event → Outcome (Nat × Nat × Nat)
  | 0, _, _, _, _, _ => .out_of_fuel
  | fuel + 1, stream, bytes_allocated, base_out, state_out, events =>
    if bytes_allocated == 0 then
      let write_index := stream.producer_index
      let read_index := stream.consumer_comitted_index
      let bytes_available :=
        min (bytes_writable sz stream.capacity read_index write_index) length
      if bytes_available < length then
        if !STREAMBUFFER_CAN_BLOCK options then
          .returned (bytes_allocated, base_out, state_out) stream events
        else
          .suspended
            { stream with producer_count := (stream.producer_count + 1) % UINT_MOD }
            (events ++ [.Syscall_FutexWait .consumer_comitted_index read_index
              (STREAMBUFFER_FUTEX_FLAGS stream)])
      else
        let stream :=
          { stream with producer_index := (write_index + bytes_available) % UINT_MOD }
        let written :=
          streambuffer_write_packet_data sz stream (size_t_bytes sz packet_len)
            (sizeof_size_t sz) write_index
        let stream := written.1
        let write_index := written.2
        write_packet_start_loop sz packet_len length options fuel stream bytes_available
          write_index write_index events
    else
      .returned (bytes_allocated, base_out, state_out) stream events

/-- The C function `streambuffer_write_packet_start(stream, length, options, base_out,
state_out)`; the value returned is `bytes_allocated` with `*base_out` and `*state_out`
after the call (`base_out`, `state_out` are their contents before it). -/
def streambuffer_write_packet_start (sz fuel : Nat) (stream : streambuffer) (length : Nat)
    (options : Options) (base_out state_out : Nat) : Outcome (Nat × Nat × Nat) :=
  write_packet_start_loop sz length (size_add sz length (sizeof_size_t sz)) options fuel
    stream 0 base_out state_out []

/-- The C function `streambuffer_write_packet_end(stream, base, length)`. -/
def streambuffer_write_packet_end (sz : Nat) (stream : streambuffer) (base length : Nat) :
    Outcome Unit :=
  if STREAMBUFFER_HAS_MULTIPLE_WRITERS stream &&
      decide (stream.producer_comitted_index <
        size_sub sz base (sizeof_size_t sz) % UINT_MOD) then
    .spinning stream []
  else
    let length := size_add sz length (sizeof_size_t sz)
    let stream :=
      { stream with
        producer_comitted_index := (stream.producer_comitted_index + length) % UINT_MOD }
    let val0 := stream.consumer_count
    let stream := { stream with consumer_count := 0 }
    .returned () stream
      (if val0 != 0 then
        [.Syscall_FutexWake .producer_comitted_index val0 (STREAMBUFFER_FUTEX_FLAGS stream)]
      else [])

/-- The loop of the C function `streambuffer_read_packet_start`; the value carried along
is `bytes_read`, `*base_out` and `*state_out`.  The local `header` is read only after
`streambuffer_read_packet_data` has filled all of its bytes. -/
def read_packet_start_loop (sz : Nat) (options : Options) :
    Nat → streambuffer → Nat → Nat → Nat → List Event → Outcome (Nat × Nat × Nat)
  | 0, _, _, _, _, _ => .out_of_fuel
  | fuel + 1, stream, bytes_read, base_out, state_out, events =>
    if bytes_read == 0 then
      let write_index := stream.producer_comitted_index
      let read_index := stream.consumer_index
      let bytes_available := bytes_readable sz stream.capacity read_index write_index
      let length :=
        if bytes_available != 0 then
          let header :=
            (streambuffer_read_packet_data sz stream (List.replicate (sizeof_size_t sz) 0)
              (sizeof_size_t sz) read_index).1
          size_add sz (size_t_of_bytes header) (sizeof_size_t sz)
        else sizeof_size_t sz
      let bytes_available := min bytes_available length
      if bytes_available < length then
        if !STREAMBUFFER_CAN_BLOCK options then
          .returned (bytes_read, base_out, state_out) stream events
        else
          .suspended
            { stream with consumer_count := (stream.consumer_count + 1) % UINT_MOD }
            (events ++ [.Syscall_FutexWait .producer_comitted_index write_index
              (STREAMBUFFER_FUTEX_FLAGS stream)])
      else
        let stream :=
          if !options.PEEK then
            { stream with consumer_index := (read_index + bytes_available) % UINT_MOD }
          else stream
        let read_index := (read_index + sizeof_size_t sz) % UINT_MOD
        read_packet_start_loop sz options fuel stream
          (size_sub sz bytes_available (sizeof_size_t sz)) read_index read_index events
    else
      .returned (bytes_read, base_out, state_out) stream events

/-- The C function `streambuffer_read_packet_start(stream, options, base_out, state_out)`;
the value returned is `bytes_read` with `*base_out` and `*state_out` after the call. -/
def streambuffer_read_packet_start (sz fuel : Nat) (stream : streambuffer)
    (options : Options) (base_out state_out : Nat) : Outcome (Nat × Nat × Nat) :=
  read_packet_start_loop sz options fuel stream 0 base_out state_out []

/-- The C function `streambuffer_read_packet_end(stream, base, length)`. -/
def streambuffer_read_packet_end (sz : Nat) (stream : streambuffer) (base length : Nat) :
    Outcome Unit :=
  if STREAMBUFFER_HAS_MULTIPLE_READERS stream &&
      decide (stream.consumer_comitted_index <
        size_sub sz (size_sub sz base (sizeof_size_t sz) % UINT_MOD) length) then
    .spinning stream []
  else
    let length := size_add sz length (sizeof_size_t sz)
    let stream :=
      { stream with
        consumer_comitted_index := (stream.consumer_comitted_index + length) % UINT_MOD }
    let val0 := stream.producer_count
    let stream := { stream with producer_count := 0 }
    .returned () stream
      (if val0 != 0 then
        [.Syscall_FutexWake .consumer_comitted_index val0 (STREAMBUFFER_FUTEX_FLAGS stream)]
      else [])

/-! ## Notions used by the statements -/

/-- The stream once a write of `length` bytes has been claimed and copied in, before
the commit. -/
def stream_out_claimed (sz : Nat) (stream : streambuffer) (buffer : List Nat)
    (length : Nat) : streambuffer :=
  { stream with
    producer_index := (stream.producer_index + length) % UINT_MOD
    buffer :=
      (write_loop sz stream.capacity buffer length stream.buffer stream.producer_index 0).1 }

/-- The stream once a write of `length` bytes has been claimed, copied in and
committed. -/
def stream_out_commit (sz : Nat) (stream : streambuffer) (buffer : List Nat)
    (length : Nat) : streambuffer :=
  { stream with
    producer_index := (stream.producer_index + length) % UINT_MOD
    buffer :=
      (write_loop sz stream.capacity buffer length stream.buffer stream.producer_index 0).1
    producer_comitted_index := (stream.producer_comitted_index + length) % UINT_MOD
    consumer_count := 0 }

/-- The stream once a read of `n` bytes has been claimed, copied out and committed. -/
def stream_in_commit (stream : streambuffer) (n : Nat) : streambuffer :=
  { stream with
    consumer_index := (stream.consumer_index + n) % UINT_MOD
    consumer_comitted_index := (stream.consumer_comitted_index + n) % UINT_MOD
    producer_count := 0 }

/-- The wake call a commit makes when the opposite waiter counter was `val0`. -/
def wake_events (futex0 : Futex) (val0 : Nat) (stream : streambuffer) : List Event :=
  if val0 != 0 then [.Syscall_FutexWake futex0 val0 (STREAMBUFFER_FUTEX_FLAGS stream)] else []

/-- A consistent, non-wrapped state between two calls of a single thread: the capacity
is the power of two `2^k` below `2^32`, the storage has `capacity` bytes, no claim is
in flight (each committed cursor equals its reservation cursor), the cursors are in
natural order and at most `capacity` bytes are unread. -/
def consistent_nonwrapped (k : Nat) (stream : streambuffer) : Prop :=
  k < 32 ∧ stream.capacity = 2 ^ k ∧ stream.buffer.length = 2 ^ k ∧
  stream.producer_comitted_index = stream.producer_index ∧
  stream.consumer_comitted_index = stream.consumer_index ∧
  stream.consumer_index ≤ stream.producer_index ∧
  stream.producer_index - stream.consumer_index ≤ 2 ^ k ∧
  stream.producer_index < UINT_MOD

instance (k : Nat) (stream : streambuffer) : Decidable (consistent_nonwrapped k stream) := by
  unfold consistent_nonwrapped
  infer_instance

/-- A call of a single-threaded history: `stream_out` of a whole caller buffer, or
`stream_in` of `length` bytes into a fresh caller buffer. -/
inductive StreamCall where
  | stream_out (buffer : List Nat) (options : Options)
  | stream_in (length : Nat) (options : Options)
deriving DecidableEq, Repr

/-- The call is made with `NO_BLOCK` and without `ALLOW_PARTIAL`. -/
def StreamCall.exact_noblock : StreamCall → Bool
  | .stream_out _ options => options.NO_BLOCK && !options.ALLOW_PARTIAL
  | .stream_in _ options => options.NO_BLOCK && !options.ALLOW_PARTIAL

/-- A stream together with the bytes its writes have accepted so far and the bytes its
reads have delivered so far. -/
structure History where
  stream : streambuffer
  accepted : List Nat
  delivered : List Nat
deriving DecidableEq, Repr

/-- Run one call of a history; `none` when the call does not return. -/
def run_call (sz fuel : Nat) (h : History) : StreamCall → Option History
  | .stream_out buffer options =>
    match streambuffer_stream_out sz fuel h.stream buffer buffer.length options with
    | .returned n stream _ =>
      some { stream := stream, accepted := h.accepted ++ buffer.take n, delivered := h.delivered }
    | _ => none
  | .stream_in length options =>
    match streambuffer_stream_in sz h.stream (List.replicate length 0) length options with
    | .returned value stream _ =>
      some { stream := stream, accepted := h.accepted,
             delivered := h.delivered ++ value.2.take value.1 }
    | _ => none

/-- Run a sequence of calls one after the other; a call that does not return ends the
history. -/
def run_calls (sz fuel : Nat) : History → List StreamCall → History
  | h, [] => h
  | h, call :: calls =>
    match run_call sz fuel h call with
    | some h' => run_calls sz fuel h' calls
    | none => h

/-- What a history of exact, non-blocking calls preserves: the cursors are the byte
counts of the history modulo `2^32`, no claim is in flight, the delivered bytes are the
first accepted bytes, at most `capacity` accepted bytes are undelivered, and each of
them sits in the storage cell of its position. -/
def History.invariant (k : Nat) (h : History) : Prop :=
  k < 32 ∧ h.stream.capacity = 2 ^ k ∧ h.stream.buffer.length = 2 ^ k ∧
  h.stream.options.OVERWRITE_ENABLED = false ∧
  h.stream.producer_index = h.accepted.length % UINT_MOD ∧
  h.stream.producer_comitted_index = h.stream.producer_index ∧
  h.stream.consumer_index = h.delivered.length % UINT_MOD ∧
  h.stream.consumer_comitted_index = h.stream.consumer_index ∧
  h.delivered.length ≤ h.accepted.length ∧
  h.accepted.length ≤ h.delivered.length + 2 ^ k ∧
  h.delivered = h.accepted.take h.delivered.length ∧
  ∀ j, h.delivered.length ≤ j → j < h.accepted.length →
    h.stream.buffer[j % 2 ^ k]? = h.accepted[j]?

/-- Every call of the sequence returns. -/
def calls_return (sz fuel : Nat) : History → List StreamCall → Bool
  | _, [] => true
  | h, call :: calls =>
    match run_call sz fuel h call with
    | some h' => calls_return sz fuel h' calls
    | none => false


/-- The stream once `streambuffer_write_packet_start` has claimed `total` bytes for a
packet of payload length `packet_len` and written its header. -/
def write_packet_claimed (sz : Nat) (stream : streambuffer) (packet_len total : Nat) :
    streambuffer :=
  { stream with
    producer_index := (stream.producer_index + total) % UINT_MOD
    buffer :=
      (write_loop sz stream.capacity (size_t_bytes sz packet_len) (sizeof_size_t sz)
        stream.buffer stream.producer_index 0).1 }

/-- The `n` storage bytes of a ring of capacity `2^k` from position `offset` on, each
position taken modulo the capacity. -/
def ring_bytes (k : Nat) (buffer : List Nat) (offset n : Nat) : List Nat :=
  (List.range n).map (fun i => buffer.getD ((offset + i) % 2 ^ k) 0)

/-- The bytes a sequence of packets occupies in the ring: for each payload its header,
the object representation of the payload length, followed by the payload. -/
def packet_bytes (sz : Nat) : List (List Nat) → List Nat
  | [] => []
  | payload :: payloads =>
    size_t_bytes sz payload.length ++ payload ++ packet_bytes sz payloads

/-- A run of `streambuffer_write_packet_data` calls, one per chunk, each continuing at
the `*state` the previous one left; the result is the stream and `*state` at the end. -/
def write_packet_chunks (sz : Nat) : streambuffer → Nat → List (List Nat) → streambuffer × Nat
  | stream, state, [] => (stream, state)
  | stream, state, chunk :: chunks =>
    write_packet_chunks sz
      (streambuffer_write_packet_data sz stream chunk chunk.length state).1
      (streambuffer_write_packet_data sz stream chunk chunk.length state).2 chunks

/-- One whole packet write by a single thread: `streambuffer_write_packet_start`, then
`streambuffer_write_packet_data` for the payload, then `streambuffer_write_packet_end`;
`none` when the start claims nothing or a step does not return. -/
def write_packet (sz fuel : Nat) (stream : streambuffer) (payload : List Nat)
    (options : Options) : Option streambuffer :=
  match streambuffer_write_packet_start sz fuel stream payload.length options 0 0 with
  | .returned value stream _ =>
    if value.1 == 0 then none
    else
      match streambuffer_write_packet_end sz
          (streambuffer_write_packet_data sz stream payload payload.length value.2.2).1
          value.2.1 payload.length with
      | .returned _ stream _ => some stream
      | _ => none
  | _ => none

/-- One packet read by a single thread: `streambuffer_read_packet_start`, then
`streambuffer_read_packet_data` of the returned length from the returned state into a
fresh buffer; `none` when the start returns 0 or does not return. -/
def read_packet (sz fuel : Nat) (stream : streambuffer) (options : Options) :
    Option (List Nat × streambuffer) :=
  match streambuffer_read_packet_start sz fuel stream options 0 0 with
  | .returned value stream _ =>
    if value.1 == 0 then none
    else
      some ((streambuffer_read_packet_data sz stream (List.replicate value.1 0) value.1
        value.2.2).1, stream)
  | _ => none

/-- Write the packets one after the other. -/
def write_packets (sz fuel : Nat) (options : Options) :
    streambuffer → List (List Nat) → Option streambuffer
  | stream, [] => some stream
  | stream, payload :: payloads =>
    match write_packet sz fuel stream payload options with
    | some stream => write_packets sz fuel options stream payloads
    | none => none

/-- Read `n` packets one after the other; the result is their payloads in the order
read. -/
def read_packets (sz fuel : Nat) (options : Options) :
    Nat → streambuffer → Option (List (List Nat))
  | 0, _ => some []
  | n + 1, stream =>
    match read_packet sz fuel stream options with
    | some value => (read_packets sz fuel options n value.2).map (fun rest => value.1 :: rest)
    | none => none

/-- The frame length `streambuffer_read_packet_start` works with in a pass of its loop:
the header size alone when nothing is readable, otherwise the header size plus the
`packet_len` it reads from the storage at consumer_index. -/
def read_packet_frame_length (sz : Nat) (stream : streambuffer) : Nat :=
  if bytes_readable sz stream.capacity stream.consumer_index
      stream.producer_comitted_index != 0 then
    size_add sz
      (size_t_of_bytes
        (streambuffer_read_packet_data sz stream (List.replicate (sizeof_size_t sz) 0)
          (sizeof_size_t sz) stream.consumer_index).1)
      (sizeof_size_t sz)
  else sizeof_size_t sz

/-- The stream once `streambuffer_write_packet_end` has committed a packet of payload
length `length`. -/
def write_packet_committed (sz : Nat) (stream : streambuffer) (length : Nat) : streambuffer :=
  { stream with
    producer_comitted_index :=
      (stream.producer_comitted_index + size_add sz length (sizeof_size_t sz)) % UINT_MOD
    consumer_count := 0 }

/-- The oldest unread data of the stream is a complete committed packet with the given
payload, in a non-wrapped state: the capacity is the power of two `2^k` below `2^32`,
the storage has `capacity` bytes, consumer_index has not passed producer_committed, and
the ring holds the header (the payload length) and the payload from consumer_index on,
all of it committed. -/
def oldest_packet (sz k : Nat) (stream : streambuffer) (payload : List Nat) : Prop :=
  k < 32 ∧ stream.capacity = 2 ^ k ∧ stream.buffer.length = 2 ^ k ∧
  stream.consumer_index ≤ stream.producer_comitted_index ∧
  stream.producer_comitted_index < UINT_MOD ∧
  sizeof_size_t sz + payload.length ≤
    stream.producer_comitted_index - stream.consumer_index ∧
  ring_bytes k stream.buffer stream.consumer_index (sizeof_size_t sz + payload.length) =
    size_t_bytes sz payload.length ++ payload

instance (sz k : Nat) (stream : streambuffer) (payload : List Nat) :
    Decidable (oldest_packet sz k stream payload) := by
  unfold oldest_packet
  infer_instance

/-- The stream after one whole packet write: the claim with the header, the payload
copied in behind it, and the commit. -/
def write_packet_result (sz : Nat) (stream : streambuffer) (payload : List Nat) :
    streambuffer :=
  write_packet_committed sz
    (streambuffer_write_packet_data sz
      (write_packet_claimed sz stream payload.length
        (size_add sz payload.length (sizeof_size_t sz)))
      payload payload.length ((stream.producer_index + sizeof_size_t sz) % UINT_MOD)).1
    payload.length

/-- The total number of bytes of a list of chunks. -/
def chunks_length : List (List Nat) → Nat
  | [] => 0
  | chunk :: chunks => chunk.length + chunks_length chunks

/-- The stream once `streambuffer_try_truncate` has discarded `n` unread bytes. -/
def truncated (stream : streambuffer) (n : Nat) : streambuffer :=
  { stream with
    consumer_index := (stream.consumer_index + n) % UINT_MOD
    consumer_comitted_index := (stream.consumer_comitted_index + n) % UINT_MOD }


/-! ## Sequences of calls by one thread -/

/-- The wrapping 32-bit distance from cursor `a` forward to cursor `b`. -/
def cursor_distance (a b : Nat) : Nat := (b + UINT_MOD - a) % UINT_MOD

/-- The cursor invariant: measured as wrapping 32-bit distances from consumer_committed,
the cursors come in the order consumer_committed, consumer_index, producer_committed,
producer_index, and producer_index is at most `capacity` ahead of consumer_committed. -/
def cursor_invariant (stream : streambuffer) : Prop :=
  cursor_distance stream.consumer_comitted_index stream.consumer_index ≤
    cursor_distance stream.consumer_comitted_index stream.producer_comitted_index ∧
  cursor_distance stream.consumer_comitted_index stream.producer_comitted_index ≤
    cursor_distance stream.consumer_comitted_index stream.producer_index ∧
  cursor_distance stream.consumer_comitted_index stream.producer_index ≤ stream.capacity

instance (stream : streambuffer) : Decidable (cursor_invariant stream) := by
  unfold cursor_invariant
  infer_instance

/-- A call a single thread makes on a stream.  The packet calls take the `base`,
`state` and `length` arguments they need from the claim the thread holds, see
`Session`. -/
inductive Operation where
  | stream_out (buffer : List Nat) (options : Options)
  | stream_in (length : Nat) (options : Options)
  | write_packet_start (length : Nat) (options : Options)
  | write_packet_data (buffer : List Nat)
  | write_packet_end
  | read_packet_start (options : Options)
  | read_packet_end
deriving DecidableEq, Repr

/-- A stream together with what its single user holds between calls: `write_claim` is
the `base`, the current `state` and the payload length of the packet being written
(after a `streambuffer_write_packet_start` that claimed, before the matching
`streambuffer_write_packet_end`), `read_claim` the `base` and the length returned by a
`streambuffer_read_packet_start` without PEEK that claimed, before the matching
`streambuffer_read_packet_end`. -/
structure Session where
  stream : streambuffer
  write_claim : Option (Nat × Nat × Nat)
  read_claim : Option (Nat × Nat)
deriving DecidableEq, Repr

/-- Run one call of a session.  The start and end calls of a packet come in pairs: an
end call is made with the base and the length of the claim held, a start call is made
only when no claim of its kind is held, and a start call that returns 0 or is a PEEK
leaves no claim.  The result is `none` when the call is out of sequence or does not
return. -/
def run_operation (sz fuel : Nat) (s : Session) : Operation → Option Session
  | .stream_out buffer options =>
    match streambuffer_stream_out sz fuel s.stream buffer buffer.length options with
    | .returned _ stream _ => some { s with stream := stream }
    | _ => none
  | .stream_in length options =>
    match streambuffer_stream_in sz s.stream (List.replicate length 0) length options with
    | .returned _ stream _ => some { s with stream := stream }
    | _ => none
  | .write_packet_start length options =>
    match s.write_claim with
    | some _ => none
    | none =>
      match streambuffer_write_packet_start sz fuel s.stream length options 0 0 with
      | .returned value stream _ =>
        if value.1 == 0 then some { s with stream := stream }
        else some { s with stream := stream, write_claim := some (value.2.1, value.2.2, length) }
      | _ => none
  | .write_packet_data buffer =>
    match s.write_claim with
    | some claim =>
      some { s with
        stream := (streambuffer_write_packet_data sz s.stream buffer buffer.length claim.2.1).1
        write_claim :=
          some (claim.1,
            (streambuffer_write_packet_data sz s.stream buffer buffer.length claim.2.1).2,
            claim.2.2) }
    | none => none
  | .write_packet_end =>
    match s.write_claim with
    | some claim =>
      match streambuffer_write_packet_end sz s.stream claim.1 claim.2.2 with
      | .returned _ stream _ => some { s with stream := stream, write_claim := none }
      | _ => none
    | none => none
  | .read_packet_start options =>
    match s.read_claim with
    | some _ => none
    | none =>
      match streambuffer_read_packet_start sz fuel s.stream options 0 0 with
      | .returned value stream _ =>
        if value.1 == 0 || options.PEEK then some { s with stream := stream }
        else some { s with stream := stream, read_claim := some (value.2.1, value.1) }
      | _ => none
  | .read_packet_end =>
    match s.read_claim with
    | some claim =>
      match streambuffer_read_packet_end sz s.stream claim.1 claim.2 with
      | .returned _ stream _ => some { s with stream := stream, read_claim := none }
      | _ => none
    | none => none

/-- Run a sequence of calls one after the other; the run stops at a call that is out of
sequence or does not return. -/
def run_operations (sz fuel : Nat) : Session → List Operation → Session
  | s, [] => s
  | s, operation :: operations =>
    match run_operation sz fuel s operation with
    | some s' => run_operations sz fuel s' operations
    | none => s

/-- Every call of the sequence is in sequence and returns. -/
def operations_return (sz fuel : Nat) : Session → List Operation → Bool
  | _, [] => true
  | s, operation :: operations =>
    match run_operation sz fuel s operation with
    | some s' => operations_return sz fuel s' operations
    | none => false

/-- The number of bytes a claim held by the session has reserved and not yet committed:
the payload length plus the header size, as the end call will add it. -/
def claimed_bytes (sz : Nat) : Option Nat → Nat
  | some length => size_add sz length (sizeof_size_t sz)
  | none => 0

/-- The capacity is the power of two `2^k`, the cursors are 32-bit values that satisfy the
cursor invariant, and `w` bytes lie between producer_committed and producer_index, `r`
bytes between consumer_committed and consumer_index. -/
def cursors_ordered (k w r : Nat) (stream : streambuffer) : Prop :=
  k < 32 ∧ stream.capacity = 2 ^ k ∧
  stream.producer_index < UINT_MOD ∧ stream.producer_comitted_index < UINT_MOD ∧
  stream.consumer_index < UINT_MOD ∧ stream.consumer_comitted_index < UINT_MOD ∧
  cursor_distance stream.consumer_comitted_index stream.consumer_index ≤
    cursor_distance stream.consumer_comitted_index stream.producer_comitted_index ∧
  cursor_distance stream.consumer_comitted_index stream.producer_comitted_index + w ≤
    cursor_distance stream.consumer_comitted_index stream.producer_index ∧
  cursor_distance stream.consumer_comitted_index stream.producer_index ≤ 2 ^ k ∧
  r ≤ cursor_distance stream.consumer_comitted_index stream.consumer_index

/-- What every call of a session preserves: the cursors are ordered, and the bytes of
the claims held lie between the committed cursor and the reservation cursor of their
side. -/
def Session.invariant (sz k : Nat) (s : Session) : Prop :=
  cursors_ordered k (claimed_bytes sz (s.write_claim.map (fun claim => claim.2.2)))
    (claimed_bytes sz (s.read_claim.map (fun claim => claim.2))) s.stream

/-! ## Calls whose futex waits return

The loops above model a thread that is alone: a `Syscall_FutexWait` never returns.  The
loops below are the same code for a thread whose waits do return.  `wakes` lists one
entry per wait that returns: what the other threads have made of the shared stream, as
the thread left it when it went to sleep, by the time the wait returns (the identity
for a spurious wake-up).  With no entry left a wait does not return. -/

/-- The loop of `streambuffer_stream_out` with waits that return. -/
def stream_out_loop_woken (sz : Nat) (buffer : List Nat) (length : Nat) (options : Options) :
    Nat → List (streambuffer → streambuffer) → streambuffer → Nat → List Event → Outcome Nat
  | 0, _, _, _, _ => .out_of_fuel
  | fuel + 1, wakes, stream, bytes_written, events =>
    if bytes_written < length then
      let write_index := stream.producer_index
      let read_index := stream.consumer_comitted_index
      let bytes_available :=
        min (bytes_writable sz stream.capacity read_index write_index) (length - bytes_written)
      let bytes_comitted := bytes_available
      if !STREAMBUFFER_CAN_STREAM stream options bytes_available (length - bytes_written) then
        if !STREAMBUFFER_CAN_BLOCK options then
          .returned bytes_written stream events
        else
          let stream := { stream with producer_count := (stream.producer_count + 1) % UINT_MOD }
          let events :=
            events ++ [.Syscall_FutexWait .consumer_comitted_index read_index
              (STREAMBUFFER_FUTEX_FLAGS stream)]
          match wakes with
          | [] => .suspended stream events
          | wake :: wakes =>
            stream_out_loop_woken sz buffer length options fuel wakes (wake stream)
              bytes_written events
      else if bytes_available < length - bytes_written then
        match streambuffer_try_truncate sz stream options (length - bytes_written) with
        | .returned _ stream _ =>
          stream_out_loop_woken sz buffer length options fuel wakes stream bytes_written events
        | .suspended stream _ => .suspended stream events
        | .spinning stream _ => .spinning stream events
        | .out_of_fuel => .out_of_fuel
      else
        let stream :=
          { stream with producer_index := (write_index + bytes_available) % UINT_MOD }
        let copied :=
          write_loop sz stream.capacity buffer bytes_available stream.buffer write_index
            bytes_written
        let stream := { stream with buffer := copied.1 }
        let write_index := copied.2.1
        let bytes_written := copied.2.2
        if STREAMBUFFER_HAS_MULTIPLE_WRITERS stream &&
            decide (stream.producer_comitted_index < size_sub sz write_index bytes_comitted) then
          .spinning stream events
        else
          let stream :=
            { stream with
              producer_comitted_index :=
                (stream.producer_comitted_index + bytes_comitted) % UINT_MOD }
          let val0 := stream.consumer_count
          let stream := { stream with consumer_count := 0 }
          let events :=
            if val0 != 0 then
              events ++ [.Syscall_FutexWake .producer_comitted_index val0
                (STREAMBUFFER_FUTEX_FLAGS stream)]
            else events
          stream_out_loop_woken sz buffer length options fuel wakes stream bytes_written events
    else
      .returned bytes_written stream events

/-- The loop of `streambuffer_write_packet_start` with waits that return. -/
def write_packet_start_loop_woken (sz packet_len length : Nat) (options : Options) :
    Nat → List (streambuffer → streambuffer) → streambuffer → Nat → Nat → Nat → List Event →
      Outcome (Nat × Nat × Nat)
  | 0, _, _, _, _, _, _ => .out_of_fuel
  | fuel + 1, wakes, stream, bytes_allocated, base_out, state_out, events =>
    if bytes_allocated == 0 then
      let write_index := stream.producer_index
      let read_index := stream.consumer_comitted_index
      let bytes_available :=
        min (bytes_writable sz stream.capacity read_index write_index) length
      if bytes_available < length then
        if !STREAMBUFFER_CAN_BLOCK options then
          .returned (bytes_allocated, base_out, state_out) stream events
        else
          let stream := { stream with producer_count := (stream.producer_count + 1) % UINT_MOD }
          let events :=
            events ++ [.Syscall_FutexWait .consumer_comitted_index read_index
              (STREAMBUFFER_FUTEX_FLAGS stream)]
          match wakes with
          | [] => .suspended stream events
          | wake :: wakes =>
            write_packet_start_loop_woken sz packet_len length options fuel wakes (wake stream)
              bytes_allocated base_out state_out events
      else
        let stream :=
          { stream with producer_index := (write_index + bytes_available) % UINT_MOD }
        let written :=
          streambuffer_write_packet_data sz stream (size_t_bytes sz packet_len)
            (sizeof_size_t sz) write_index
        let stream := written.1
        let write_index := written.2
        write_packet_start_loop_woken sz packet_len length options fuel wakes stream
          bytes_available write_index write_index events
    else
      .returned (bytes_allocated, base_out, state_out) stream events

/-- The loop of `streambuffer_stream_in` with waits that return.  A pass of the loop
ends in `break` or in a wait, so the loop makes one pass per wait that returns and one
more. -/
def stream_in_loop_woken (sz : Nat) (buffer : List Nat) (length : Nat) (options : Options) :
    List (streambuffer → streambuffer) → streambuffer → List Event →
      Outcome (Nat × List Nat)
  | wakes, stream, events =>
    let bytes_read := 0
    if bytes_read < length then
      let write_index := stream.producer_comitted_index
      let read_index := stream.consumer_index
      let bytes_available :=
        min (bytes_readable sz stream.capacity read_index write_index) (length - bytes_read)
      let bytes_comitted := bytes_available
      if !STREAMBUFFER_CAN_READ options bytes_available (length - bytes_read) then
        if !STREAMBUFFER_CAN_BLOCK options then
          .returned (bytes_read, buffer) stream events
        else
          let stream := { stream with consumer_count := (stream.consumer_count + 1) % UINT_MOD }
          let events :=
            events ++ [.Syscall_FutexWait .producer_comitted_index write_index
              (STREAMBUFFER_FUTEX_FLAGS stream)]
          match wakes with
          | [] => .suspended stream events
          | wake :: wakes =>
            stream_in_loop_woken sz buffer length options wakes (wake stream) events
      else
        let stream :=
          { stream with consumer_index := (read_index + bytes_available) % UINT_MOD }
        let copied :=
          read_loop sz stream.capacity stream.buffer bytes_available buffer read_index bytes_read
        let buffer := copied.1
        let read_index := copied.2.1
        let bytes_read := copied.2.2
        if STREAMBUFFER_HAS_MULTIPLE_READERS stream &&
            decide (stream.consumer_comitted_index < size_sub sz read_index bytes_comitted) then
          .spinning stream events
        else
          let stream :=
            { stream with
              consumer_comitted_index :=
                (stream.consumer_comitted_index + bytes_comitted) % UINT_MOD }
          let val0 := stream.producer_count
          let stream := { stream with producer_count := 0 }
          let events :=
            if val0 != 0 then
              events ++ [.Syscall_FutexWake .consumer_comitted_index val0
                (STREAMBUFFER_FUTEX_FLAGS stream)]
            else events
          .returned (bytes_read, buffer) stream events
    else
      .returned (bytes_read, buffer) stream events

/-- The loop of `streambuffer_read_packet_start` with waits that return. -/
def read_packet_start_loop_woken (sz : Nat) (options : Options) :
    Nat → List (streambuffer → streambuffer) → streambuffer → Nat → Nat → Nat → List Event →
      Outcome (Nat × Nat × Nat)
  | 0, _, _, _, _, _, _ => .out_of_fuel
  | fuel + 1, wakes, stream, bytes_read, base_out, state_out, events =>
    if bytes_read == 0 then
      let write_index := stream.producer_comitted_index
      let read_index := stream.consumer_index
      let bytes_available := bytes_readable sz stream.capacity read_index write_index
      let length :=
        if bytes_available != 0 then
          let header :=
            (streambuffer_read_packet_data sz stream (List.replicate (sizeof_size_t sz) 0)
              (sizeof_size_t sz) read_index).1
          size_add sz (size_t_of_bytes header) (sizeof_size_t sz)
        else sizeof_size_t sz
      let bytes_available := min bytes_available length
      if bytes_available < length then
        if !STREAMBUFFER_CAN_BLOCK options then
          .returned (bytes_read, base_out, state_out) stream events
        else
          let stream := { stream with consumer_count := (stream.consumer_count + 1) % UINT_MOD }
          let events :=
            events ++ [.Syscall_FutexWait .producer_comitted_index write_index
              (STREAMBUFFER_FUTEX_FLAGS stream)]
          match wakes with
          | [] => .suspended stream events
          | wake :: wakes =>
            read_packet_start_loop_woken sz options fuel wakes (wake stream) bytes_read
              base_out state_out events
      else
        let stream :=
          if !options.PEEK then
            { stream with consumer_index := (read_index + bytes_available) % UINT_MOD }
          else stream
        let read_index := (read_index + sizeof_size_t sz) % UINT_MOD
        read_packet_start_loop_woken sz options fuel wakes stream
          (size_sub sz bytes_available (sizeof_size_t sz)) read_index read_index events
    else
      .returned (bytes_read, base_out, state_out) stream events

/-! ## Concurrent producers

Several threads inside `streambuffer_stream_out` on one stream.  A step of the model
is one thread running from one program point to the next without being interrupted; a
schedule names the thread that takes each step. -/

/-- The program points of `streambuffer_stream_out` between which a thread can be
interrupted: `claim` is the head of the loop, `copy` the copy loop after the
compare-and-swap of the claim succeeded, `wait` the commit-order wait, `commit` the
fetch-and-add on producer_committed with the wake behind it, `truncate_wait` the
commit-order wait of `streambuffer_try_truncate`, `blocked` is inside
`Syscall_FutexWait`, `done` is after the return. -/
inductive ProducerPoint where
  | claim
  | copy
  | wait
  | commit
  | truncate_wait
  | blocked
  | done
deriving DecidableEq, Repr

/-- A thread inside `streambuffer_stream_out(stream, buffer, length, options)`: its
arguments, where it stands, and its locals (`read_index` is the local of
`streambuffer_try_truncate` while the thread is in there). -/
structure Producer where
  buffer : List Nat
  length : Nat
  options : Options
  point : ProducerPoint
  bytes_written : Nat
  write_index : Nat
  read_index : Nat
  bytes_available : Nat
  bytes_comitted : Nat
deriving DecidableEq, Repr

/-- A call of `streambuffer_stream_out` that is about to start. -/
def Producer.start (buffer : List Nat) (length : Nat) (options : Options) : Producer :=
  ⟨buffer, length, options, .claim, 0, 0, 0, 0, 0⟩

/-- One step of a thread inside `streambuffer_stream_out`: the stream, the thread and the
futex calls it made. -/
def producer_step (sz : Nat) (stream : streambuffer) (t : Producer) :
    streambuffer × Producer × List Event :=
  match t.point with
  | .claim =>
    if t.bytes_written < t.length then
      let write_index := stream.producer_index
      let read_index := stream.consumer_comitted_index
      let bytes_available :=
        min (bytes_writable sz stream.capacity read_index write_index)
          (t.length - t.bytes_written)
      if !STREAMBUFFER_CAN_STREAM stream t.options bytes_available
          (t.length - t.bytes_written) then
        if !STREAMBUFFER_CAN_BLOCK t.options then
          (stream, { t with point := .done }, [])
        else
          ({ stream with producer_count := (stream.producer_count + 1) % UINT_MOD },
            { t with point := .blocked },
            [.Syscall_FutexWait .consumer_comitted_index read_index
              (STREAMBUFFER_FUTEX_FLAGS stream)])
      else if bytes_available < t.length - t.bytes_written then
        let length := t.length - t.bytes_written
        let write_index := stream.producer_comitted_index
        let read_index := stream.consumer_index
        let bytes_available :=
          min (bytes_readable sz stream.capacity read_index write_index) length
        if !STREAMBUFFER_CAN_READ t.options bytes_available length then
          (stream, t, [])
        else
          ({ stream with consumer_index := (read_index + bytes_available) % UINT_MOD },
            { t with
              point := .truncate_wait, read_index := read_index,
              bytes_comitted := bytes_available },
            [])
      else
        ({ stream with producer_index := (write_index + bytes_available) % UINT_MOD },
          { t with
            point := .copy, write_index := write_index, bytes_available := bytes_available,
            bytes_comitted := bytes_available },
          [])
    else
      (stream, { t with point := .done }, [])
  | .copy =>
    if t.bytes_available != 0 then
      ({ stream with
          buffer :=
            stream.buffer.set (t.write_index &&& size_sub sz stream.capacity 1)
              (t.buffer.getD t.bytes_written 0) },
        { t with
          write_index := (t.write_index + 1) % UINT_MOD,
          bytes_written := t.bytes_written + 1, bytes_available := t.bytes_available - 1 },
        [])
    else
      (stream, { t with point := .wait }, [])
  | .wait =>
    if STREAMBUFFER_HAS_MULTIPLE_WRITERS stream &&
        decide (stream.producer_comitted_index <
          size_sub sz t.write_index t.bytes_comitted) then
      (stream, t, [])
    else
      (stream, { t with point := .commit }, [])
  | .commit =>
    ({ stream with
        producer_comitted_index :=
          (stream.producer_comitted_index + t.bytes_comitted) % UINT_MOD,
        consumer_count := 0 },
      { t with point := .claim },
      if stream.consumer_count != 0 then
        [.Syscall_FutexWake .producer_comitted_index stream.consumer_count
          (STREAMBUFFER_FUTEX_FLAGS stream)]
      else [])
  | .truncate_wait =>
    if STREAMBUFFER_HAS_MULTIPLE_READERS stream &&
        decide (stream.consumer_comitted_index <
          size_sub sz t.read_index t.bytes_comitted) then
      (stream, t, [])
    else
      ({ stream with
          consumer_comitted_index :=
            (stream.consumer_comitted_index + t.bytes_comitted) % UINT_MOD },
        { t with point := .claim }, [])
  | .blocked => (stream, { t with point := .claim }, [])
  | .done => (stream, t, [])

/-- A stream with the threads that are inside `streambuffer_stream_out` on it and the
futex calls made so far. -/
structure Machine where
  stream : streambuffer
  producers : List Producer
  events : List Event
deriving DecidableEq, Repr

/-- Thread number `i` takes one step (nothing happens when there is no such thread). -/
def machine_step (sz : Nat) (m : Machine) (i : Nat) : Machine :=
  match m.producers[i]? with
  | some t =>
    { stream := (producer_step sz m.stream t).1
      producers := m.producers.set i (producer_step sz m.stream t).2.1
      events := m.events ++ (producer_step sz m.stream t).2.2 }
  | none => m

/-- Run a schedule: the threads take their steps in the order given. -/
def machine_run (sz : Nat) : Machine → List Nat → Machine
  | m, [] => m
  | m, i :: schedule => machine_run sz (machine_step sz m i) schedule

/-- The buffer of capacity 16 with MULTIPLE_WRITERS through which `p` bytes of value 238
have passed: nothing is unread, all four cursors are at `p` and every storage byte is
238. -/
def drained (p : Nat) : streambuffer :=
  ⟨16, { Options.none with MULTIPLE_WRITERS := true }, p, p, p, p, 0, 0, List.replicate 16 238⟩

/-- The calls that bring a fresh buffer of capacity 16 to `drained 4294967291`: 11 bytes
are written and read, then 268435455 times 16 bytes are written and read. -/
def drain_operations : List Operation :=
  .stream_out (List.replicate 11 238) Options.none :: .stream_in 11 Options.none ::
    (List.replicate 268435455
      [.stream_out (List.replicate 16 238) Options.none, .stream_in 16 Options.none]).flatten


end MollenOS

namespace MollenOS

/-! ## Arithmetic lemmas -/

theorem uint_mod_le_two_pow {sz : Nat} (hsz : 32 ≤ sz) : 4294967296 ≤ 2 ^ sz :=
  calc 4294967296 = 2 ^ 32 := by norm_num
    _ ≤ 2 ^ sz := Nat.pow_le_pow_right (by norm_num) hsz

theorem two_pow_le_of_lt_32 {k : Nat} (hk : k < 32) : 2 ^ k ≤ 2147483648 :=
  calc 2 ^ k ≤ 2 ^ 31 := Nat.pow_le_pow_right (by norm_num) (by omega)
    _ = 2147483648 := by norm_num

theorem size_sub_of_le {sz a b : Nat} (h : b ≤ a) (ha : a < 2 ^ sz) :
    size_sub sz a b = a - b := by
  unfold size_sub
  rw [show a + 2 ^ sz - b = (a - b) + 2 ^ sz by omega, Nat.add_mod_right,
    Nat.mod_eq_of_lt (by omega)]

theorem size_sub_of_lt {sz a b : Nat} (h : a < b) (hb : b ≤ 2 ^ sz) :
    size_sub sz a b = a + 2 ^ sz - b := by
  unfold size_sub
  exact Nat.mod_eq_of_lt (by omega)

theorem size_add_of_lt {sz a b : Nat} (h : a + b < 2 ^ sz) : size_add sz a b = a + b := by
  unfold size_add
  exact Nat.mod_eq_of_lt h

/-- The ring mask `capacity - 1` of a power-of-two capacity selects the residue. -/
theorem and_mask {sz k : Nat} (hsz : 32 ≤ sz) (hk : k < 32) (x : Nat) :
    x &&& size_sub sz (2 ^ k) 1 = x % 2 ^ k := by
  have h1 : 1 ≤ 2 ^ k := Nat.one_le_two_pow
  have h2 := two_pow_le_of_lt_32 hk
  have h3 := uint_mod_le_two_pow hsz
  rw [size_sub_of_le h1 (by omega)]
  exact Nat.and_pow_two_sub_one_eq_mod x k

/-- A power of two below `2^32` divides the cursor modulus. -/
theorem two_pow_dvd_uint_mod {k : Nat} (hk : k < 32) : 2 ^ k ∣ 4294967296 := by
  have : (4294967296 : Nat) = 2 ^ 32 := by norm_num
  rw [this]
  exact Nat.pow_dvd_pow 2 (by omega)

theorem mod_add_eq_of_add_mod_eq_zero {a c x : Nat} (hx : 1 ≤ x) (hxc : x ≤ c)
    (h : (a + x) % c = 0) : a % c + x = c := by
  have hc : 0 < c := by omega
  have ha : a % c < c := Nat.mod_lt a hc
  have h' : (a % c + x) % c = 0 := by rw [Nat.add_mod, Nat.mod_mod, ← Nat.add_mod]; exact h
  by_cases hlt : a % c + x < c
  · rw [Nat.mod_eq_of_lt hlt] at h'
    omega
  · have h2 : (a % c + x) % c = a % c + x - c := by
      rw [Nat.mod_eq_sub_mod (by omega), Nat.mod_eq_of_lt (by omega)]
    omega

/-- The residue of a cursor `r` that lies `x ≤ capacity` below the wrap point. -/
theorem mod_of_near_wrap {k r x : Nat} (hk : k < 32) (hx : 1 ≤ x) (hxc : x ≤ 2 ^ k)
    (hr : r + x = 4294967296) : r % 2 ^ k + x = 2 ^ k := by
  apply mod_add_eq_of_add_mod_eq_zero hx hxc
  rw [hr]
  exact Nat.mod_eq_zero_of_dvd (two_pow_dvd_uint_mod hk)

/-- The value of `bytes_writable` on cursors whose wrapping distance is at most the
capacity. -/
theorem bytes_writable_eq {sz k r w : Nat} (hsz : 32 ≤ sz) (hk : k < 32)
    (hr : r < 4294967296) (hw : w < 4294967296)
    (hd : (w + 4294967296 - r) % 4294967296 ≤ 2 ^ k) :
    bytes_writable sz (2 ^ k) r w = 2 ^ k - (w + 4294967296 - r) % 4294967296 := by
  have h1 : 1 ≤ 2 ^ k := Nat.one_le_two_pow
  have h2 := two_pow_le_of_lt_32 hk
  have h3 := uint_mod_le_two_pow hsz
  unfold bytes_writable
  by_cases hrw : r > w
  · have hd' : (w + 4294967296 - r) % 4294967296 = w + 4294967296 - r := by omega
    rw [hd'] at hd ⊢
    have hU : size_sub sz UINT_MAX (2 ^ k) = 4294967295 - 2 ^ k := by
      unfold UINT_MAX
      exact size_sub_of_le (by omega) (by omega)
    rw [if_pos hrw, hU, if_pos (by omega), and_mask hsz hk, and_mask hsz hk]
    have hrm := mod_of_near_wrap (r := r) (x := 4294967296 - r) hk (by omega) (by omega)
      (by omega)
    have hwm : w % 2 ^ k = w := Nat.mod_eq_of_lt (by omega)
    rw [hwm, size_sub_of_le (by omega) (by omega)]
    omega
  · rw [if_neg hrw]
    have hd' : (w + 4294967296 - r) % 4294967296 = w - r := by omega
    rw [hd'] at hd ⊢
    rw [size_sub_of_le (a := w) (b := r) (by omega) (by omega),
      size_sub_of_le (by omega) (by omega)]

/-- The value of `bytes_readable` on cursors that have not wrapped apart. -/
theorem bytes_readable_of_le {sz r w : Nat} (hsz : 32 ≤ sz) (hrw : r ≤ w)
    (hw : w < 4294967296) : bytes_readable sz capacity r w = w - r := by
  have h3 := uint_mod_le_two_pow hsz
  unfold bytes_readable
  rw [if_neg (by omega), size_sub_of_le hrw (by omega)]

/-- The value of `bytes_readable` when the producer cursor has wrapped and the consumer
cursor has not: one less than the wrapping distance. -/
theorem bytes_readable_wrapped {sz k r w : Nat} (hsz : 32 ≤ sz) (hk : k < 32)
    (hr : r < 4294967296) (hrw : w < r) (hd : w + 4294967296 - r ≤ 2 ^ k) :
    bytes_readable sz (2 ^ k) r w = w + 4294967296 - r - 1 := by
  have h1 : 1 ≤ 2 ^ k := Nat.one_le_two_pow
  have h2 := two_pow_le_of_lt_32 hk
  have h3 := uint_mod_le_two_pow hsz
  unfold bytes_readable
  have hU : size_sub sz UINT_MAX (2 ^ k) = 4294967295 - 2 ^ k := by
    unfold UINT_MAX
    exact size_sub_of_le (by omega) (by omega)
  rw [if_pos hrw, hU, if_pos (by omega), and_mask hsz hk, and_mask hsz hk]
  have hrm := mod_of_near_wrap (r := r) (x := 4294967296 - r) hk (by omega) (by omega)
    (by omega)
  have hwm : w % 2 ^ k = w := Nat.mod_eq_of_lt (by omega)
  have hrl : r % 2 ^ k < 2 ^ k := Nat.mod_lt _ (by omega)
  rw [hwm, size_sub_of_le (a := 2 ^ k) (b := r % 2 ^ k) (by omega) (by omega),
    size_add_of_lt (by omega), size_sub_of_le (by omega) (by omega)]
  omega

theorem mod_uint_add_mod {k : Nat} (hk : k < 32) (a b : Nat) :
    (a % 4294967296 + b) % 2 ^ k = (a + b) % 2 ^ k := by
  rw [Nat.add_mod, Nat.mod_mod_of_dvd a (two_pow_dvd_uint_mod hk), ← Nat.add_mod]

theorem mod_uint_mod {k : Nat} (hk : k < 32) (a : Nat) :
    a % 4294967296 % 2 ^ k = a % 2 ^ k :=
  Nat.mod_mod_of_dvd a (two_pow_dvd_uint_mod hk)

theorem mod_ne_of_lt_of_lt_add {a b c : Nat} (h1 : a < b) (h2 : b < a + c) :
    a % c ≠ b % c := by
  intro h
  have h3 : (b - a) % c = 0 := Nat.sub_mod_eq_zero_of_mod_eq h.symm
  rw [Nat.mod_eq_of_lt (by omega)] at h3
  omega

/-! ## The copy loops -/

theorem write_loop_length (sz capacity : Nat) (src : List Nat) (n : Nat) :
    ∀ (buf : List Nat) (wi bw : Nat),
      (write_loop sz capacity src n buf wi bw).1.length = buf.length := by
  induction n with
  | zero => intro buf wi bw; rfl
  | succ n ih =>
    intro buf wi bw
    rw [write_loop, ih, List.length_set]

theorem write_loop_index (sz capacity : Nat) (src : List Nat) (n : Nat) :
    ∀ (buf : List Nat) (wi bw : Nat), wi < 4294967296 →
      (write_loop sz capacity src n buf wi bw).2.1 = (wi + n) % 4294967296 := by
  induction n with
  | zero => intro buf wi bw h; simp [write_loop]; omega
  | succ n ih =>
    intro buf wi bw h
    rw [write_loop, ih _ _ _ (by unfold UINT_MOD; omega)]
    unfold UINT_MOD
    omega

theorem write_loop_count (sz capacity : Nat) (src : List Nat) (n : Nat) :
    ∀ (buf : List Nat) (wi bw : Nat),
      (write_loop sz capacity src n buf wi bw).2.2 = bw + n := by
  induction n with
  | zero => intro buf wi bw; rfl
  | succ n ih =>
    intro buf wi bw
    rw [write_loop, ih]
    omega

/-- Storage cells the copy loop does not pass over keep their content. -/
theorem write_loop_getElem?_of_ne {sz k : Nat} (hsz : 32 ≤ sz) (hk : k < 32)
    (src : List Nat) (n : Nat) :
    ∀ (buf : List Nat) (wi bw p : Nat), (∀ i, i < n → p ≠ (wi + i) % 2 ^ k) →
      (write_loop sz (2 ^ k) src n buf wi bw).1[p]? = buf[p]? := by
  induction n with
  | zero => intro buf wi bw p _; rfl
  | succ n ih =>
    intro buf wi bw p hp
    rw [write_loop, ih]
    · rw [and_mask hsz hk]
      have h0 := hp 0 (by omega)
      rw [Nat.add_zero] at h0
      exact List.getElem?_set_ne (Ne.symm h0)
    · intro i hi
      unfold UINT_MOD
      rw [mod_uint_add_mod hk]
      have := hp (i + 1) (by omega)
      rwa [show wi + (i + 1) = wi + 1 + i by omega] at this

/-- Cell `(write_index + i) mod capacity` receives source byte `bytes_written + i`. -/
theorem write_loop_getElem?_of_lt {sz k : Nat} (hsz : 32 ≤ sz) (hk : k < 32)
    (src : List Nat) (n : Nat) :
    ∀ (buf : List Nat) (wi bw i : Nat), n ≤ 2 ^ k → buf.length = 2 ^ k → i < n →
      (write_loop sz (2 ^ k) src n buf wi bw).1[(wi + i) % 2 ^ k]? =
        some (src.getD (bw + i) 0) := by
  induction n with
  | zero => intro buf wi bw i _ _ hi; omega
  | succ n ih =>
    intro buf wi bw i hn hlen hi
    have hpos : 0 < 2 ^ k := Nat.two_pow_pos k
    rw [write_loop]
    cases i with
    | zero =>
      rw [write_loop_getElem?_of_ne hsz hk]
      · rw [and_mask hsz hk, Nat.add_zero, Nat.add_zero]
        exact List.getElem?_set_self (by rw [hlen]; exact Nat.mod_lt _ hpos)
      · intro j hj
        unfold UINT_MOD
        rw [mod_uint_add_mod hk, Nat.add_zero]
        exact mod_ne_of_lt_of_lt_add (by omega) (by omega)
    | succ i =>
      have := ih (buf.set (wi &&& size_sub sz (2 ^ k) 1) (src.getD bw 0))
        ((wi + 1) % UINT_MOD) (bw + 1) i (by omega) (by rw [List.length_set]; exact hlen)
        (by omega)
      unfold UINT_MOD at this
      rw [mod_uint_add_mod hk] at this
      rw [show wi + (i + 1) = wi + 1 + i by omega, show bw + (i + 1) = bw + 1 + i by omega]
      exact this

theorem read_loop_index (sz capacity : Nat) (buffer : List Nat) (n : Nat) :
    ∀ (out : List Nat) (ri br : Nat), ri < 4294967296 →
      (read_loop sz capacity buffer n out ri br).2.1 = (ri + n) % 4294967296 := by
  induction n with
  | zero => intro out ri br h; simp [read_loop]; omega
  | succ n ih =>
    intro out ri br h
    rw [read_loop, ih _ _ _ (by unfold UINT_MOD; omega)]
    unfold UINT_MOD
    omega

theorem read_loop_count (sz capacity : Nat) (buffer : List Nat) (n : Nat) :
    ∀ (out : List Nat) (ri br : Nat),
      (read_loop sz capacity buffer n out ri br).2.2 = br + n := by
  induction n with
  | zero => intro out ri br; rfl
  | succ n ih =>
    intro out ri br
    rw [read_loop, ih]
    omega

theorem read_loop_length (sz capacity : Nat) (buffer : List Nat) (n : Nat) :
    ∀ (out : List Nat) (ri br : Nat),
      (read_loop sz capacity buffer n out ri br).1.length = out.length := by
  induction n with
  | zero => intro out ri br; rfl
  | succ n ih =>
    intro out ri br
    rw [read_loop, ih, List.length_set]

/-- The caller's buffer after the copy-out loop, cell by cell. -/
theorem read_loop_getElem? {sz k : Nat} (hsz : 32 ≤ sz) (hk : k < 32)
    (buffer : List Nat) (n : Nat) :
    ∀ (out : List Nat) (ri br j : Nat),
      (read_loop sz (2 ^ k) buffer n out ri br).1[j]? =
        if br ≤ j ∧ j < br + n ∧ j < out.length then
          some (buffer.getD ((ri + (j - br)) % 2 ^ k) 0)
        else out[j]? := by
  induction n with
  | zero =>
    intro out ri br j
    rw [read_loop, if_neg (by omega)]
  | succ n ih =>
    intro out ri br j
    rw [read_loop, ih, List.length_set, and_mask hsz hk]
    unfold UINT_MOD
    rw [mod_uint_add_mod hk]
    by_cases hj : j = br
    · subst hj
      rw [if_neg (by omega)]
      by_cases hl : j < out.length
      · rw [if_pos (by omega), List.getElem?_set_self hl, Nat.sub_self, Nat.add_zero]
      · rw [if_neg (by omega), List.getElem?_eq_none (by rw [List.length_set]; omega),
          List.getElem?_eq_none (by omega)]
    · by_cases hc : br + 1 ≤ j ∧ j < br + 1 + n ∧ j < out.length
      · rw [if_pos hc, if_pos (by omega), show ri + 1 + (j - (br + 1)) = ri + (j - br) by omega]
      · rw [if_neg hc, if_neg (by omega)]
        exact List.getElem?_set_ne (Ne.symm hj)

/-! ## One call of the byte-stream operations -/

theorem stream_out_loop_done (sz fuel : Nat) (stream : streambuffer) (buffer : List Nat)
    (length : Nat) (options : Options) (events : List Event) :
    stream_out_loop sz buffer length options (fuel + 1) stream length events =
      .returned length stream events := by
  rw [stream_out_loop, if_neg (Nat.lt_irrefl _)]

theorem stream_out_zero (sz fuel : Nat) (stream : streambuffer) (buffer : List Nat)
    (options : Options) :
    streambuffer_stream_out sz (fuel + 1) stream buffer 0 options = .returned 0 stream [] :=
  stream_out_loop_done sz fuel stream buffer 0 options []

theorem stream_out_exact_fail (sz fuel : Nat) (stream : streambuffer) (buffer : List Nat)
    (length : Nat) (options : Options)
    (hov : stream.options.OVERWRITE_ENABLED = false) (hpart : options.ALLOW_PARTIAL = false)
    (hnb : options.NO_BLOCK = true)
    (hw : bytes_writable sz stream.capacity stream.consumer_comitted_index
      stream.producer_index < length) :
    streambuffer_stream_out sz (fuel + 1) stream buffer length options =
      .returned 0 stream [] := by
  have hmin : min (bytes_writable sz stream.capacity stream.consumer_comitted_index
      stream.producer_index) length ≠ length := by omega
  simp [streambuffer_stream_out, stream_out_loop, STREAMBUFFER_CAN_STREAM,
    STREAMBUFFER_CAN_OVERWRITE, STREAMBUFFER_PARTIAL_OP_SAFE, STREAMBUFFER_PARTIAL_OP,
    STREAMBUFFER_CAN_BLOCK, hov, hpart, hnb, hmin, show 0 < length by omega]

/-- A request that fits the writable space is claimed, copied and committed in the first
pass of the loop, unless the commit-order wait never ends. -/
theorem stream_out_fits_step (sz fuel : Nat) (stream : streambuffer) (buffer : List Nat)
    (length : Nat) (options : Options) (hlen : 0 < length)
    (hw : length ≤ bytes_writable sz stream.capacity stream.consumer_comitted_index
      stream.producer_index) :
    streambuffer_stream_out sz (fuel + 1) stream buffer length options =
      if (stream.options.MULTIPLE_WRITERS &&
          decide (stream.producer_comitted_index <
            size_sub sz (write_loop sz stream.capacity buffer length stream.buffer
              stream.producer_index 0).2.1 length)) = true then
        .spinning (stream_out_claimed sz stream buffer length) []
      else
        stream_out_loop sz buffer length options fuel
          (stream_out_commit sz stream buffer length) length
          (wake_events .producer_comitted_index stream.consumer_count stream) := by
  have hmin : min (bytes_writable sz stream.capacity stream.consumer_comitted_index
      stream.producer_index) length = length := by omega
  unfold streambuffer_stream_out
  rw [stream_out_loop]
  simp only [Nat.sub_zero, hmin, if_pos hlen, STREAMBUFFER_CAN_STREAM, beq_self_eq_true,
    Bool.true_or, Bool.not_true, Bool.false_eq_true, if_false, Nat.lt_irrefl,
    STREAMBUFFER_HAS_MULTIPLE_WRITERS, write_loop_count, Nat.zero_add]
  split
  · simp [stream_out_claimed]
  · simp [stream_out_commit, wake_events, STREAMBUFFER_FUTEX_FLAGS]

theorem stream_out_fits (sz fuel : Nat) (stream : streambuffer) (buffer : List Nat)
    (length : Nat) (options : Options) (hlen : 0 < length)
    (hw : length ≤ bytes_writable sz stream.capacity stream.consumer_comitted_index
      stream.producer_index)
    (hspin : (stream.options.MULTIPLE_WRITERS &&
      decide (stream.producer_comitted_index <
        size_sub sz (write_loop sz stream.capacity buffer length stream.buffer
          stream.producer_index 0).2.1 length)) = false) :
    streambuffer_stream_out sz (fuel + 2) stream buffer length options =
      .returned length (stream_out_commit sz stream buffer length)
        (wake_events .producer_comitted_index stream.consumer_count stream) := by
  rw [stream_out_fits_step sz (fuel + 1) stream buffer length options hlen hw, hspin,
    if_neg (by simp), stream_out_loop_done]

theorem stream_in_zero (sz : Nat) (stream : streambuffer) (buffer : List Nat)
    (options : Options) :
    streambuffer_stream_in sz stream buffer 0 options = .returned (0, buffer) stream [] := by
  simp [streambuffer_stream_in]

theorem stream_in_fail (sz : Nat) (stream : streambuffer) (buffer : List Nat)
    (length : Nat) (options : Options) (hlen : 0 < length) (hnb : options.NO_BLOCK = true)
    (hcan : STREAMBUFFER_CAN_READ options
      (min (bytes_readable sz stream.capacity stream.consumer_index
        stream.producer_comitted_index) length) length = false) :
    streambuffer_stream_in sz stream buffer length options =
      .returned (0, buffer) stream [] := by
  simp [streambuffer_stream_in, hlen, hcan, STREAMBUFFER_CAN_BLOCK, hnb]

/-- A read the policy admits claims, copies out and commits `n` bytes, where `n` is the
smaller of the readable count and the request, unless the commit-order wait goes on
for ever. -/
theorem stream_in_ok_step (sz : Nat) (stream : streambuffer) (buffer : List Nat)
    (length : Nat) (options : Options) (n : Nat) (hlen : 0 < length)
    (hn : min (bytes_readable sz stream.capacity stream.consumer_index
        stream.producer_comitted_index) length = n)
    (hcan : STREAMBUFFER_CAN_READ options n length = true) :
    streambuffer_stream_in sz stream buffer length options =
      if (stream.options.MULTIPLE_READERS &&
          decide (stream.consumer_comitted_index <
            size_sub sz (read_loop sz stream.capacity stream.buffer n buffer
              stream.consumer_index 0).2.1 n)) = true then
        .spinning { stream with consumer_index := (stream.consumer_index + n) % UINT_MOD } []
      else
        .returned
          (n, (read_loop sz stream.capacity stream.buffer n buffer stream.consumer_index 0).1)
          (stream_in_commit stream n)
          (wake_events .consumer_comitted_index stream.producer_count stream) := by
  unfold streambuffer_stream_in
  simp only [Nat.sub_zero, if_pos hlen, hn, hcan, Bool.not_true, Bool.false_eq_true, if_false,
    STREAMBUFFER_HAS_MULTIPLE_READERS, read_loop_count, Nat.zero_add]
  split
  · rfl
  · simp [stream_in_commit, wake_events, STREAMBUFFER_FUTEX_FLAGS]

theorem stream_in_ok (sz : Nat) (stream : streambuffer) (buffer : List Nat)
    (length : Nat) (options : Options) (n : Nat) (hlen : 0 < length)
    (hn : min (bytes_readable sz stream.capacity stream.consumer_index
        stream.producer_comitted_index) length = n)
    (hcan : STREAMBUFFER_CAN_READ options n length = true)
    (hspin : (stream.options.MULTIPLE_READERS &&
      decide (stream.consumer_comitted_index <
        size_sub sz (read_loop sz stream.capacity stream.buffer n buffer
          stream.consumer_index 0).2.1 n)) = false) :
    streambuffer_stream_in sz stream buffer length options =
      .returned
        (n, (read_loop sz stream.capacity stream.buffer n buffer stream.consumer_index 0).1)
        (stream_in_commit stream n)
        (wake_events .consumer_comitted_index stream.producer_count stream) := by
  rw [stream_in_ok_step sz stream buffer length options n hlen hn hcan, hspin,
    if_neg (by simp)]

/-- The commit-order wait compares against the cursor value the claim started from,
as long as the `size_t` subtraction sees the same wrap as the 32-bit cursor. -/
theorem size_sub_cursor {sz : Nat} (hsz : 32 ≤ sz) (c n : Nat) (hc : c < 4294967296)
    (hn : n ≤ 4294967296)
    (h : sz = 32 ∨ c + n < 4294967296) :
    size_sub sz ((c + n) % 4294967296) n = c := by
  have h3 := uint_mod_le_two_pow hsz
  by_cases hlt : c + n < 4294967296
  · rw [Nat.mod_eq_of_lt hlt, size_sub_of_le (by omega) (by omega)]
    omega
  · rcases h with h | h
    · subst h
      unfold size_sub
      norm_num
      omega
    · omega

theorem and_decide_lt_eq_false (b : Bool) {c x : Nat} (h : x ≤ c) :
    (b && decide (c < x)) = false := by
  have : ¬ c < x := by omega
  simp [this]

/-- The first pass of the write loop on a fresh 16-byte buffer asked for 17 bytes with
ALLOW_PARTIAL and NO_BLOCK: the policy admits the 16 writable bytes, the request is
still short, `streambuffer_try_truncate` finds nothing to discard, and the loop starts
over in the same state. -/
theorem stream_out_partial_loop_step (sz : Nat) (h : sz = 32 ∨ sz = 64) (fuel : Nat) :
    stream_out_loop sz (List.range 17) 17
        { Options.none with ALLOW_PARTIAL := true, NO_BLOCK := true } (fuel + 1)
        (streambuffer_construct ⟨0, Options.none, 0, 0, 0, 0, 0, 0, List.replicate 16 0⟩ 16
          Options.none) 0 [] =
      stream_out_loop sz (List.range 17) 17
        { Options.none with ALLOW_PARTIAL := true, NO_BLOCK := true } fuel
        (streambuffer_construct ⟨0, Options.none, 0, 0, 0, 0, 0, 0, List.replicate 16 0⟩ 16
          Options.none) 0 [] := by
  rcases h with h | h <;> subst h <;> rfl

theorem bytes_readable_self (sz capacity c : Nat) : bytes_readable sz capacity c c = 0 := by
  unfold bytes_readable size_sub
  rw [if_neg (Nat.lt_irrefl c), Nat.add_sub_cancel_left, Nat.mod_self]

/-- A read of `n` readable bytes from a consistent, non-wrapped state: what it returns,
what it delivers and where it leaves the cursors. -/
theorem stream_in_consistent {sz k : Nat} (stream : streambuffer) (buffer : List Nat)
    (length : Nat) (options : Options) (n : Nat)
    (hsz : 32 ≤ sz) (hstate : consistent_nonwrapped k stream) (hlen : 0 < length)
    (hn : min (stream.producer_index - stream.consumer_index) length = n)
    (hcan : STREAMBUFFER_CAN_READ options n length = true)
    (hroom : length ≤ buffer.length) :
    ∃ out stream' events,
      streambuffer_stream_in sz stream buffer length options =
        .returned (n, out) stream' events ∧
      (∀ i, i < n →
        out[i]? = some (stream.buffer.getD ((stream.consumer_index + i) % stream.capacity) 0)) ∧
      stream'.consumer_index = stream.consumer_index + n ∧
      stream'.consumer_comitted_index = stream.consumer_comitted_index + n ∧
      stream'.producer_index = stream.producer_index ∧
      stream'.producer_comitted_index = stream.producer_comitted_index ∧
      stream'.buffer = stream.buffer := by
  obtain ⟨hk, hcap, hbl, hpc, hcc, hle, hfl, hpi⟩ := hstate
  unfold UINT_MOD at hpi
  have h3 := uint_mod_le_two_pow hsz
  have hr : bytes_readable sz stream.capacity stream.consumer_index
      stream.producer_comitted_index = stream.producer_index - stream.consumer_index := by
    rw [hpc]
    exact bytes_readable_of_le hsz hle hpi
  have hrun := stream_in_ok sz stream buffer length options n hlen (by rw [hr]; exact hn) hcan
    (by
      apply and_decide_lt_eq_false
      rw [read_loop_index _ _ _ _ _ _ _ (by omega),
        size_sub_cursor hsz _ _ (by omega) (by omega) (Or.inr (by omega)), hcc])
  refine ⟨_, _, _, hrun, ?_, ?_, ?_, rfl, rfl, rfl⟩
  · intro i hi
    rw [hcap, read_loop_getElem? hsz hk, if_pos (by omega), Nat.sub_zero]
  · simp only [stream_in_commit, UINT_MOD]
    exact Nat.mod_eq_of_lt (by omega)
  · simp only [stream_in_commit, UINT_MOD]
    exact Nat.mod_eq_of_lt (by omega)

/-! ## Histories of exact, non-blocking calls -/

/-- What an exact, non-blocking write can return: nothing, or the whole request. -/
theorem stream_out_exact_returned (sz fuel : Nat) (stream : streambuffer) (buffer : List Nat)
    (length : Nat) (options : Options)
    (hov : stream.options.OVERWRITE_ENABLED = false) (hpart : options.ALLOW_PARTIAL = false)
    (hnb : options.NO_BLOCK = true) (n : Nat) (stream' : streambuffer) (events : List Event)
    (hrun : streambuffer_stream_out sz fuel stream buffer length options =
      .returned n stream' events) :
    (n = 0 ∧ stream' = stream) ∨
    (0 < length ∧
      length ≤ bytes_writable sz stream.capacity stream.consumer_comitted_index
        stream.producer_index ∧
      n = length ∧ stream' = stream_out_commit sz stream buffer length) := by
  cases fuel with
  | zero => simp [streambuffer_stream_out, stream_out_loop] at hrun
  | succ fuel =>
    by_cases h0 : length = 0
    · subst h0
      rw [stream_out_zero] at hrun
      injection hrun with h1 h2 h3
      exact Or.inl ⟨h1.symm, h2.symm⟩
    · by_cases hw : bytes_writable sz stream.capacity stream.consumer_comitted_index
          stream.producer_index < length
      · rw [stream_out_exact_fail sz fuel stream buffer length options hov hpart hnb hw] at hrun
        injection hrun with h1 h2 h3
        exact Or.inl ⟨h1.symm, h2.symm⟩
      · rw [stream_out_fits_step sz fuel stream buffer length options (by omega) (by omega)]
          at hrun
        split at hrun
        · cases hrun
        · cases fuel with
          | zero => simp [stream_out_loop] at hrun
          | succ fuel =>
            rw [stream_out_loop_done] at hrun
            injection hrun with h1 h2 h3
            exact Or.inr ⟨by omega, by omega, h1.symm, h2.symm⟩

/-- What an exact, non-blocking read can return: nothing, or the whole request. -/
theorem stream_in_exact_returned (sz : Nat) (stream : streambuffer) (buffer : List Nat)
    (length : Nat) (options : Options)
    (hpart : options.ALLOW_PARTIAL = false) (hnb : options.NO_BLOCK = true)
    (n : Nat) (out : List Nat) (stream' : streambuffer) (events : List Event)
    (hrun : streambuffer_stream_in sz stream buffer length options =
      .returned (n, out) stream' events) :
    (n = 0 ∧ out = buffer ∧ stream' = stream) ∨
    (0 < length ∧
      length ≤ bytes_readable sz stream.capacity stream.consumer_index
        stream.producer_comitted_index ∧
      n = length ∧
      out = (read_loop sz stream.capacity stream.buffer length buffer
        stream.consumer_index 0).1 ∧
      stream' = stream_in_commit stream length) := by
  by_cases h0 : length = 0
  · subst h0
    rw [stream_in_zero] at hrun
    injection hrun with h1 h2 h3
    injection h1 with h4 h5
    exact Or.inl ⟨h4.symm, h5.symm, h2.symm⟩
  · by_cases hr : bytes_readable sz stream.capacity stream.consumer_index
        stream.producer_comitted_index < length
    · rw [stream_in_fail sz stream buffer length options (by omega) hnb (by
        have : (min (bytes_readable sz stream.capacity stream.consumer_index
            stream.producer_comitted_index) length == length) = false := by
          rw [beq_eq_false_iff_ne]
          omega
        simp [STREAMBUFFER_CAN_READ, STREAMBUFFER_PARTIAL_OP_SAFE, STREAMBUFFER_PARTIAL_OP,
          this, hpart])] at hrun
      injection hrun with h1 h2 h3
      injection h1 with h4 h5
      exact Or.inl ⟨h4.symm, h5.symm, h2.symm⟩
    · rw [stream_in_ok_step sz stream buffer length options length (by omega) (by omega)
        (by simp [STREAMBUFFER_CAN_READ])] at hrun
      split at hrun
      · cases hrun
      · injection hrun with h1 h2 h3
        injection h1 with h4 h5
        exact Or.inr ⟨by omega, by omega, h4.symm, h5.symm, h2.symm⟩

/-- An accepted write keeps the invariant of the history. -/
theorem invariant_stream_out {sz k : Nat} (hsz : 32 ≤ sz) (h : History) (buffer : List Nat)
    (hinv : h.invariant k) (hlen : 0 < buffer.length)
    (hfit : buffer.length ≤ bytes_writable sz h.stream.capacity
      h.stream.consumer_comitted_index h.stream.producer_index) :
    History.invariant k
      { stream := stream_out_commit sz h.stream buffer buffer.length
        accepted := h.accepted ++ buffer
        delivered := h.delivered } := by
  obtain ⟨hk, hcap, hbl, hov, hpi, hpc, hci, hcc, hda, had, hpre, hsto⟩ := hinv
  unfold UINT_MOD at hpi hci
  have h1 : 1 ≤ 2 ^ k := Nat.one_le_two_pow
  have h2 := two_pow_le_of_lt_32 hk
  have hd : (h.stream.producer_index + 4294967296 - h.stream.consumer_comitted_index) %
      4294967296 = h.accepted.length - h.delivered.length := by
    rw [hcc, hpi, hci]
    omega
  have hw : bytes_writable sz h.stream.capacity h.stream.consumer_comitted_index
      h.stream.producer_index = 2 ^ k - (h.accepted.length - h.delivered.length) := by
    rw [hcap, bytes_writable_eq hsz hk (by rw [hcc, hci]; omega) (by rw [hpi]; omega)
      (by rw [hd]; omega), hd]
  rw [hw] at hfit
  refine ⟨hk, hcap, ?_, hov, ?_, ?_, hci, hcc, ?_, ?_, ?_, ?_⟩
  · simp only [stream_out_commit]
    rw [write_loop_length]
    exact hbl
  · simp only [stream_out_commit, UINT_MOD, List.length_append]
    rw [hpi]
    omega
  · simp only [stream_out_commit, UINT_MOD]
    rw [hpc]
  · simp only [List.length_append]
    omega
  · simp only [List.length_append]
    omega
  · simp only []
    rw [List.take_append_of_le_length hda]
    exact hpre
  · intro j hj1 hj2
    have hj1 : h.delivered.length ≤ j := hj1
    simp only [List.length_append] at hj2
    simp only [stream_out_commit]
    rw [hcap]
    by_cases hja : j < h.accepted.length
    · rw [write_loop_getElem?_of_ne hsz hk, List.getElem?_append_left hja]
      · exact hsto j hj1 hja
      · intro i hi
        rw [hpi, mod_uint_add_mod hk]
        exact mod_ne_of_lt_of_lt_add (by omega) (by omega)
    · have := write_loop_getElem?_of_lt hsz hk buffer buffer.length h.stream.buffer
        h.stream.producer_index 0 (j - h.accepted.length) (by omega) hbl (by omega)
      rw [hpi, mod_uint_add_mod hk, Nat.zero_add,
        show h.accepted.length + (j - h.accepted.length) = j by omega] at this
      rw [hpi, this, List.getElem?_append_right (by omega), List.getD_eq_getElem?_getD,
        List.getElem?_eq_getElem (by omega)]
      rfl

/-- Under the invariant `bytes_readable` never exceeds the number of undelivered bytes. -/
theorem invariant_bytes_readable_le {sz k : Nat} (hsz : 32 ≤ sz) (h : History)
    (hinv : h.invariant k) :
    bytes_readable sz h.stream.capacity h.stream.consumer_index
      h.stream.producer_comitted_index ≤ h.accepted.length - h.delivered.length := by
  obtain ⟨hk, hcap, hbl, hov, hpi, hpc, hci, hcc, hda, had, hpre, hsto⟩ := hinv
  unfold UINT_MOD at hpi hci
  have h2 := two_pow_le_of_lt_32 hk
  rw [hpc, hcap]
  by_cases hle : h.stream.consumer_index ≤ h.stream.producer_index
  · rw [bytes_readable_of_le hsz hle (by rw [hpi]; omega)]
    rw [hpi, hci] at hle ⊢
    omega
  · rw [bytes_readable_wrapped hsz hk (by rw [hci]; omega) (by omega)
      (by rw [hpi, hci] at hle ⊢; omega)]
    rw [hpi, hci] at hle ⊢
    omega

/-- The bytes an exact read copies out are the oldest undelivered bytes. -/
theorem invariant_read_loop_take {sz k : Nat} (hsz : 32 ≤ sz) (h : History) (length : Nat)
    (buffer : List Nat) (hinv : h.invariant k) (hroom : length ≤ buffer.length)
    (hfit : h.delivered.length + length ≤ h.accepted.length) :
    (read_loop sz h.stream.capacity h.stream.buffer length buffer
        h.stream.consumer_index 0).1.take length =
      (h.accepted.drop h.delivered.length).take length := by
  obtain ⟨hk, hcap, hbl, hov, hpi, hpc, hci, hcc, hda, had, hpre, hsto⟩ := hinv
  unfold UINT_MOD at hpi hci
  apply List.ext_getElem?
  intro i
  rw [List.getElem?_take, List.getElem?_take]
  by_cases hi : i < length
  · rw [if_pos hi, if_pos hi, hcap, read_loop_getElem? hsz hk,
      if_pos (by omega), Nat.sub_zero, hci, mod_uint_add_mod hk,
      List.getD_eq_getElem?_getD, hsto _ (by omega) (by omega), List.getElem?_drop,
      List.getElem?_eq_getElem (by omega)]
    rfl
  · rw [if_neg hi, if_neg hi]

/-- A served read keeps the invariant of the history. -/
theorem invariant_stream_in {sz k : Nat} (hsz : 32 ≤ sz) (h : History) (length : Nat)
    (hinv : h.invariant k)
    (hfit : length ≤ bytes_readable sz h.stream.capacity h.stream.consumer_index
      h.stream.producer_comitted_index) :
    History.invariant k
      { stream := stream_in_commit h.stream length
        accepted := h.accepted
        delivered := h.delivered ++
          (read_loop sz h.stream.capacity h.stream.buffer length (List.replicate length 0)
            h.stream.consumer_index 0).1.take length } := by
  have hle := invariant_bytes_readable_le hsz h hinv
  have htake := invariant_read_loop_take hsz h length (List.replicate length 0) hinv
    (by rw [List.length_replicate]) (by
      have := hinv.2.2.2.2.2.2.2.2.1
      omega)
  obtain ⟨hk, hcap, hbl, hov, hpi, hpc, hci, hcc, hda, had, hpre, hsto⟩ := hinv
  unfold UINT_MOD at hpi hci
  have hlen : ((h.accepted.drop h.delivered.length).take length).length = length := by
    rw [List.length_take, List.length_drop]
    omega
  rw [htake]
  refine ⟨hk, hcap, hbl, hov, hpi, hpc, ?_, ?_, ?_, ?_, ?_, ?_⟩
  · simp only [stream_in_commit, UINT_MOD, List.length_append, hlen]
    rw [hci]
    omega
  · simp only [stream_in_commit, UINT_MOD]
    rw [hcc]
  · simp only [List.length_append, hlen]
    omega
  · simp only [List.length_append, hlen]
    omega
  · simp only [List.length_append, hlen]
    rw [List.take_add, ← hpre]
  · intro j hj1 hj2
    have hj1 : (h.delivered ++ (h.accepted.drop h.delivered.length).take length).length ≤ j :=
      hj1
    rw [List.length_append, hlen] at hj1
    exact hsto j (by omega) hj2

theorem exact_noblock_options {options : Options}
    (h : (options.NO_BLOCK && !options.ALLOW_PARTIAL) = true) :
    options.NO_BLOCK = true ∧ options.ALLOW_PARTIAL = false := by
  cases hn : options.NO_BLOCK <;> cases hp : options.ALLOW_PARTIAL <;> simp [hn, hp] at h ⊢

/-- A freshly constructed buffer starts the empty history in its invariant. -/
theorem invariant_construct {k : Nat} (memory : streambuffer) (options : Options)
    (hk : k < 32) (hmem : memory.buffer.length = 2 ^ k)
    (hov : options.OVERWRITE_ENABLED = false) :
    History.invariant k
      { stream := streambuffer_construct memory (2 ^ k) options, accepted := [],
        delivered := [] } := by
  refine ⟨hk, rfl, ?_, hov, rfl, rfl, rfl, rfl, Nat.le_refl _, Nat.zero_le _, rfl, ?_⟩
  · simp only [streambuffer_construct]
    rw [List.length_set]
    exact hmem
  · intro j _ hj
    exact absurd hj (Nat.not_lt_zero j)

/-- Every exact, non-blocking call that returns keeps the invariant of the history. -/
theorem invariant_run_call {sz k fuel : Nat} (hsz : 32 ≤ sz) (h h' : History)
    (call : StreamCall) (hinv : h.invariant k) (hexact : call.exact_noblock = true)
    (hrun : run_call sz fuel h call = some h') : h'.invariant k := by
  cases call with
  | stream_out buffer options =>
    obtain ⟨hnb, hpart⟩ := exact_noblock_options hexact
    cases hout : streambuffer_stream_out sz fuel h.stream buffer buffer.length options with
    | returned n stream events =>
      simp only [run_call, hout, Option.some.injEq] at hrun
      subst hrun
      rcases stream_out_exact_returned sz fuel h.stream buffer buffer.length options
        hinv.2.2.2.1 hpart hnb n stream events hout with ⟨hn, hs⟩ | ⟨hlen, hfit, hn, hs⟩
      · subst hn hs
        rw [List.take_zero, List.append_nil]
        exact hinv
      · subst hs
        rw [hn, List.take_length]
        exact invariant_stream_out hsz h buffer hinv hlen hfit
    | suspended stream events => simp [run_call, hout] at hrun
    | spinning stream events => simp [run_call, hout] at hrun
    | out_of_fuel => simp [run_call, hout] at hrun
  | stream_in length options =>
    obtain ⟨hnb, hpart⟩ := exact_noblock_options hexact
    cases hout : streambuffer_stream_in sz h.stream (List.replicate length 0) length options with
    | returned value stream events =>
      simp only [run_call, hout, Option.some.injEq] at hrun
      subst hrun
      obtain ⟨n, out⟩ := value
      rcases stream_in_exact_returned sz h.stream (List.replicate length 0) length options
        hpart hnb n out stream events hout with ⟨hn, _, hs⟩ | ⟨_, hfit, hn, ho, hs⟩
      · subst hn hs
        simp only [List.take_zero, List.append_nil]
        exact hinv
      · subst ho hs
        rw [hn]
        exact invariant_stream_in hsz h length hinv hfit
    | suspended stream events => simp [run_call, hout] at hrun
    | spinning stream events => simp [run_call, hout] at hrun
    | out_of_fuel => simp [run_call, hout] at hrun

/-- A history of exact, non-blocking calls keeps its invariant. -/
theorem invariant_run_calls {sz k fuel : Nat} (hsz : 32 ≤ sz) (calls : List StreamCall) :
    ∀ h : History, h.invariant k → (∀ call, call ∈ calls → call.exact_noblock = true) →
      (run_calls sz fuel h calls).invariant k := by
  induction calls with
  | nil => intro h hinv _; exact hinv
  | cons call calls ih =>
    intro h hinv hall
    unfold run_calls
    cases hrun : run_call sz fuel h call with
    | none => exact hinv
    | some h' =>
      exact ih h' (invariant_run_call hsz h h' call hinv (hall call (List.mem_cons_self _ _)) hrun)
        (fun c hc => hall c (List.mem_cons_of_mem _ hc))

/-- Under the invariant an exact, non-blocking call returns, given two rounds of loop
fuel, on a 32-bit `size_t` or on a buffer without the MULTIPLE flags. -/
theorem run_call_returns {sz k fuel : Nat} (hsz : 32 ≤ sz) (h : History) (call : StreamCall)
    (hinv : h.invariant k) (hexact : call.exact_noblock = true)
    (hspin : sz = 32 ∨ (h.stream.options.MULTIPLE_WRITERS = false ∧
      h.stream.options.MULTIPLE_READERS = false)) :
    ∃ h', run_call sz (fuel + 2) h call = some h' ∧ h'.stream.options = h.stream.options := by
  have hle := invariant_bytes_readable_le hsz h hinv
  obtain ⟨hk, hcap, hbl, hov, hpi, hpc, hci, hcc, hda, had, hpre, hsto⟩ := hinv
  unfold UINT_MOD at hpi hci
  have h2 := two_pow_le_of_lt_32 hk
  cases call with
  | stream_out buffer options =>
    obtain ⟨hnb, hpart⟩ := exact_noblock_options hexact
    by_cases h0 : buffer.length = 0
    · simp only [run_call, h0, stream_out_zero]
      exact ⟨_, rfl, rfl⟩
    · by_cases hw : bytes_writable sz h.stream.capacity h.stream.consumer_comitted_index
          h.stream.producer_index < buffer.length
      · simp only [run_call,
          stream_out_exact_fail sz (fuel + 1) h.stream buffer buffer.length options hov hpart
            hnb hw]
        exact ⟨_, rfl, rfl⟩
      · have hwv : bytes_writable sz h.stream.capacity h.stream.consumer_comitted_index
            h.stream.producer_index ≤ 2 ^ k := by
          rw [hcap, bytes_writable_eq hsz hk (by omega) (by omega) (by omega)]
          omega
        simp only [run_call,
          stream_out_fits sz fuel h.stream buffer buffer.length options (by omega) (by omega)
            (by
              rcases hspin with h32 | ⟨hmw, _⟩
              · apply and_decide_lt_eq_false
                rw [write_loop_index _ _ _ _ _ _ _ (by omega),
                  size_sub_cursor hsz _ _ (by omega) (by omega) (Or.inl h32), hpc]
              · rw [hmw]; rfl)]
        exact ⟨_, rfl, rfl⟩
  | stream_in length options =>
    obtain ⟨hnb, hpart⟩ := exact_noblock_options hexact
    by_cases h0 : length = 0
    · subst h0
      simp only [run_call, stream_in_zero]
      exact ⟨_, rfl, rfl⟩
    · by_cases hr : bytes_readable sz h.stream.capacity h.stream.consumer_index
          h.stream.producer_comitted_index < length
      · simp only [run_call,
          stream_in_fail sz h.stream (List.replicate length 0) length options (by omega) hnb (by
            have : (min (bytes_readable sz h.stream.capacity h.stream.consumer_index
                h.stream.producer_comitted_index) length == length) = false := by
              rw [beq_eq_false_iff_ne]
              omega
            simp [STREAMBUFFER_CAN_READ, STREAMBUFFER_PARTIAL_OP_SAFE,
              STREAMBUFFER_PARTIAL_OP, this, hpart])]
        exact ⟨_, rfl, rfl⟩
      · simp only [run_call,
          stream_in_ok sz h.stream (List.replicate length 0) length options length (by omega)
            (by omega) (by simp [STREAMBUFFER_CAN_READ]) (by
              rcases hspin with h32 | ⟨_, hmr⟩
              · apply and_decide_lt_eq_false
                rw [read_loop_index _ _ _ _ _ _ _ (by omega),
                  size_sub_cursor hsz _ _ (by omega) (by omega) (Or.inl h32), hcc]
              · rw [hmr]; rfl)]
        exact ⟨_, rfl, rfl⟩

/-- Under the invariant every call of an exact, non-blocking sequence returns. -/
theorem calls_return_of_invariant {sz k fuel : Nat} (hsz : 32 ≤ sz) (calls : List StreamCall) :
    ∀ h : History, h.invariant k → (∀ call, call ∈ calls → call.exact_noblock = true) →
      (sz = 32 ∨ (h.stream.options.MULTIPLE_WRITERS = false ∧
        h.stream.options.MULTIPLE_READERS = false)) →
      calls_return sz (fuel + 2) h calls = true := by
  induction calls with
  | nil => intro h _ _ _; rfl
  | cons call calls ih =>
    intro h hinv hall hspin
    obtain ⟨h', hrun, hopt⟩ :=
      @run_call_returns sz k fuel hsz h call hinv (hall call (List.mem_cons_self _ _)) hspin
    unfold calls_return
    rw [hrun]
    exact ih h' (invariant_run_call hsz h h' call hinv (hall call (List.mem_cons_self _ _)) hrun)
      (fun c hc => hall c (List.mem_cons_of_mem _ hc)) (by rw [hopt]; exact hspin)

/-- Writing `N ≤ capacity` bytes into a fresh buffer and reading `N` bytes back returns
the bytes written. -/
theorem fresh_write_then_read {sz k : Nat} (fuel : Nat) (memory : streambuffer)
    (stream_options options : Options) (buffer destination : List Nat)
    (hsz : 32 ≤ sz) (hk : k < 32) (hmem : memory.buffer.length = 2 ^ k)
    (hov : stream_options.OVERWRITE_ENABLED = false)
    (hbuf : buffer.length ≤ 2 ^ k) (hdest : destination.length = buffer.length) :
    ∃ stream events stream' events',
      streambuffer_stream_out sz (fuel + 2)
          (streambuffer_construct memory (2 ^ k) stream_options) buffer buffer.length options =
        .returned buffer.length stream events ∧
      streambuffer_stream_in sz stream destination buffer.length options =
        .returned (buffer.length, buffer) stream' events' := by
  have h2 := two_pow_le_of_lt_32 hk
  have h3 := uint_mod_le_two_pow hsz
  by_cases h0 : buffer.length = 0
  · have hb : buffer = [] := List.length_eq_zero.mp h0
    have hd : destination = [] := List.length_eq_zero.mp (by omega)
    subst hb hd
    exact ⟨_, _, _, _, stream_out_zero sz (fuel + 1) _ [] options, stream_in_zero sz _ [] options⟩
  · have hinv := invariant_construct memory stream_options hk hmem hov
    have hw : bytes_writable sz (2 ^ k) 0 0 = 2 ^ k := by
      rw [bytes_writable_eq hsz hk (by omega) (by omega) (by norm_num)]
      norm_num
    have hfit : buffer.length ≤ bytes_writable sz
        (streambuffer_construct memory (2 ^ k) stream_options).capacity
        (streambuffer_construct memory (2 ^ k) stream_options).consumer_comitted_index
        (streambuffer_construct memory (2 ^ k) stream_options).producer_index := by
      simp only [streambuffer_construct]
      omega
    have hmod : (0 + buffer.length) % 4294967296 = buffer.length := by omega
    have hout := stream_out_fits sz fuel (streambuffer_construct memory (2 ^ k) stream_options)
      buffer buffer.length options (by omega) hfit (by
        apply and_decide_lt_eq_false
        simp only [streambuffer_construct]
        rw [write_loop_index _ _ _ _ _ _ _ (by omega), hmod,
          size_sub_of_le (Nat.le_refl _) (by omega)]
        omega)
    have hinv' := invariant_stream_out hsz _ buffer hinv (by omega) hfit
    have hread : bytes_readable sz
        (stream_out_commit sz (streambuffer_construct memory (2 ^ k) stream_options) buffer
          buffer.length).capacity
        (stream_out_commit sz (streambuffer_construct memory (2 ^ k) stream_options) buffer
          buffer.length).consumer_index
        (stream_out_commit sz (streambuffer_construct memory (2 ^ k) stream_options) buffer
          buffer.length).producer_comitted_index = buffer.length := by
      simp only [stream_out_commit, streambuffer_construct, UINT_MOD]
      rw [hmod, bytes_readable_of_le hsz (Nat.zero_le _) (by omega)]
      omega
    have hin := stream_in_ok sz
      (stream_out_commit sz (streambuffer_construct memory (2 ^ k) stream_options) buffer
        buffer.length) destination buffer.length options buffer.length (by omega)
      (by rw [hread]; exact Nat.min_self _) (by simp [STREAMBUFFER_CAN_READ]) (by
        apply and_decide_lt_eq_false
        simp only [stream_out_commit, streambuffer_construct]
        rw [read_loop_index _ _ _ _ _ _ _ (by omega), hmod,
          size_sub_of_le (Nat.le_refl _) (by omega)]
        omega)
    have htake := invariant_read_loop_take hsz _ buffer.length destination hinv' (by omega)
      (by simp)
    simp only [List.nil_append, List.length_nil, List.drop_zero, List.take_length] at htake
    rw [List.take_of_length_le (by rw [read_loop_length]; omega)] at htake
    rw [htake] at hin
    exact ⟨_, _, _, _, hout, hin⟩

/-- The first pass of the write loop on a fresh 16-byte buffer with OVERWRITE_ENABLED
asked for 17 bytes with NO_BLOCK: overwrite admits the request, it is still short,
`streambuffer_try_truncate` has nothing to discard, and the loop starts over in the
same state. -/
theorem stream_out_overwrite_loop_step (sz : Nat) (h : sz = 32 ∨ sz = 64) (fuel : Nat) :
    stream_out_loop sz (List.range 17) 17 { Options.none with NO_BLOCK := true } (fuel + 1)
        (streambuffer_construct ⟨0, Options.none, 0, 0, 0, 0, 0, 0, List.replicate 16 0⟩ 16
          { Options.none with OVERWRITE_ENABLED := true }) 0 [] =
      stream_out_loop sz (List.range 17) 17 { Options.none with NO_BLOCK := true } fuel
        (streambuffer_construct ⟨0, Options.none, 0, 0, 0, 0, 0, 0, List.replicate 16 0⟩ 16
          { Options.none with OVERWRITE_ENABLED := true }) 0 [] := by
  rcases h with h | h <;> subst h <;> rfl

/-- A pass of the packet read loop with PEEK over a committed packet of payload length 0
(32-bit `size_t`, capacity 16): the frame is complete, nothing is claimed, `bytes_read`
is 0 again and the loop starts over in the same state. -/
theorem read_packet_peek_empty_step (fuel base_out state_out : Nat) :
    read_packet_start_loop 32 { Options.none with NO_BLOCK := true, PEEK := true } (fuel + 1)
        ⟨16, Options.none, 4, 4, 0, 0, 0, 0, List.replicate 16 0⟩ 0 base_out state_out [] =
      read_packet_start_loop 32 { Options.none with NO_BLOCK := true, PEEK := true } fuel
        ⟨16, Options.none, 4, 4, 0, 0, 0, 0, List.replicate 16 0⟩ 0 4 4 [] := by
  rfl

theorem read_packet_peek_empty_loop (fuel base_out state_out : Nat) :
    read_packet_start_loop 32 { Options.none with NO_BLOCK := true, PEEK := true } fuel
        ⟨16, Options.none, 4, 4, 0, 0, 0, 0, List.replicate 16 0⟩ 0 base_out state_out [] =
      .out_of_fuel := by
  induction fuel generalizing base_out state_out with
  | zero => rfl
  | succ fuel ih => rw [read_packet_peek_empty_step, ih]

/-! ## Packet claims and commits -/

theorem write_packet_start_loop_done (sz packet_len length : Nat) (options : Options)
    (fuel : Nat) (stream : streambuffer) (n base_out state_out : Nat) (events : List Event)
    (hn : n ≠ 0) :
    write_packet_start_loop sz packet_len length options (fuel + 1) stream n base_out
        state_out events =
      .returned (n, base_out, state_out) stream events := by
  have : (n == 0) = false := by rw [beq_eq_false_iff_ne]; exact hn
  rw [write_packet_start_loop]
  simp [this]

theorem write_packet_start_fail (sz fuel : Nat) (stream : streambuffer) (length : Nat)
    (options : Options) (base_out state_out : Nat) (hnb : options.NO_BLOCK = true)
    (hw : bytes_writable sz stream.capacity stream.consumer_comitted_index
      stream.producer_index < size_add sz length (sizeof_size_t sz)) :
    streambuffer_write_packet_start sz (fuel + 1) stream length options base_out state_out =
      .returned (0, base_out, state_out) stream [] := by
  have hmin : min (bytes_writable sz stream.capacity stream.consumer_comitted_index
      stream.producer_index) (size_add sz length (sizeof_size_t sz)) <
      size_add sz length (sizeof_size_t sz) := by omega
  unfold streambuffer_write_packet_start
  rw [write_packet_start_loop]
  simp [hmin, STREAMBUFFER_CAN_BLOCK, hnb]

theorem write_packet_start_fits (sz fuel : Nat) (stream : streambuffer) (length : Nat)
    (options : Options) (base_out state_out : Nat)
    (hpi : stream.producer_index < 4294967296)
    (hpos : size_add sz length (sizeof_size_t sz) ≠ 0)
    (hw : size_add sz length (sizeof_size_t sz) ≤
      bytes_writable sz stream.capacity stream.consumer_comitted_index
        stream.producer_index) :
    streambuffer_write_packet_start sz (fuel + 2) stream length options base_out state_out =
      .returned
        (size_add sz length (sizeof_size_t sz),
          (stream.producer_index + sizeof_size_t sz) % 4294967296,
          (stream.producer_index + sizeof_size_t sz) % 4294967296)
        (write_packet_claimed sz stream length (size_add sz length (sizeof_size_t sz)))
        [] := by
  have hmin : min (bytes_writable sz stream.capacity stream.consumer_comitted_index
      stream.producer_index) (size_add sz length (sizeof_size_t sz)) =
      size_add sz length (sizeof_size_t sz) := by omega
  unfold streambuffer_write_packet_start
  rw [write_packet_start_loop]
  simp only [beq_self_eq_true, if_true, hmin, Nat.lt_irrefl, if_false,
    streambuffer_write_packet_data]
  rw [write_packet_start_loop_done _ _ _ _ _ _ _ _ _ _ hpos,
    write_loop_index _ _ _ _ _ _ _ hpi]
  rfl

/-! ## The packet header in memory -/

theorem le_bytes_length (n : Nat) : ∀ value, (le_bytes n value).length = n := by
  induction n with
  | zero => intro value; rfl
  | succ n ih => intro value; rw [le_bytes, List.length_cons, ih]

theorem size_t_of_le_bytes (n : Nat) :
    ∀ value, size_t_of_bytes (le_bytes n value) = value % 256 ^ n := by
  induction n with
  | zero => intro value; simp [le_bytes, size_t_of_bytes, Nat.mod_one]
  | succ n ih =>
    intro value
    rw [le_bytes, size_t_of_bytes, ih, Nat.mod_mod, Nat.pow_succ, Nat.mul_comm (256 ^ n) 256,
      Nat.mod_mul]

theorem sizeof_size_t_cases {sz : Nat} (hsz : sz = 32 ∨ sz = 64) :
    (sizeof_size_t sz = 4 ∧ 2 ^ sz = 4294967296) ∨
    (sizeof_size_t sz = 8 ∧ 2 ^ sz = 18446744073709551616) := by
  rcases hsz with h | h <;> subst h
  · exact Or.inl ⟨by decide, by norm_num⟩
  · exact Or.inr ⟨by decide, by norm_num⟩

theorem le_of_size_cases {sz : Nat} (hsz : sz = 32 ∨ sz = 64) : 32 ≤ sz := by
  rcases hsz with h | h <;> omega

theorem size_t_bytes_length (sz value : Nat) :
    (size_t_bytes sz value).length = sizeof_size_t sz :=
  le_bytes_length _ _

/-- Reading back the object representation of a `size_t` gives the value. -/
theorem size_t_of_size_t_bytes {sz value : Nat} (hsz : sz = 32 ∨ sz = 64)
    (hv : value < 2 ^ sz) : size_t_of_bytes (size_t_bytes sz value) = value := by
  unfold size_t_bytes
  rw [size_t_of_le_bytes]
  rcases hsz with h | h <;> subst h
  · exact Nat.mod_eq_of_lt (by
      have : (256 : Nat) ^ sizeof_size_t 32 = 2 ^ 32 := by decide
      rw [this]; exact hv)
  · exact Nat.mod_eq_of_lt (by
      have : (256 : Nat) ^ sizeof_size_t 64 = 2 ^ 64 := by decide
      rw [this]; exact hv)

/-! ## Runs of ring storage -/

theorem ring_bytes_length (k : Nat) (buffer : List Nat) (offset n : Nat) :
    (ring_bytes k buffer offset n).length = n := by
  simp [ring_bytes]

theorem ring_bytes_getElem? (k : Nat) (buffer : List Nat) (offset n i : Nat) :
    (ring_bytes k buffer offset n)[i]? =
      if i < n then some (buffer.getD ((offset + i) % 2 ^ k) 0) else none := by
  unfold ring_bytes
  rw [List.getElem?_map]
  by_cases hi : i < n
  · rw [if_pos hi, List.getElem?_range hi]
    rfl
  · rw [if_neg hi, List.getElem?_eq_none (by rw [List.length_range]; omega)]
    rfl

theorem ring_bytes_add (k : Nat) (buffer : List Nat) (offset m n : Nat) :
    ring_bytes k buffer offset (m + n) =
      ring_bytes k buffer offset m ++ ring_bytes k buffer (offset + m) n := by
  apply List.ext_getElem?
  intro i
  by_cases hi : i < m
  · rw [List.getElem?_append_left (by rw [ring_bytes_length]; exact hi), ring_bytes_getElem?,
      ring_bytes_getElem?, if_pos hi, if_pos (by omega)]
  · rw [List.getElem?_append_right (by rw [ring_bytes_length]; omega), ring_bytes_length,
      ring_bytes_getElem?, ring_bytes_getElem?]
    by_cases hin : i < m + n
    · rw [if_pos hin, if_pos (by omega), show offset + m + (i - m) = offset + i by omega]
    · rw [if_neg hin, if_neg (by omega)]

/-- Two storages with the same cells on a run have the same run. -/
theorem ring_bytes_congr (k : Nat) (buffer buffer' : List Nat) (offset n : Nat)
    (h : ∀ i, i < n → buffer'[(offset + i) % 2 ^ k]? = buffer[(offset + i) % 2 ^ k]?) :
    ring_bytes k buffer' offset n = ring_bytes k buffer offset n := by
  apply List.ext_getElem?
  intro i
  rw [ring_bytes_getElem?, ring_bytes_getElem?]
  by_cases hi : i < n
  · rw [if_pos hi, if_pos hi, List.getD_eq_getElem?_getD, List.getD_eq_getElem?_getD, h i hi]
  · rw [if_neg hi, if_neg hi]

/-- The copy-out loop delivers the run of storage it starts at. -/
theorem read_loop_eq_ring_bytes {sz k : Nat} (hsz : 32 ≤ sz) (hk : k < 32)
    (buffer destination : List Nat) (n read_index : Nat) (hdest : destination.length = n) :
    (read_loop sz (2 ^ k) buffer n destination read_index 0).1 =
      ring_bytes k buffer read_index n := by
  apply List.ext_getElem?
  intro i
  rw [read_loop_getElem? hsz hk, ring_bytes_getElem?, Nat.sub_zero]
  by_cases hi : i < n
  · rw [if_pos (by omega), if_pos hi]
  · rw [if_neg (by omega), if_neg hi, List.getElem?_eq_none (by omega)]

/-- The copy-in loop leaves its source bytes in the run of storage it starts at. -/
theorem ring_bytes_write_loop {sz k : Nat} (hsz : 32 ≤ sz) (hk : k < 32)
    (source buffer : List Nat) (write_index : Nat) (hn : source.length ≤ 2 ^ k)
    (hlen : buffer.length = 2 ^ k) :
    ring_bytes k (write_loop sz (2 ^ k) source source.length buffer write_index 0).1
      write_index source.length = source := by
  apply List.ext_getElem?
  intro i
  rw [ring_bytes_getElem?]
  by_cases hi : i < source.length
  · rw [if_pos hi, List.getD_eq_getElem?_getD,
      write_loop_getElem?_of_lt hsz hk source source.length buffer write_index 0 i hn hlen hi,
      Nat.zero_add, List.getD_eq_getElem?_getD, List.getElem?_eq_getElem hi]
    rfl
  · rw [if_neg hi, List.getElem?_eq_none (by omega)]

/-- A run of storage that lies clear of the copy-in loop's range is not changed by it:
the run ends before the range starts and the range ends within one capacity of the
run's start. -/
theorem ring_bytes_write_loop_before {sz k : Nat} (hsz : 32 ≤ sz) (hk : k < 32)
    (source buffer : List Nat) (n write_index offset m : Nat)
    (h1 : offset + m ≤ write_index) (h2 : write_index + n ≤ offset + 2 ^ k) :
    ring_bytes k (write_loop sz (2 ^ k) source n buffer write_index 0).1 offset m =
      ring_bytes k buffer offset m := by
  apply ring_bytes_congr
  intro i hi
  apply write_loop_getElem?_of_ne hsz hk
  intro j hj
  exact mod_ne_of_lt_of_lt_add (by omega) (by omega)

/-- A run of storage that lies clear of the copy-in loop's range is not changed by it:
the range ends before the run starts and the run ends within one capacity of the
range's start. -/
theorem ring_bytes_write_loop_after {sz k : Nat} (hsz : 32 ≤ sz) (hk : k < 32)
    (source buffer : List Nat) (n write_index offset m : Nat)
    (h1 : write_index + n ≤ offset) (h2 : offset + m ≤ write_index + 2 ^ k) :
    ring_bytes k (write_loop sz (2 ^ k) source n buffer write_index 0).1 offset m =
      ring_bytes k buffer offset m := by
  apply ring_bytes_congr
  intro i hi
  apply write_loop_getElem?_of_ne hsz hk
  intro j hj
  exact Ne.symm (mod_ne_of_lt_of_lt_add (by omega) (by omega))

/-! ## One call of the packet operations -/

theorem read_packet_start_loop_done (sz : Nat) (options : Options)
    (fuel : Nat) (stream : streambuffer) (n base_out state_out : Nat) (events : List Event)
    (hn : n ≠ 0) :
    read_packet_start_loop sz options (fuel + 1) stream n base_out state_out events =
      .returned (n, base_out, state_out) stream events := by
  have : (n == 0) = false := by rw [beq_eq_false_iff_ne]; exact hn
  rw [read_packet_start_loop]
  simp [this]

/-- With NO_BLOCK a packet read that finds less than a whole frame returns 0 at once. -/
theorem read_packet_start_short (sz fuel : Nat) (stream : streambuffer) (options : Options)
    (base_out state_out : Nat) (hnb : options.NO_BLOCK = true)
    (hshort : bytes_readable sz stream.capacity stream.consumer_index
      stream.producer_comitted_index < read_packet_frame_length sz stream) :
    streambuffer_read_packet_start sz (fuel + 1) stream options base_out state_out =
      .returned (0, base_out, state_out) stream [] := by
  unfold read_packet_frame_length at hshort
  unfold streambuffer_read_packet_start
  rw [read_packet_start_loop]
  simp only [beq_self_eq_true, if_true]
  rw [if_pos (by omega)]
  simp [STREAMBUFFER_CAN_BLOCK, hnb]

/-- A packet read that finds a whole frame with a non-zero payload length claims the
frame (unless PEEK is given) and returns the payload length with the offset of the
payload. -/
theorem read_packet_start_frame (sz fuel : Nat) (stream : streambuffer) (options : Options)
    (base_out state_out : Nat)
    (hframe : read_packet_frame_length sz stream ≤
      bytes_readable sz stream.capacity stream.consumer_index
        stream.producer_comitted_index)
    (hpayload : size_sub sz (read_packet_frame_length sz stream) (sizeof_size_t sz) ≠ 0) :
    streambuffer_read_packet_start sz (fuel + 2) stream options base_out state_out =
      .returned
        (size_sub sz (read_packet_frame_length sz stream) (sizeof_size_t sz),
          (stream.consumer_index + sizeof_size_t sz) % UINT_MOD,
          (stream.consumer_index + sizeof_size_t sz) % UINT_MOD)
        (if !options.PEEK then
          { stream with
            consumer_index :=
              (stream.consumer_index + read_packet_frame_length sz stream) % UINT_MOD }
        else stream)
        [] := by
  unfold read_packet_frame_length at hframe hpayload ⊢
  unfold streambuffer_read_packet_start
  rw [read_packet_start_loop]
  simp only [beq_self_eq_true, if_true]
  rw [if_neg (by omega), Nat.min_eq_right hframe,
    read_packet_start_loop_done _ _ _ _ _ _ _ _ hpayload]

/-- The frame length read from a non-wrapped stream whose unread data starts with at
least a header. -/
theorem read_packet_frame_length_eq {sz k : Nat} (hsz : 32 ≤ sz) (hk : k < 32)
    (stream : streambuffer) (hcap : stream.capacity = 2 ^ k)
    (hle : stream.consumer_index ≤ stream.producer_comitted_index)
    (hpc : stream.producer_comitted_index < 4294967296)
    (hne : stream.consumer_index < stream.producer_comitted_index) :
    read_packet_frame_length sz stream =
      size_add sz
        (size_t_of_bytes (ring_bytes k stream.buffer stream.consumer_index (sizeof_size_t sz)))
        (sizeof_size_t sz) := by
  unfold read_packet_frame_length
  have hr : (bytes_readable sz stream.capacity stream.consumer_index
      stream.producer_comitted_index != 0) = true := by
    rw [bytes_readable_of_le hsz hle hpc, bne_iff_ne]
    omega
  rw [if_pos hr]
  simp only [streambuffer_read_packet_data]
  rw [hcap, read_loop_eq_ring_bytes hsz hk _ _ _ _ (List.length_replicate _ _)]

theorem size_sub_size_add {sz a b : Nat} (ha : a < 2 ^ sz) (hb : b < 2 ^ sz) :
    size_sub sz (size_add sz a b) b = a := by
  unfold size_sub size_add
  by_cases h : a + b < 2 ^ sz
  · rw [Nat.mod_eq_of_lt h, show a + b + 2 ^ sz - b = a + 2 ^ sz by omega, Nat.add_mod_right,
      Nat.mod_eq_of_lt ha]
  · have h1 : (a + b) % 2 ^ sz = a + b - 2 ^ sz := by
      rw [Nat.mod_eq_sub_mod (by omega), Nat.mod_eq_of_lt (by omega)]
    rw [h1, show a + b - 2 ^ sz + 2 ^ sz - b = a by omega, Nat.mod_eq_of_lt ha]

/-- The commit-order wait of `streambuffer_write_packet_end` and
`streambuffer_read_packet_end` recovers the start of the claim from `base`. -/
theorem packet_claim_start {sz : Nat} (hsz : sz = 32 ∨ sz = 64) (c : Nat)
    (hc : c < 4294967296) :
    size_sub sz ((c + sizeof_size_t sz) % 4294967296) (sizeof_size_t sz) % 4294967296 = c := by
  unfold size_sub
  rcases sizeof_size_t_cases hsz with ⟨h1, h2⟩ | ⟨h1, h2⟩ <;> rw [h1, h2] <;> omega

theorem write_packet_end_ok (sz : Nat) (stream : streambuffer) (base length : Nat)
    (hspin : (stream.options.MULTIPLE_WRITERS &&
      decide (stream.producer_comitted_index <
        size_sub sz base (sizeof_size_t sz) % UINT_MOD)) = false) :
    streambuffer_write_packet_end sz stream base length =
      .returned () (write_packet_committed sz stream length)
        (wake_events .producer_comitted_index stream.consumer_count stream) := by
  unfold streambuffer_write_packet_end
  simp only [STREAMBUFFER_HAS_MULTIPLE_WRITERS, hspin]
  simp [write_packet_committed, wake_events, STREAMBUFFER_FUTEX_FLAGS]

/-! ## Whole packets -/

/-- The header and the payload of the oldest unread packet, taken apart. -/
theorem oldest_packet_parts {sz k : Nat} {stream : streambuffer} {payload : List Nat}
    (h : oldest_packet sz k stream payload) :
    ring_bytes k stream.buffer stream.consumer_index (sizeof_size_t sz) =
      size_t_bytes sz payload.length ∧
    ring_bytes k stream.buffer (stream.consumer_index + sizeof_size_t sz) payload.length =
      payload := by
  obtain ⟨_, _, _, _, _, _, hring⟩ := h
  rw [ring_bytes_add] at hring
  exact List.append_inj hring (by rw [ring_bytes_length, size_t_bytes_length])

/-- Reading the oldest unread packet: `streambuffer_read_packet_start` returns its payload
length and the offset of its payload, and claims the frame unless PEEK is given. -/
theorem read_packet_start_oldest {sz k : Nat} (fuel : Nat) (stream : streambuffer)
    (payload : List Nat) (options : Options) (base_out state_out : Nat)
    (hsz : sz = 32 ∨ sz = 64) (h : oldest_packet sz k stream payload)
    (hpos : 1 ≤ payload.length) :
    streambuffer_read_packet_start sz (fuel + 2) stream options base_out state_out =
      .returned
        (payload.length, stream.consumer_index + sizeof_size_t sz,
          stream.consumer_index + sizeof_size_t sz)
        (if !options.PEEK then
          { stream with
            consumer_index :=
              stream.consumer_index + (sizeof_size_t sz + payload.length) }
        else stream)
        [] := by
  have hparts := (oldest_packet_parts h).1
  obtain ⟨hk, hcap, hlen, hle, hpc, hfit, hring⟩ := h
  unfold UINT_MOD at hpc
  have h32 := le_of_size_cases hsz
  have h3 := uint_mod_le_two_pow h32
  have hH : sizeof_size_t sz = 4 ∨ sizeof_size_t sz = 8 := by
    rcases sizeof_size_t_cases hsz with ⟨h1, _⟩ | ⟨h1, _⟩
    · exact Or.inl h1
    · exact Or.inr h1
  have hfl : read_packet_frame_length sz stream = payload.length + sizeof_size_t sz := by
    rw [read_packet_frame_length_eq h32 hk stream hcap hle hpc (by omega), hparts,
      size_t_of_size_t_bytes hsz (by omega), size_add_of_lt (by omega)]
  have hr : bytes_readable sz stream.capacity stream.consumer_index
      stream.producer_comitted_index =
      stream.producer_comitted_index - stream.consumer_index :=
    bytes_readable_of_le h32 hle hpc
  rw [read_packet_start_frame sz fuel stream options base_out state_out
    (by rw [hfl, hr]; omega)
    (by rw [hfl, size_sub_of_le (by omega) (by omega)]; omega)]
  rw [hfl, size_sub_of_le (by omega) (by omega)]
  unfold UINT_MOD
  rw [Nat.mod_eq_of_lt (by omega), Nat.mod_eq_of_lt (by omega), Nat.add_sub_cancel,
    Nat.add_comm payload.length]

/-- Reading the payload of the oldest unread packet from the offset
`streambuffer_read_packet_start` returned. -/
theorem read_packet_data_oldest {sz k : Nat} (stream stream' : streambuffer)
    (payload destination : List Nat)
    (hsz : sz = 32 ∨ sz = 64) (h : oldest_packet sz k stream payload)
    (hcap : stream'.capacity = stream.capacity) (hbuf : stream'.buffer = stream.buffer)
    (hdest : destination.length = payload.length) :
    (streambuffer_read_packet_data sz stream' destination payload.length
      (stream.consumer_index + sizeof_size_t sz)).1 = payload := by
  have hparts := (oldest_packet_parts h).2
  obtain ⟨hk, hcap', _, _, _, _, _⟩ := h
  simp only [streambuffer_read_packet_data]
  rw [hcap, hbuf, hcap', read_loop_eq_ring_bytes (le_of_size_cases hsz) hk _ _ _ _ hdest,
    hparts]

/-- One whole packet write on a consistent, non-wrapped stream with room for the frame:
every step returns and the stream ends as `write_packet_result`. -/
theorem write_packet_ok {sz k : Nat} (fuel : Nat) (stream : streambuffer)
    (payload : List Nat) (options : Options)
    (hsz : sz = 32 ∨ sz = 64) (hstate : consistent_nonwrapped k stream)
    (hfit : payload.length + sizeof_size_t sz ≤
      bytes_writable sz stream.capacity stream.consumer_comitted_index
        stream.producer_index) :
    streambuffer_write_packet_start sz (fuel + 2) stream payload.length options 0 0 =
      .returned
        (payload.length + sizeof_size_t sz,
          (stream.producer_index + sizeof_size_t sz) % 4294967296,
          (stream.producer_index + sizeof_size_t sz) % 4294967296)
        (write_packet_claimed sz stream payload.length (payload.length + sizeof_size_t sz))
        [] ∧
    write_packet sz (fuel + 2) stream payload options =
      some (write_packet_result sz stream payload) := by
  obtain ⟨hk, hcap, hlen, hpc, hcc, hle, hfl, hpi⟩ := hstate
  unfold UINT_MOD at hpi
  have h32 := le_of_size_cases hsz
  have h2 := two_pow_le_of_lt_32 hk
  have h3 := uint_mod_le_two_pow h32
  have hH : sizeof_size_t sz = 4 ∨ sizeof_size_t sz = 8 := by
    rcases sizeof_size_t_cases hsz with ⟨h1, _⟩ | ⟨h1, _⟩
    · exact Or.inl h1
    · exact Or.inr h1
  have hwv : bytes_writable sz stream.capacity stream.consumer_comitted_index
      stream.producer_index ≤ 2 ^ k := by
    rw [hcap, bytes_writable_eq h32 hk (by omega) hpi (by omega)]
    omega
  have hadd : size_add sz payload.length (sizeof_size_t sz) =
      payload.length + sizeof_size_t sz := size_add_of_lt (by omega)
  have hstart := write_packet_start_fits sz fuel stream payload.length options 0 0 hpi
    (by rw [hadd]; omega) (by rw [hadd]; exact hfit)
  rw [hadd] at hstart
  refine ⟨hstart, ?_⟩
  unfold write_packet
  rw [hstart]
  have hne : (payload.length + sizeof_size_t sz == 0) = false := by
    rw [beq_eq_false_iff_ne]; omega
  simp only [hne, Bool.false_eq_true, if_false]
  rw [write_packet_end_ok]
  · simp only [write_packet_result, hadd, UINT_MOD]
  · apply and_decide_lt_eq_false
    unfold UINT_MOD
    rw [packet_claim_start hsz _ hpi]
    simp only [streambuffer_write_packet_data, write_packet_claimed]
    omega

/-- The stream after one whole packet write on a consistent, non-wrapped stream: it is
consistent again, the consumer side is untouched, both producer cursors have advanced by
the frame size, and the ring holds the frame where producer_index stood. -/
theorem write_packet_result_spec {sz k : Nat} (stream : streambuffer) (payload : List Nat)
    (hsz : sz = 32 ∨ sz = 64) (hstate : consistent_nonwrapped k stream)
    (hfit : payload.length + sizeof_size_t sz ≤
      bytes_writable sz stream.capacity stream.consumer_comitted_index
        stream.producer_index)
    (hwrap : stream.producer_index + (payload.length + sizeof_size_t sz) < 4294967296) :
    consistent_nonwrapped k (write_packet_result sz stream payload) ∧
    (write_packet_result sz stream payload).consumer_index = stream.consumer_index ∧
    (write_packet_result sz stream payload).producer_index =
      stream.producer_index + (sizeof_size_t sz + payload.length) ∧
    (write_packet_result sz stream payload).options = stream.options ∧
    ring_bytes k (write_packet_result sz stream payload).buffer stream.producer_index
        (sizeof_size_t sz + payload.length) =
      size_t_bytes sz payload.length ++ payload ∧
    ∀ offset m, offset + m ≤ stream.producer_index →
      stream.producer_index + (sizeof_size_t sz + payload.length) ≤ offset + 2 ^ k →
      ring_bytes k (write_packet_result sz stream payload).buffer offset m =
        ring_bytes k stream.buffer offset m := by
  obtain ⟨hk, hcap, hlen, hpc, hcc, hle, hfl, hpi⟩ := hstate
  unfold UINT_MOD at hpi
  have h32 := le_of_size_cases hsz
  have h2 := two_pow_le_of_lt_32 hk
  have h3 := uint_mod_le_two_pow h32
  have hH : sizeof_size_t sz = 4 ∨ sizeof_size_t sz = 8 := by
    rcases sizeof_size_t_cases hsz with ⟨h1, _⟩ | ⟨h1, _⟩
    · exact Or.inl h1
    · exact Or.inr h1
  have hw : bytes_writable sz stream.capacity stream.consumer_comitted_index
      stream.producer_index = 2 ^ k - (stream.producer_index - stream.consumer_index) := by
    rw [hcap, bytes_writable_eq h32 hk (by omega) hpi (by omega)]
    omega
  rw [hw] at hfit
  have hadd : size_add sz payload.length (sizeof_size_t sz) =
      payload.length + sizeof_size_t sz := size_add_of_lt (by omega)
  have hbase : (stream.producer_index + sizeof_size_t sz) % 4294967296 =
      stream.producer_index + sizeof_size_t sz := Nat.mod_eq_of_lt (by omega)
  have hbuf : (write_packet_result sz stream payload).buffer =
      (write_loop sz (2 ^ k) payload payload.length
        (write_loop sz (2 ^ k) (size_t_bytes sz payload.length)
          (size_t_bytes sz payload.length).length stream.buffer stream.producer_index 0).1
        (stream.producer_index + sizeof_size_t sz) 0).1 := by
    simp only [write_packet_result, write_packet_committed, streambuffer_write_packet_data,
      write_packet_claimed, UINT_MOD]
    rw [hbase, hcap, size_t_bytes_length]
  have hhl : (size_t_bytes sz payload.length).length = sizeof_size_t sz :=
    size_t_bytes_length _ _
  have hl1 : (write_loop sz (2 ^ k) (size_t_bytes sz payload.length)
      (size_t_bytes sz payload.length).length stream.buffer stream.producer_index 0).1.length =
      2 ^ k := by rw [write_loop_length]; exact hlen
  refine ⟨⟨hk, hcap, ?_, ?_, hcc, ?_, ?_, ?_⟩, rfl, ?_, rfl, ?_, ?_⟩
  · rw [hbuf, write_loop_length]
    exact hl1
  · simp only [write_packet_result, write_packet_committed, streambuffer_write_packet_data,
      write_packet_claimed]
    rw [hpc]
  · simp only [write_packet_result, write_packet_committed, streambuffer_write_packet_data,
      write_packet_claimed, UINT_MOD]
    rw [hadd]
    omega
  · simp only [write_packet_result, write_packet_committed, streambuffer_write_packet_data,
      write_packet_claimed, UINT_MOD]
    rw [hadd]
    omega
  · simp only [write_packet_result, write_packet_committed, streambuffer_write_packet_data,
      write_packet_claimed, UINT_MOD]
    rw [hadd]
    omega
  · simp only [write_packet_result, write_packet_committed, streambuffer_write_packet_data,
      write_packet_claimed, UINT_MOD]
    rw [hadd]
    omega
  · rw [hbuf, ring_bytes_add]
    congr 1
    · rw [ring_bytes_write_loop_before h32 hk _ _ _ _ _ _ (by omega) (by omega), ← hhl]
      exact ring_bytes_write_loop h32 hk _ _ _ (by omega) hlen
    · exact ring_bytes_write_loop h32 hk _ _ _ (by omega) hl1
  · intro offset m h1 h2'
    rw [hbuf, ring_bytes_write_loop_before h32 hk _ _ _ _ _ _ (by omega) (by omega), hhl,
      ring_bytes_write_loop_before h32 hk _ _ _ _ _ _ (by omega) (by omega)]

theorem packet_bytes_length_cons (sz : Nat) (payload : List Nat) (payloads : List (List Nat)) :
    (packet_bytes sz (payload :: payloads)).length =
      sizeof_size_t sz + payload.length + (packet_bytes sz payloads).length := by
  rw [packet_bytes, List.length_append, List.length_append, size_t_bytes_length]

/-- `bytes_writable` on a consistent, non-wrapped stream. -/
theorem bytes_writable_consistent {sz k : Nat} (hsz : 32 ≤ sz) (stream : streambuffer)
    (hstate : consistent_nonwrapped k stream) :
    bytes_writable sz stream.capacity stream.consumer_comitted_index stream.producer_index =
      2 ^ k - (stream.producer_index - stream.consumer_index) := by
  obtain ⟨hk, hcap, hlen, hpc, hcc, hle, hfl, hpi⟩ := hstate
  unfold UINT_MOD at hpi
  have h2 := two_pow_le_of_lt_32 hk
  rw [hcap, bytes_writable_eq hsz hk (by omega) hpi (by omega)]
  omega

/-- Writing a sequence of packets that fits the free space of a consistent, non-wrapped
stream: every write succeeds and the ring holds the frames one after the other from
where producer_index stood. -/
theorem write_packets_ok {sz k : Nat} (fuel : Nat) (options : Options)
    (hsz : sz = 32 ∨ sz = 64) (payloads : List (List Nat)) :
    ∀ stream : streambuffer, consistent_nonwrapped k stream →
      (packet_bytes sz payloads).length + (stream.producer_index - stream.consumer_index) ≤
        2 ^ k →
      stream.producer_index + (packet_bytes sz payloads).length < 4294967296 →
      ∃ stream', write_packets sz (fuel + 2) options stream payloads = some stream' ∧
        consistent_nonwrapped k stream' ∧
        stream'.consumer_index = stream.consumer_index ∧
        stream'.producer_index = stream.producer_index + (packet_bytes sz payloads).length ∧
        ring_bytes k stream'.buffer stream.producer_index (packet_bytes sz payloads).length =
          packet_bytes sz payloads ∧
        ∀ offset m, offset + m ≤ stream.producer_index →
          stream.producer_index + (packet_bytes sz payloads).length ≤ offset + 2 ^ k →
          ring_bytes k stream'.buffer offset m = ring_bytes k stream.buffer offset m := by
  induction payloads with
  | nil =>
    intro stream hstate _ _
    exact ⟨stream, rfl, hstate, rfl, rfl, rfl, fun _ _ _ _ => rfl⟩
  | cons payload payloads ih =>
    intro stream hstate hfit hwrap
    rw [packet_bytes_length_cons] at hfit hwrap
    have h32 := le_of_size_cases hsz
    have hle := hstate.2.2.2.2.2.1
    have hfit1 : payload.length + sizeof_size_t sz ≤
        bytes_writable sz stream.capacity stream.consumer_comitted_index
          stream.producer_index := by
      rw [bytes_writable_consistent h32 stream hstate]
      omega
    obtain ⟨_, hrun⟩ := write_packet_ok fuel stream payload options hsz hstate hfit1
    obtain ⟨hstate1, hci1, hpi1, _, hring1, hframe1⟩ :=
      write_packet_result_spec stream payload hsz hstate hfit1 (by omega)
    obtain ⟨stream', hrun', hstate', hci', hpi', hring', hframe'⟩ :=
      ih (write_packet_result sz stream payload) hstate1 (by rw [hpi1, hci1]; omega)
        (by rw [hpi1]; omega)
    refine ⟨stream', ?_, hstate', ?_, ?_, ?_, ?_⟩
    · rw [write_packets, hrun]
      exact hrun'
    · rw [hci', hci1]
    · rw [hpi', hpi1, packet_bytes_length_cons]
      omega
    · rw [packet_bytes_length_cons, ring_bytes_add, packet_bytes]
      congr 1
      · rw [hframe' _ _ (by rw [hpi1]) (by rw [hpi1]; omega)]
        exact hring1
      · rw [← hpi1]
        exact hring'
    · intro offset m h1 h2
      rw [packet_bytes_length_cons] at h2
      rw [hframe' offset m (by rw [hpi1]; omega) (by rw [hpi1]; omega)]
      exact hframe1 offset m h1 (by omega)

/-- Reading the packets the ring holds from consumer_index on, none of them empty: the
reads return the payloads in the order they lie in the ring. -/
theorem read_packets_ok {sz k : Nat} (fuel : Nat) (options : Options)
    (hsz : sz = 32 ∨ sz = 64) (hnopeek : options.PEEK = false) (payloads : List (List Nat)) :
    ∀ stream : streambuffer, k < 32 → stream.capacity = 2 ^ k →
      stream.buffer.length = 2 ^ k →
      stream.consumer_index ≤ stream.producer_comitted_index →
      stream.producer_comitted_index < 4294967296 →
      (packet_bytes sz payloads).length ≤
        stream.producer_comitted_index - stream.consumer_index →
      ring_bytes k stream.buffer stream.consumer_index (packet_bytes sz payloads).length =
        packet_bytes sz payloads →
      (∀ payload, payload ∈ payloads → 1 ≤ payload.length) →
      read_packets sz (fuel + 2) options payloads.length stream = some payloads := by
  induction payloads with
  | nil => intro stream _ _ _ _ _ _ _ _; rfl
  | cons payload payloads ih =>
    intro stream hk hcap hlen hle hpc hfit hring hpos
    rw [packet_bytes_length_cons] at hfit hring
    rw [packet_bytes, ring_bytes_add] at hring
    have hsplit := List.append_inj hring (by
      rw [ring_bytes_length, List.length_append, size_t_bytes_length])
    have hold : oldest_packet sz k stream payload :=
      ⟨hk, hcap, hlen, hle, hpc, by omega, hsplit.1⟩
    have hp := hpos payload (List.mem_cons_self _ _)
    have hstart := read_packet_start_oldest fuel stream payload options 0 0 hsz hold hp
    rw [hnopeek] at hstart
    simp only [Bool.not_false, if_true] at hstart
    have hne : (payload.length == 0) = false := by
      rw [beq_eq_false_iff_ne]; omega
    rw [List.length_cons, read_packets, read_packet, hstart]
    simp only [hne, Bool.false_eq_true, if_false]
    rw [read_packet_data_oldest stream
      { stream with
        consumer_index := stream.consumer_index + (sizeof_size_t sz + payload.length) }
      payload (List.replicate payload.length 0) hsz hold rfl rfl (List.length_replicate _ _)]
    rw [ih
      { stream with
        consumer_index := stream.consumer_index + (sizeof_size_t sz + payload.length) }
      hk hcap hlen (show stream.consumer_index + (sizeof_size_t sz + payload.length) ≤
        stream.producer_comitted_index by omega) hpc
      (show (packet_bytes sz payloads).length ≤ stream.producer_comitted_index -
        (stream.consumer_index + (sizeof_size_t sz + payload.length)) by omega) hsplit.2
      (fun p hp' => hpos p (List.mem_cons_of_mem _ hp'))]
    rfl

theorem write_loop_mod_uint {sz k : Nat} (hsz : 32 ≤ sz) (hk : k < 32) (source : List Nat)
    (n : Nat) (buffer : List Nat) (write_index bytes_written : Nat) :
    (write_loop sz (2 ^ k) source n buffer (write_index % 4294967296) bytes_written).1 =
      (write_loop sz (2 ^ k) source n buffer write_index bytes_written).1 := by
  cases n with
  | zero => rfl
  | succ n =>
    rw [write_loop, write_loop, and_mask hsz hk, and_mask hsz hk, mod_uint_mod hk]
    unfold UINT_MOD
    rw [show (write_index % 4294967296 + 1) % 4294967296 = (write_index + 1) % 4294967296 by
      omega]

/-- The oldest unread packet of the stream one whole packet write leaves behind, when
the stream held no unread data before. -/
theorem oldest_packet_write_packet_result {sz k : Nat} (stream : streambuffer)
    (payload : List Nat) (hsz : sz = 32 ∨ sz = 64) (hstate : consistent_nonwrapped k stream)
    (hempty : stream.consumer_index = stream.producer_index)
    (hfit : payload.length + sizeof_size_t sz ≤
      bytes_writable sz stream.capacity stream.consumer_comitted_index
        stream.producer_index)
    (hwrap : stream.producer_index + (payload.length + sizeof_size_t sz) < 4294967296) :
    oldest_packet sz k (write_packet_result sz stream payload) payload ∧
    (write_packet_result sz stream payload).consumer_index = stream.producer_index := by
  obtain ⟨⟨hk, hcap, hlen, hpc, hcc, hle, hfl, hpi⟩, hci, hpi', _, hring, _⟩ :=
    write_packet_result_spec stream payload hsz hstate hfit hwrap
  refine ⟨⟨hk, hcap, hlen, ?_, ?_, ?_, ?_⟩, by rw [hci, hempty]⟩
  · rw [hpc]; exact hle
  · rw [hpc]; exact hpi
  · rw [hpc, hpi', hci, hempty]; omega
  · rw [hci, hempty]; exact hring

/-! ## A packet under construction -/

/-- A run of `streambuffer_write_packet_data` calls moves no cursor and no counter, and
leaves alone every run of storage that ends before the position the calls start at and
begins less than a capacity before the position they stop at. -/
theorem write_packet_chunks_spec {sz k : Nat} (hsz : 32 ≤ sz) (hk : k < 32)
    (chunks : List (List Nat)) :
    ∀ (stream : streambuffer) (position : Nat), stream.capacity = 2 ^ k →
      (write_packet_chunks sz stream (position % 4294967296) chunks).1.capacity =
        stream.capacity ∧
      (write_packet_chunks sz stream (position % 4294967296) chunks).1.options =
        stream.options ∧
      (write_packet_chunks sz stream (position % 4294967296) chunks).1.producer_index =
        stream.producer_index ∧
      (write_packet_chunks sz stream (position % 4294967296) chunks).1.producer_comitted_index =
        stream.producer_comitted_index ∧
      (write_packet_chunks sz stream (position % 4294967296) chunks).1.consumer_index =
        stream.consumer_index ∧
      (write_packet_chunks sz stream (position % 4294967296) chunks).1.consumer_comitted_index =
        stream.consumer_comitted_index ∧
      (write_packet_chunks sz stream (position % 4294967296) chunks).1.producer_count =
        stream.producer_count ∧
      (write_packet_chunks sz stream (position % 4294967296) chunks).1.consumer_count =
        stream.consumer_count ∧
      (write_packet_chunks sz stream (position % 4294967296) chunks).1.buffer.length =
        stream.buffer.length ∧
      ∀ offset m, offset + m ≤ position →
        position + chunks_length chunks ≤ offset + 2 ^ k →
        ring_bytes k (write_packet_chunks sz stream (position % 4294967296) chunks).1.buffer
            offset m =
          ring_bytes k stream.buffer offset m := by
  induction chunks with
  | nil =>
    intro stream position _
    exact ⟨rfl, rfl, rfl, rfl, rfl, rfl, rfl, rfl, rfl, fun _ _ _ _ => rfl⟩
  | cons chunk chunks ih =>
    intro stream position hcap
    have hstate : (streambuffer_write_packet_data sz stream chunk chunk.length
        (position % 4294967296)).2 = (position + chunk.length) % 4294967296 := by
      simp only [streambuffer_write_packet_data]
      rw [write_loop_index _ _ _ _ _ _ _ (Nat.mod_lt _ (by norm_num))]
      omega
    have hbuf : (streambuffer_write_packet_data sz stream chunk chunk.length
        (position % 4294967296)).1.buffer =
        (write_loop sz (2 ^ k) chunk chunk.length stream.buffer position 0).1 := by
      simp only [streambuffer_write_packet_data]
      rw [hcap, write_loop_mod_uint hsz hk]
    rw [write_packet_chunks, hstate]
    obtain ⟨h1, h2, h3, h4, h5, h6, h7, h8, h9, h10⟩ :=
      ih (streambuffer_write_packet_data sz stream chunk chunk.length
        (position % 4294967296)).1 (position + chunk.length) hcap
    refine ⟨h1, h2, h3, h4, h5, h6, h7, h8, ?_, ?_⟩
    · rw [h9, hbuf, write_loop_length]
    · intro offset m hm1 hm2
      rw [chunks_length] at hm2
      rw [h10 offset m (by omega) (by omega), hbuf]
      exact ring_bytes_write_loop_before hsz hk _ _ _ _ _ _ hm1 (by omega)

/-- A non-blocking `streambuffer_stream_in` returns the same count and the same bytes on
two streams that agree on capacity, options, consumer cursors, producer_committed, the
producer waiter counter and the readable run of storage. -/
theorem stream_in_same_view {sz k : Nat} (hsz : 32 ≤ sz) (stream stream' : streambuffer)
    (destination : List Nat) (length : Nat) (options : Options)
    (hstate : consistent_nonwrapped k stream) (hnb : options.NO_BLOCK = true)
    (hcap : stream'.capacity = stream.capacity) (hopt : stream'.options = stream.options)
    (hci : stream'.consumer_index = stream.consumer_index)
    (hcc : stream'.consumer_comitted_index = stream.consumer_comitted_index)
    (hpc : stream'.producer_comitted_index = stream.producer_comitted_index)
    (hcount : stream'.producer_count = stream.producer_count)
    (hring : ring_bytes k stream'.buffer stream.consumer_index
        (stream.producer_comitted_index - stream.consumer_index) =
      ring_bytes k stream.buffer stream.consumer_index
        (stream.producer_comitted_index - stream.consumer_index)) :
    ∃ value after after' events,
      streambuffer_stream_in sz stream destination length options =
        .returned value after events ∧
      streambuffer_stream_in sz stream' destination length options =
        .returned value after' events := by
  obtain ⟨hk, hcap0, hlen, hpc0, hcc0, hle, hfl, hpi⟩ := hstate
  unfold UINT_MOD at hpi
  have hr : bytes_readable sz stream.capacity stream.consumer_index
      stream.producer_comitted_index =
      stream.producer_comitted_index - stream.consumer_index := by
    rw [hpc0]; exact bytes_readable_of_le hsz hle hpi
  have hr' : bytes_readable sz stream'.capacity stream'.consumer_index
      stream'.producer_comitted_index =
      stream.producer_comitted_index - stream.consumer_index := by
    rw [hcap, hci, hpc]; exact hr
  by_cases h0 : length = 0
  · subst h0
    exact ⟨_, _, _, _, stream_in_zero sz stream destination options,
      stream_in_zero sz stream' destination options⟩
  · cases hcan : STREAMBUFFER_CAN_READ options
        (min (stream.producer_comitted_index - stream.consumer_index) length) length with
    | false =>
      exact ⟨_, _, _, _,
        stream_in_fail sz stream destination length options (by omega) hnb (by rw [hr]; exact hcan),
        stream_in_fail sz stream' destination length options (by omega) hnb
          (by rw [hr']; exact hcan)⟩
    | true =>
      have hrun := stream_in_ok sz stream destination length options
        (min (stream.producer_comitted_index - stream.consumer_index) length) (by omega)
        (by rw [hr]) hcan (by
          apply and_decide_lt_eq_false
          rw [read_loop_index _ _ _ _ _ _ _ (by omega),
            size_sub_cursor hsz _ _ (by omega) (by omega) (Or.inr (by omega)), hcc0])
      have hrun' := stream_in_ok sz stream' destination length options
        (min (stream.producer_comitted_index - stream.consumer_index) length) (by omega)
        (by rw [hr']) hcan (by
          apply and_decide_lt_eq_false
          rw [hci, hcc, read_loop_index _ _ _ _ _ _ _ (by omega),
            size_sub_cursor hsz _ _ (by omega) (by omega) (Or.inr (by omega)), hcc0])
      have hout : (read_loop sz stream'.capacity stream'.buffer
          (min (stream.producer_comitted_index - stream.consumer_index) length) destination
          stream'.consumer_index 0).1 =
          (read_loop sz stream.capacity stream.buffer
            (min (stream.producer_comitted_index - stream.consumer_index) length) destination
            stream.consumer_index 0).1 := by
        apply List.ext_getElem?
        intro j
        rw [hcap, hci, hcap0, read_loop_getElem? hsz hk, read_loop_getElem? hsz hk, Nat.sub_zero]
        by_cases hj : 0 ≤ j ∧ j < 0 + min (stream.producer_comitted_index -
            stream.consumer_index) length ∧ j < destination.length
        · rw [if_pos hj, if_pos hj]
          have hcell := congrArg (fun l => l[j]?) hring
          simp only [ring_bytes_getElem?] at hcell
          rw [if_pos (by omega), if_pos (by omega)] at hcell
          exact hcell
        · rw [if_neg hj, if_neg hj]
      rw [hout, hcount] at hrun'
      have hev : wake_events Futex.consumer_comitted_index stream.producer_count stream' =
          wake_events Futex.consumer_comitted_index stream.producer_count stream := by
        simp only [wake_events, STREAMBUFFER_FUTEX_FLAGS, hopt]
      rw [hev] at hrun'
      exact ⟨_, _, _, _, hrun, hrun'⟩

/-- The stream while a packet is under construction on a consistent, non-wrapped stream
(after the start and a run of data calls within the claimed range): apart from
producer_index and the storage outside the readable run, it is the stream before. -/
theorem packet_under_construction {sz k : Nat} (hsz : sz = 32 ∨ sz = 64)
    (stream : streambuffer) (length : Nat) (chunks : List (List Nat))
    (hstate : consistent_nonwrapped k stream)
    (hfit : length + sizeof_size_t sz ≤
      bytes_writable sz stream.capacity stream.consumer_comitted_index
        stream.producer_index)
    (hchunks : chunks_length chunks ≤ length) :
    (write_packet_chunks sz
        (write_packet_claimed sz stream length (length + sizeof_size_t sz))
        ((stream.producer_index + sizeof_size_t sz) % 4294967296) chunks).1.capacity =
      stream.capacity ∧
    (write_packet_chunks sz
        (write_packet_claimed sz stream length (length + sizeof_size_t sz))
        ((stream.producer_index + sizeof_size_t sz) % 4294967296) chunks).1.options =
      stream.options ∧
    (write_packet_chunks sz
        (write_packet_claimed sz stream length (length + sizeof_size_t sz))
        ((stream.producer_index + sizeof_size_t sz) % 4294967296) chunks).1.producer_index =
      (stream.producer_index + (length + sizeof_size_t sz)) % 4294967296 ∧
    (write_packet_chunks sz
        (write_packet_claimed sz stream length (length + sizeof_size_t sz))
        ((stream.producer_index + sizeof_size_t sz) % 4294967296)
        chunks).1.producer_comitted_index = stream.producer_comitted_index ∧
    (write_packet_chunks sz
        (write_packet_claimed sz stream length (length + sizeof_size_t sz))
        ((stream.producer_index + sizeof_size_t sz) % 4294967296) chunks).1.consumer_index =
      stream.consumer_index ∧
    (write_packet_chunks sz
        (write_packet_claimed sz stream length (length + sizeof_size_t sz))
        ((stream.producer_index + sizeof_size_t sz) % 4294967296)
        chunks).1.consumer_comitted_index = stream.consumer_comitted_index ∧
    (write_packet_chunks sz
        (write_packet_claimed sz stream length (length + sizeof_size_t sz))
        ((stream.producer_index + sizeof_size_t sz) % 4294967296) chunks).1.producer_count =
      stream.producer_count ∧
    (write_packet_chunks sz
        (write_packet_claimed sz stream length (length + sizeof_size_t sz))
        ((stream.producer_index + sizeof_size_t sz) % 4294967296) chunks).1.consumer_count =
      stream.consumer_count ∧
    (write_packet_chunks sz
        (write_packet_claimed sz stream length (length + sizeof_size_t sz))
        ((stream.producer_index + sizeof_size_t sz) % 4294967296) chunks).1.buffer.length =
      2 ^ k ∧
    ∀ m, m ≤ stream.producer_comitted_index - stream.consumer_index →
      ring_bytes k
          (write_packet_chunks sz
            (write_packet_claimed sz stream length (length + sizeof_size_t sz))
            ((stream.producer_index + sizeof_size_t sz) % 4294967296) chunks).1.buffer
          stream.consumer_index m =
        ring_bytes k stream.buffer stream.consumer_index m := by
  have h32 := le_of_size_cases hsz
  rw [bytes_writable_consistent h32 stream hstate] at hfit
  obtain ⟨hk, hcap, hlen, hpc, hcc, hle, hfl, hpi⟩ := hstate
  have h1 : 1 ≤ 2 ^ k := Nat.one_le_two_pow
  obtain ⟨c1, c2, c3, c4, c5, c6, c7, c8, c9, c10⟩ :=
    write_packet_chunks_spec h32 hk chunks
      (write_packet_claimed sz stream length (length + sizeof_size_t sz))
      (stream.producer_index + sizeof_size_t sz) hcap
  refine ⟨c1, c2, c3, c4, c5, c6, c7, c8, ?_, ?_⟩
  · rw [c9]
    simp only [write_packet_claimed]
    rw [write_loop_length]
    exact hlen
  · intro m hm
    rw [c10 stream.consumer_index m (by omega) (by omega)]
    simp only [write_packet_claimed]
    rw [hcap]
    exact ring_bytes_write_loop_before h32 hk _ _ _ _ _ _ (by omega) (by omega)

theorem read_packet_start_empty (sz fuel : Nat) (stream : streambuffer) (options : Options)
    (base_out state_out : Nat) (hsz : 32 ≤ sz) (hnb : options.NO_BLOCK = true)
    (hempty : stream.consumer_index = stream.producer_comitted_index) :
    streambuffer_read_packet_start sz (fuel + 1) stream options base_out state_out =
      .returned (0, base_out, state_out) stream [] := by
  apply read_packet_start_short sz fuel stream options base_out state_out hnb
  have hH : 4 ≤ sizeof_size_t sz := by unfold sizeof_size_t; omega
  unfold read_packet_frame_length
  rw [hempty, bytes_readable_self]
  simp only [bne_self_eq_false, Bool.false_eq_true, if_false]
  omega

/-! ## Overwrite -/

theorem try_truncate_ok (sz : Nat) (stream : streambuffer) (options : Options)
    (length n : Nat)
    (hn : min (bytes_readable sz stream.capacity stream.consumer_index
      stream.producer_comitted_index) length = n)
    (hcan : STREAMBUFFER_CAN_READ options n length = true)
    (hspin : (stream.options.MULTIPLE_READERS &&
      decide (stream.consumer_comitted_index < size_sub sz stream.consumer_index n)) = false) :
    streambuffer_try_truncate sz stream options length = .returned () (truncated stream n) [] := by
  unfold streambuffer_try_truncate
  simp only [hn, hcan, Bool.not_true, Bool.false_eq_true, if_false,
    STREAMBUFFER_HAS_MULTIPLE_READERS, hspin]
  rfl

/-- A pass of the write loop that finds the request admitted but short of space hands
over to `streambuffer_try_truncate` and starts over on the stream it leaves. -/
theorem stream_out_truncate_step (sz fuel : Nat) (stream stream' : streambuffer)
    (buffer : List Nat) (length : Nat) (options : Options) (events : List Event)
    (hlen : 0 < length)
    (hcan : STREAMBUFFER_CAN_STREAM stream options
      (min (bytes_writable sz stream.capacity stream.consumer_comitted_index
        stream.producer_index) length) length = true)
    (hshort : bytes_writable sz stream.capacity stream.consumer_comitted_index
      stream.producer_index < length)
    (htr : streambuffer_try_truncate sz stream options length =
      .returned () stream' events) :
    streambuffer_stream_out sz (fuel + 1) stream buffer length options =
      streambuffer_stream_out sz fuel stream' buffer length options := by
  unfold streambuffer_stream_out
  rw [stream_out_loop]
  simp only [Nat.sub_zero, if_pos hlen, hcan, Bool.not_true, Bool.false_eq_true, if_false]
  rw [if_pos (by omega), htr]

/-! ## What a returning call has done -/

/-- A `streambuffer_try_truncate` that returns has either done nothing or advanced the
two consumer cursors by the smaller of the readable count and the request. -/
theorem try_truncate_returned (sz : Nat) (stream stream' : streambuffer) (options : Options)
    (length : Nat) (events : List Event)
    (h : streambuffer_try_truncate sz stream options length = .returned () stream' events) :
    stream' = stream ∨
    stream' = truncated stream
      (min (bytes_readable sz stream.capacity stream.consumer_index
        stream.producer_comitted_index) length) := by
  unfold streambuffer_try_truncate at h
  simp only [] at h
  split at h
  · cases h
    exact Or.inl rfl
  · split at h
    · cases h
    · cases h
      exact Or.inr rfl

/-- A `streambuffer_stream_out` that returns has either written nothing, leaving the
producer cursors, the waiter counters and the storage as they were, or it has found the
whole request writable in one pass, possibly after `streambuffer_try_truncate` had moved
the consumer cursors, and claimed, copied and committed all of it. -/
theorem stream_out_loop_returned (sz : Nat) (buffer : List Nat) (length : Nat)
    (options : Options) (P : streambuffer → Prop)
    (hP : ∀ s, P s →
      P (truncated s
        (min (bytes_readable sz s.capacity s.consumer_index s.producer_comitted_index)
          length))) :
    ∀ (fuel : Nat) (stream : streambuffer) (n : Nat) (stream' : streambuffer)
      (events : List Event), P stream →
      stream_out_loop sz buffer length options fuel stream 0 [] = .returned n stream' events →
      (n = 0 ∧ events = [] ∧ P stream' ∧ stream'.producer_index = stream.producer_index ∧
        stream'.producer_comitted_index = stream.producer_comitted_index ∧
        stream'.producer_count = stream.producer_count ∧
        stream'.consumer_count = stream.consumer_count ∧ stream'.buffer = stream.buffer) ∨
      (n = length ∧ 0 < length ∧
        events = wake_events .producer_comitted_index stream.consumer_count stream ∧
        ∃ before, P before ∧ before.capacity = stream.capacity ∧
          before.options = stream.options ∧
          before.producer_index = stream.producer_index ∧
          before.producer_comitted_index = stream.producer_comitted_index ∧
          before.producer_count = stream.producer_count ∧
          before.consumer_count = stream.consumer_count ∧ before.buffer = stream.buffer ∧
          length ≤ bytes_writable sz before.capacity before.consumer_comitted_index
            before.producer_index ∧
          stream' = stream_out_commit sz before buffer length) := by
  intro fuel
  induction fuel with
  | zero =>
    intro stream n stream' events _ h
    simp [stream_out_loop] at h
  | succ fuel ih =>
    intro stream n stream' events hstream h
    rw [stream_out_loop] at h
    by_cases hlen : 0 < length
    · simp only [if_pos hlen, Nat.sub_zero] at h
      split at h
      · split at h
        · cases h
          exact Or.inl ⟨rfl, rfl, hstream, rfl, rfl, rfl, rfl, rfl⟩
        · cases h
      · split at h
        · -- the request is short: truncate and start over
          split at h
          · rename_i u stream2 ev2 htr
            have hfr := try_truncate_returned sz stream stream2 options length ev2 htr
            have hP2 : P stream2 := by
              rcases hfr with hfr | hfr
              · rw [hfr]; exact hstream
              · rw [hfr]; exact hP stream hstream
            have hsame : stream2.capacity = stream.capacity ∧
                stream2.options = stream.options ∧
                stream2.producer_index = stream.producer_index ∧
                stream2.producer_comitted_index = stream.producer_comitted_index ∧
                stream2.producer_count = stream.producer_count ∧
                stream2.consumer_count = stream.consumer_count ∧
                stream2.buffer = stream.buffer := by
              rcases hfr with hfr | hfr <;> subst hfr <;> exact ⟨rfl, rfl, rfl, rfl, rfl, rfl, rfl⟩
            obtain ⟨e1, e2, e3, e4, e5, e6, e7⟩ := hsame
            rcases ih stream2 n stream' events hP2 h with
              ⟨h1, h2, h0, h3, h4, h5, h6, h7⟩ |
              ⟨h1, h2, h3, before, b0, b1, b2, b3, b4, b5, b6, b7, b8, b9⟩
            · exact Or.inl ⟨h1, h2, h0, h3.trans e3, h4.trans e4, h5.trans e5, h6.trans e6,
                h7.trans e7⟩
            · refine Or.inr ⟨h1, h2, ?_, before, b0, b1.trans e1, b2.trans e2, b3.trans e3,
                b4.trans e4, b5.trans e5, b6.trans e6, b7.trans e7, b8, b9⟩
              rw [h3, e6]
              simp [wake_events, STREAMBUFFER_FUTEX_FLAGS, e2]
          · cases h
          · cases h
          · cases h
        · -- the whole request is available
          rename_i hcan hshort
          have hmin : min (bytes_writable sz stream.capacity stream.consumer_comitted_index
              stream.producer_index) length = length := by omega
          simp only [hmin, write_loop_count, Nat.zero_add] at h
          split at h
          · cases h
          · cases fuel with
            | zero => simp [stream_out_loop] at h
            | succ fuel =>
              rw [stream_out_loop_done] at h
              cases h
              refine Or.inr ⟨rfl, hlen, ?_, stream, hstream, rfl, rfl, rfl, rfl, rfl, rfl,
                rfl, by omega, ?_⟩
              · simp [wake_events, STREAMBUFFER_FUTEX_FLAGS]
              · simp [stream_out_commit]
    · simp only [if_neg hlen] at h
      cases h
      exact Or.inl ⟨by omega, rfl, hstream, rfl, rfl, rfl, rfl, rfl⟩

/-- A `streambuffer_stream_in` that returns has either read nothing and changed nothing,
or claimed, copied out and committed a non-zero number of bytes. -/
theorem stream_in_returned (sz : Nat) (stream : streambuffer) (buffer : List Nat)
    (length : Nat) (options : Options) (value : Nat × List Nat) (stream' : streambuffer)
    (events : List Event)
    (h : streambuffer_stream_in sz stream buffer length options =
      .returned value stream' events) :
    (value = (0, buffer) ∧ stream' = stream ∧ events = []) ∨
    (value.1 ≠ 0 ∧
      value.1 = min (bytes_readable sz stream.capacity stream.consumer_index
        stream.producer_comitted_index) length ∧
      stream' = stream_in_commit stream value.1 ∧
      events = wake_events .consumer_comitted_index stream.producer_count stream) := by
  unfold streambuffer_stream_in at h
  by_cases hlen : 0 < length
  · simp only [if_pos hlen, Nat.sub_zero] at h
    split at h
    · split at h
      · cases h
        exact Or.inl ⟨rfl, rfl, rfl⟩
      · cases h
    · rename_i hcan
      split at h
      · cases h
      · cases h
        refine Or.inr ⟨?_, ?_, ?_, ?_⟩
        · simp only [read_loop_count, Nat.zero_add]
          intro h0
          rw [h0] at hcan
          simp [STREAMBUFFER_CAN_READ, STREAMBUFFER_PARTIAL_OP_SAFE] at hcan
          omega
        · simp only [read_loop_count, Nat.zero_add]
        · simp [stream_in_commit, read_loop_count]
        · simp [wake_events, STREAMBUFFER_FUTEX_FLAGS]
  · simp only [if_neg hlen] at h
    cases h
    exact Or.inl ⟨rfl, rfl, rfl⟩

/-! ## The cursor invariant -/

theorem cursor_distance_add_both {a b : Nat} (n : Nat) (ha : a < 4294967296)
    (hb : b < 4294967296) :
    cursor_distance ((a + n) % 4294967296) ((b + n) % 4294967296) = cursor_distance a b := by
  unfold cursor_distance UINT_MOD
  omega

theorem cursor_distance_add_right {a b : Nat} (n : Nat) (ha : a < 4294967296)
    (hb : b < 4294967296) (h : cursor_distance a b + n < 4294967296) :
    cursor_distance a ((b + n) % 4294967296) = cursor_distance a b + n := by
  unfold cursor_distance UINT_MOD at *
  omega

theorem cursor_distance_add_left {a b : Nat} (n : Nat) (ha : a < 4294967296)
    (hb : b < 4294967296) (h : n ≤ cursor_distance a b) :
    cursor_distance ((a + n) % 4294967296) b = cursor_distance a b - n := by
  unfold cursor_distance UINT_MOD at *
  omega

theorem cursor_distance_between {a b c : Nat} (ha : a < 4294967296) (hb : b < 4294967296)
    (hc : c < 4294967296) (h : cursor_distance a b ≤ cursor_distance a c) :
    cursor_distance b c = cursor_distance a c - cursor_distance a b := by
  unfold cursor_distance UINT_MOD at *
  omega

/-- On cursors at most a capacity apart `bytes_readable` never exceeds their wrapping
distance. -/
theorem bytes_readable_le_distance {sz k r w : Nat} (hsz : 32 ≤ sz) (hk : k < 32)
    (hr : r < 4294967296) (hw : w < 4294967296) (hd : cursor_distance r w ≤ 2 ^ k) :
    bytes_readable sz (2 ^ k) r w ≤ cursor_distance r w := by
  have h2 := two_pow_le_of_lt_32 hk
  unfold cursor_distance UINT_MOD at *
  by_cases h : r ≤ w
  · rw [bytes_readable_of_le hsz h hw]
    omega
  · rw [bytes_readable_wrapped hsz hk hr (by omega) (by omega)]
    omega

/-- In an ordered stream at most the bytes between consumer_index and producer_committed
are readable. -/
theorem cursors_ordered_readable {sz k w r : Nat} (hsz : 32 ≤ sz) (stream : streambuffer)
    (h : cursors_ordered k w r stream) :
    bytes_readable sz stream.capacity stream.consumer_index stream.producer_comitted_index ≤
      cursor_distance stream.consumer_comitted_index stream.producer_comitted_index -
        cursor_distance stream.consumer_comitted_index stream.consumer_index := by
  obtain ⟨hk, hcap, hpi, hpc, hci, hcc, h1, h2, h3, h4⟩ := h
  unfold UINT_MOD at hpi hpc hci hcc
  have hb := cursor_distance_between hcc hci hpc h1
  have hr := @bytes_readable_le_distance sz k _ _ hsz hk hci hpc (by omega)
  rw [hcap]
  omega

/-- In an ordered stream the writable count is the capacity less the bytes between
consumer_committed and producer_index. -/
theorem cursors_ordered_writable {sz k w r : Nat} (hsz : 32 ≤ sz) (stream : streambuffer)
    (h : cursors_ordered k w r stream) :
    bytes_writable sz stream.capacity stream.consumer_comitted_index stream.producer_index =
      2 ^ k - cursor_distance stream.consumer_comitted_index stream.producer_index := by
  obtain ⟨hk, hcap, hpi, hpc, hci, hcc, h1, h2, h3, h4⟩ := h
  rw [hcap]
  exact bytes_writable_eq hsz hk hcc hpi h3

/-- Advancing both consumer cursors by `n` readable bytes keeps the cursors ordered. -/
theorem cursors_ordered_consume {k w r : Nat} (stream stream' : streambuffer) (n : Nat)
    (h : cursors_ordered k w r stream)
    (hn : n ≤ cursor_distance stream.consumer_comitted_index stream.producer_comitted_index -
      cursor_distance stream.consumer_comitted_index stream.consumer_index)
    (hcap : stream'.capacity = stream.capacity)
    (hpi : stream'.producer_index = stream.producer_index)
    (hpc : stream'.producer_comitted_index = stream.producer_comitted_index)
    (hci : stream'.consumer_index = (stream.consumer_index + n) % 4294967296)
    (hcc : stream'.consumer_comitted_index =
      (stream.consumer_comitted_index + n) % 4294967296) :
    cursors_ordered k w r stream' := by
  obtain ⟨hk, gcap, gpi, gpc, gci, gcc, h1, h2, h3, h4⟩ := h
  unfold UINT_MOD at gpi gpc gci gcc
  have e1 := cursor_distance_add_both n gcc gci
  have e2 := cursor_distance_add_left n gcc gpc (by omega)
  have e3 := cursor_distance_add_left n gcc gpi (by omega)
  unfold cursors_ordered UINT_MOD
  rw [hcap, hpi, hpc, hci, hcc]
  refine ⟨hk, gcap, gpi, gpc, Nat.mod_lt _ (by norm_num), Nat.mod_lt _ (by norm_num), ?_, ?_,
    ?_, ?_⟩ <;> omega

theorem cursors_ordered_truncated {sz k w r : Nat} (hsz : 32 ≤ sz) (length : Nat)
    (stream : streambuffer) (h : cursors_ordered k w r stream) :
    cursors_ordered k w r
      (truncated stream
        (min (bytes_readable sz stream.capacity stream.consumer_index
          stream.producer_comitted_index) length)) := by
  have hr := cursors_ordered_readable hsz stream h
  exact cursors_ordered_consume stream _ _ h (by omega) rfl rfl rfl rfl rfl

/-- Advancing producer_index by `n` writable bytes reserves them. -/
theorem cursors_ordered_claim {sz k w r : Nat} (hsz : 32 ≤ sz) (stream stream' : streambuffer)
    (n : Nat) (h : cursors_ordered k w r stream)
    (hn : n ≤ bytes_writable sz stream.capacity stream.consumer_comitted_index
      stream.producer_index)
    (hcap : stream'.capacity = stream.capacity)
    (hpi : stream'.producer_index = (stream.producer_index + n) % 4294967296)
    (hpc : stream'.producer_comitted_index = stream.producer_comitted_index)
    (hci : stream'.consumer_index = stream.consumer_index)
    (hcc : stream'.consumer_comitted_index = stream.consumer_comitted_index) :
    cursors_ordered k (w + n) r stream' := by
  rw [cursors_ordered_writable hsz stream h] at hn
  obtain ⟨hk, gcap, gpi, gpc, gci, gcc, h1, h2, h3, h4⟩ := h
  unfold UINT_MOD at gpi gpc gci gcc
  have h5 := two_pow_le_of_lt_32 hk
  have e1 := cursor_distance_add_right n gcc gpi (by omega)
  unfold cursors_ordered UINT_MOD
  rw [hcap, hpi, hpc, hci, hcc]
  refine ⟨hk, gcap, Nat.mod_lt _ (by norm_num), gpc, gci, gcc, ?_, ?_, ?_, ?_⟩ <;> omega

/-- Advancing producer_committed over `n` reserved bytes commits them. -/
theorem cursors_ordered_commit {k w r : Nat} (stream stream' : streambuffer)
    (n : Nat) (h : cursors_ordered k (w + n) r stream)
    (hcap : stream'.capacity = stream.capacity)
    (hpi : stream'.producer_index = stream.producer_index)
    (hpc : stream'.producer_comitted_index =
      (stream.producer_comitted_index + n) % 4294967296)
    (hci : stream'.consumer_index = stream.consumer_index)
    (hcc : stream'.consumer_comitted_index = stream.consumer_comitted_index) :
    cursors_ordered k w r stream' := by
  obtain ⟨hk, gcap, gpi, gpc, gci, gcc, h1, h2, h3, h4⟩ := h
  unfold UINT_MOD at gpi gpc gci gcc
  have h5 := two_pow_le_of_lt_32 hk
  have e1 := cursor_distance_add_right n gcc gpc (by omega)
  unfold cursors_ordered UINT_MOD
  rw [hcap, hpi, hpc, hci, hcc]
  refine ⟨hk, gcap, gpi, Nat.mod_lt _ (by norm_num), gci, gcc, ?_, ?_, ?_, ?_⟩ <;> omega

/-- Advancing consumer_index by `n` readable bytes reserves them for the reader. -/
theorem cursors_ordered_read_claim {k w r : Nat} (stream stream' : streambuffer)
    (n : Nat) (h : cursors_ordered k w r stream)
    (hn : n ≤ cursor_distance stream.consumer_comitted_index stream.producer_comitted_index -
      cursor_distance stream.consumer_comitted_index stream.consumer_index)
    (hcap : stream'.capacity = stream.capacity)
    (hpi : stream'.producer_index = stream.producer_index)
    (hpc : stream'.producer_comitted_index = stream.producer_comitted_index)
    (hci : stream'.consumer_index = (stream.consumer_index + n) % 4294967296)
    (hcc : stream'.consumer_comitted_index = stream.consumer_comitted_index) :
    cursors_ordered k w (r + n) stream' := by
  obtain ⟨hk, gcap, gpi, gpc, gci, gcc, h1, h2, h3, h4⟩ := h
  unfold UINT_MOD at gpi gpc gci gcc
  have h5 := two_pow_le_of_lt_32 hk
  have e1 := cursor_distance_add_right n gcc gci (by omega)
  unfold cursors_ordered UINT_MOD
  rw [hcap, hpi, hpc, hci, hcc]
  refine ⟨hk, gcap, gpi, gpc, Nat.mod_lt _ (by norm_num), gcc, ?_, ?_, ?_, ?_⟩ <;> omega

/-- Advancing consumer_committed over `n` bytes reserved by the reader releases them. -/
theorem cursors_ordered_read_commit {k w r : Nat} (stream stream' : streambuffer)
    (n : Nat) (h : cursors_ordered k w (r + n) stream)
    (hcap : stream'.capacity = stream.capacity)
    (hpi : stream'.producer_index = stream.producer_index)
    (hpc : stream'.producer_comitted_index = stream.producer_comitted_index)
    (hci : stream'.consumer_index = stream.consumer_index)
    (hcc : stream'.consumer_comitted_index =
      (stream.consumer_comitted_index + n) % 4294967296) :
    cursors_ordered k w r stream' := by
  obtain ⟨hk, gcap, gpi, gpc, gci, gcc, h1, h2, h3, h4⟩ := h
  unfold UINT_MOD at gpi gpc gci gcc
  have e1 := cursor_distance_add_left n gcc gci (by omega)
  have e2 := cursor_distance_add_left n gcc gpc (by omega)
  have e3 := cursor_distance_add_left n gcc gpi (by omega)
  unfold cursors_ordered UINT_MOD
  rw [hcap, hpi, hpc, hci, hcc]
  refine ⟨hk, gcap, gpi, gpc, gci, Nat.mod_lt _ (by norm_num), ?_, ?_, ?_, ?_⟩ <;> omega

theorem cursors_ordered_mono {k w r w' r' : Nat} (stream : streambuffer)
    (h : cursors_ordered k w r stream) (hw : w' ≤ w) (hr : r' ≤ r) :
    cursors_ordered k w' r' stream := by
  obtain ⟨hk, gcap, gpi, gpc, gci, gcc, h1, h2, h3, h4⟩ := h
  exact ⟨hk, gcap, gpi, gpc, gci, gcc, h1, by omega, h3, by omega⟩

theorem cursors_ordered_stream_out {sz k w r : Nat} (hsz : 32 ≤ sz) (fuel : Nat)
    (stream : streambuffer) (buffer : List Nat) (length : Nat) (options : Options) (n : Nat)
    (stream' : streambuffer) (events : List Event) (h : cursors_ordered k w r stream)
    (hrun : streambuffer_stream_out sz fuel stream buffer length options =
      .returned n stream' events) :
    cursors_ordered k w r stream' := by
  rcases stream_out_loop_returned sz buffer length options (cursors_ordered k w r)
      (fun s hs => cursors_ordered_truncated hsz length s hs) fuel stream n stream' events h
      hrun with
    ⟨_, _, h0, _⟩ | ⟨_, _, _, before, b0, _, _, _, _, _, _, _, b8, b9⟩
  · exact h0
  · rw [b9]
    have hclaim := cursors_ordered_claim hsz before (stream_out_claimed sz before buffer length)
      length b0 b8 rfl rfl rfl rfl rfl
    exact cursors_ordered_commit (stream_out_claimed sz before buffer length) _ length hclaim
      rfl rfl rfl rfl rfl

theorem cursors_ordered_stream_in {sz k w r : Nat} (hsz : 32 ≤ sz)
    (stream : streambuffer) (buffer : List Nat) (length : Nat) (options : Options)
    (value : Nat × List Nat) (stream' : streambuffer) (events : List Event)
    (h : cursors_ordered k w r stream)
    (hrun : streambuffer_stream_in sz stream buffer length options =
      .returned value stream' events) :
    cursors_ordered k w r stream' := by
  rcases stream_in_returned sz stream buffer length options value stream' events hrun with
    ⟨_, h2, _⟩ | ⟨_, h2, h3, _⟩
  · rw [h2]
    exact h
  · rw [h3]
    have hr := cursors_ordered_readable hsz stream h
    exact cursors_ordered_consume stream _ value.1 h (by omega) rfl rfl rfl rfl rfl

/-- A packet whose length plus the header size wraps to 0 is never claimed: the loop of
`streambuffer_write_packet_start` does not return. -/
theorem write_packet_start_loop_zero (sz packet_len : Nat) (options : Options) :
    ∀ (fuel : Nat) (stream : streambuffer) (base_out state_out : Nat) (events : List Event),
      write_packet_start_loop sz packet_len 0 options fuel stream 0 base_out state_out
        events = .out_of_fuel := by
  intro fuel
  induction fuel with
  | zero => intro stream base_out state_out events; rfl
  | succ fuel ih =>
    intro stream base_out state_out events
    rw [write_packet_start_loop]
    simp only [beq_self_eq_true, if_true, Nat.min_zero, Nat.lt_irrefl, if_false]
    exact ih _ _ _ _

/-- A `streambuffer_write_packet_start` that returns has either claimed nothing and
changed nothing, or found the packet and its header writable and claimed them. -/
theorem write_packet_start_returned (sz fuel : Nat) (stream : streambuffer) (length : Nat)
    (options : Options) (base_out state_out : Nat) (value : Nat × Nat × Nat)
    (stream' : streambuffer) (events : List Event)
    (h : streambuffer_write_packet_start sz fuel stream length options base_out state_out =
      .returned value stream' events) :
    (value.1 = 0 ∧ stream' = stream) ∨
    (value.1 = size_add sz length (sizeof_size_t sz) ∧ value.1 ≠ 0 ∧
      size_add sz length (sizeof_size_t sz) ≤
        bytes_writable sz stream.capacity stream.consumer_comitted_index
          stream.producer_index ∧
      stream' = write_packet_claimed sz stream length
        (size_add sz length (sizeof_size_t sz))) := by
  unfold streambuffer_write_packet_start at h
  generalize size_add sz length (sizeof_size_t sz) = total at h ⊢
  cases fuel with
  | zero => simp [write_packet_start_loop] at h
  | succ fuel =>
    rw [write_packet_start_loop] at h
    simp only [beq_self_eq_true, if_true] at h
    split at h
    · split at h
      · cases h
        exact Or.inl ⟨rfl, rfl⟩
      · cases h
    · rename_i hfit
      have hmin : min (bytes_writable sz stream.capacity stream.consumer_comitted_index
          stream.producer_index) total = total := by omega
      rw [hmin] at h
      by_cases hz : total = 0
      · subst hz
        rw [write_packet_start_loop_zero] at h
        cases h
      · cases fuel with
        | zero => simp [write_packet_start_loop] at h
        | succ fuel =>
          rw [write_packet_start_loop_done _ _ _ _ _ _ _ _ _ _ hz] at h
          cases h
          exact Or.inr ⟨rfl, hz, by omega, rfl⟩

theorem cursors_ordered_write_packet_start {sz k r : Nat} (hsz : 32 ≤ sz) (fuel : Nat)
    (stream : streambuffer) (length : Nat) (options : Options) (base_out state_out : Nat)
    (value : Nat × Nat × Nat) (stream' : streambuffer) (events : List Event)
    (h : cursors_ordered k 0 r stream)
    (hrun : streambuffer_write_packet_start sz fuel stream length options base_out
      state_out = .returned value stream' events) :
    (value.1 = 0 ∧ cursors_ordered k 0 r stream') ∨
    (value.1 ≠ 0 ∧ cursors_ordered k (size_add sz length (sizeof_size_t sz)) r stream') := by
  rcases write_packet_start_returned sz fuel stream length options base_out state_out value
      stream' events hrun with ⟨h1, h2⟩ | ⟨_, h2, h3, h4⟩
  · exact Or.inl ⟨h1, by rw [h2]; exact h⟩
  · refine Or.inr ⟨h2, ?_⟩
    rw [h4]
    have := cursors_ordered_claim hsz stream
      (write_packet_claimed sz stream length (size_add sz length (sizeof_size_t sz)))
      (size_add sz length (sizeof_size_t sz)) h h3 rfl rfl rfl rfl rfl
    rwa [Nat.zero_add] at this

theorem cursors_ordered_write_packet_end {sz k r : Nat}
    (stream : streambuffer) (base length : Nat) (stream' : streambuffer)
    (events : List Event)
    (h : cursors_ordered k (size_add sz length (sizeof_size_t sz)) r stream)
    (hrun : streambuffer_write_packet_end sz stream base length =
      .returned () stream' events) :
    cursors_ordered k 0 r stream' := by
  unfold streambuffer_write_packet_end at hrun
  split at hrun
  · cases hrun
  · cases hrun
    rw [← Nat.zero_add (size_add sz length (sizeof_size_t sz))] at h
    exact cursors_ordered_commit stream _ _ h rfl rfl rfl rfl rfl

theorem cursors_ordered_read_packet_end {sz k w : Nat}
    (stream : streambuffer) (base length : Nat) (stream' : streambuffer)
    (events : List Event)
    (h : cursors_ordered k w (size_add sz length (sizeof_size_t sz)) stream)
    (hrun : streambuffer_read_packet_end sz stream base length =
      .returned () stream' events) :
    cursors_ordered k w 0 stream' := by
  unfold streambuffer_read_packet_end at hrun
  split at hrun
  · cases hrun
  · cases hrun
    rw [← Nat.zero_add (size_add sz length (sizeof_size_t sz))] at h
    exact cursors_ordered_read_commit stream _ _ h rfl rfl rfl rfl rfl

theorem sizeof_size_t_lt (sz : Nat) : sizeof_size_t sz < 2 ^ sz := by
  unfold sizeof_size_t
  have := @Nat.lt_two_pow sz
  omega

theorem size_add_size_sub {sz a b : Nat} (ha : a < 2 ^ sz) (hb : b < 2 ^ sz) :
    size_add sz (size_sub sz a b) b = a := by
  unfold size_sub size_add
  by_cases h : b ≤ a
  · rw [show a + 2 ^ sz - b = (a - b) + 2 ^ sz by omega, Nat.add_mod_right,
      Nat.mod_eq_of_lt (show a - b < 2 ^ sz by omega), Nat.sub_add_cancel h,
      Nat.mod_eq_of_lt ha]
  · rw [Nat.mod_eq_of_lt (show a + 2 ^ sz - b < 2 ^ sz by omega),
      show a + 2 ^ sz - b + b = a + 2 ^ sz by omega, Nat.add_mod_right, Nat.mod_eq_of_lt ha]

/-- A `streambuffer_read_packet_start` that returns leaves the cursors ordered, and when
it returns a non-zero length without PEEK, that length plus the header size lies
reserved between consumer_committed and consumer_index. -/
theorem cursors_ordered_read_packet_start_loop {sz k w r : Nat} (hsz : 32 ≤ sz)
    (options : Options) :
    ∀ (fuel : Nat) (stream : streambuffer) (base_out state_out : Nat)
      (value : Nat × Nat × Nat) (stream' : streambuffer) (events : List Event),
      cursors_ordered k w r stream →
      read_packet_start_loop sz options fuel stream 0 base_out state_out [] =
        .returned value stream' events →
      cursors_ordered k w r stream' ∧
      (options.PEEK = false → value.1 ≠ 0 →
        cursors_ordered k w (r + size_add sz value.1 (sizeof_size_t sz)) stream') := by
  intro fuel
  induction fuel with
  | zero =>
    intro stream base_out state_out value stream' events _ h
    simp [read_packet_start_loop] at h
  | succ fuel ih =>
    intro stream base_out state_out value stream' events hord h
    rw [read_packet_start_loop] at h
    simp only [beq_self_eq_true, if_true] at h
    have hread := cursors_ordered_readable hsz stream hord
    generalize hL : (if (bytes_readable sz stream.capacity stream.consumer_index
        stream.producer_comitted_index != 0) = true then
          size_add sz
            (size_t_of_bytes
              (streambuffer_read_packet_data sz stream (List.replicate (sizeof_size_t sz) 0)
                (sizeof_size_t sz) stream.consumer_index).1)
            (sizeof_size_t sz)
        else sizeof_size_t sz) = L at h
    have hLlt : L < 2 ^ sz := by
      rw [← hL]
      split
      · unfold size_add
        exact Nat.mod_lt _ (Nat.two_pow_pos sz)
      · exact sizeof_size_t_lt sz
    split at h
    · split at h
      · cases h
        exact ⟨hord, fun _ h0 => absurd rfl h0⟩
      · cases h
    · rename_i hfit
      have hmin : min (bytes_readable sz stream.capacity stream.consumer_index
          stream.producer_comitted_index) L = L := by omega
      rw [hmin] at h
      have hstep : cursors_ordered k w r
            (if (!options.PEEK) = true then
              { stream with consumer_index := (stream.consumer_index + L) % UINT_MOD }
            else stream) ∧
          (options.PEEK = false →
            cursors_ordered k w (r + L)
              (if (!options.PEEK) = true then
                { stream with consumer_index := (stream.consumer_index + L) % UINT_MOD }
              else stream)) := by
        cases hpeek : options.PEEK
        · have hc := cursors_ordered_read_claim stream
            { stream with consumer_index := (stream.consumer_index + L) % UINT_MOD } L hord
            (by omega) rfl rfl rfl rfl rfl
          exact ⟨cursors_ordered_mono _ hc (Nat.le_refl _) (by omega), fun _ => hc⟩
        · exact ⟨hord, fun hf => absurd hf (by simp)⟩
      by_cases hz : size_sub sz L (sizeof_size_t sz) = 0
      · rw [hz] at h
        exact ih _ _ _ _ _ _ hstep.1 h
      · cases fuel with
        | zero => simp [read_packet_start_loop] at h
        | succ fuel =>
          rw [read_packet_start_loop_done _ _ _ _ _ _ _ _ hz] at h
          cases h
          refine ⟨hstep.1, fun hp _ => ?_⟩
          rw [size_add_size_sub hLlt (sizeof_size_t_lt sz)]
          exact hstep.2 hp

/-! ## Sessions -/

/-- Every call of a session that is in sequence and returns preserves the session
invariant. -/
theorem invariant_run_operation {sz k : Nat} (hsz : 32 ≤ sz) (fuel : Nat) (s s' : Session)
    (operation : Operation) (h : Session.invariant sz k s)
    (hrun : run_operation sz fuel s operation = some s') : Session.invariant sz k s' := by
  unfold Session.invariant at h ⊢
  cases operation with
  | stream_out buffer options =>
    simp only [run_operation] at hrun
    split at hrun
    · rename_i n stream events hcall
      cases hrun
      exact cursors_ordered_stream_out hsz fuel s.stream buffer _ options n stream events h hcall
    · cases hrun
  | stream_in length options =>
    simp only [run_operation] at hrun
    split at hrun
    · rename_i value stream events hcall
      cases hrun
      exact cursors_ordered_stream_in hsz s.stream _ length options value stream events h hcall
    · cases hrun
  | write_packet_start length options =>
    simp only [run_operation] at hrun
    split at hrun
    · cases hrun
    · rename_i hclaim
      rw [hclaim] at h
      split at hrun
      · rename_i value stream events hcall
        rcases cursors_ordered_write_packet_start hsz fuel s.stream length options 0 0 value
            stream events h hcall with ⟨h1, h2⟩ | ⟨h1, h2⟩
        · rw [if_pos (by simp [h1])] at hrun
          cases hrun
          simp only [hclaim]
          exact h2
        · rw [if_neg (by simp [h1])] at hrun
          cases hrun
          exact h2
      · cases hrun
  | write_packet_data buffer =>
    simp only [run_operation] at hrun
    split at hrun
    · rename_i claim hclaim
      cases hrun
      rw [hclaim] at h
      exact h
    · cases hrun
  | write_packet_end =>
    simp only [run_operation] at hrun
    split at hrun
    · rename_i claim hclaim
      rw [hclaim] at h
      split at hrun
      · rename_i u stream events hcall
        cases hrun
        exact cursors_ordered_write_packet_end s.stream claim.1 claim.2.2 stream events h hcall
      · cases hrun
    · cases hrun
  | read_packet_start options =>
    simp only [run_operation] at hrun
    split at hrun
    · cases hrun
    · rename_i hclaim
      rw [hclaim] at h
      split at hrun
      · rename_i value stream events hcall
        have hloop := cursors_ordered_read_packet_start_loop hsz options fuel s.stream 0 0
          value stream events h hcall
        split at hrun
        · cases hrun
          simp only [hclaim]
          exact hloop.1
        · rename_i hcond
          cases hrun
          simp only [Bool.or_eq_true, beq_iff_eq, not_or, Bool.not_eq_true] at hcond
          have hres : cursors_ordered k
              (claimed_bytes sz (Option.map (fun claim => claim.2.2) s.write_claim))
              (0 + size_add sz value.1 (sizeof_size_t sz)) stream := hloop.2 hcond.2 hcond.1
          rw [Nat.zero_add] at hres
          exact hres
      · cases hrun
  | read_packet_end =>
    simp only [run_operation] at hrun
    split at hrun
    · rename_i claim hclaim
      rw [hclaim] at h
      split at hrun
      · rename_i u stream events hcall
        cases hrun
        exact cursors_ordered_read_packet_end s.stream claim.1 claim.2 stream events h hcall
      · cases hrun
    · cases hrun

theorem invariant_run_operations {sz k : Nat} (hsz : 32 ≤ sz) (fuel : Nat)
    (operations : List Operation) :
    ∀ s : Session, Session.invariant sz k s →
      Session.invariant sz k (run_operations sz fuel s operations) := by
  induction operations with
  | nil => intro s h; exact h
  | cons operation operations ih =>
    intro s h
    rw [run_operations]
    split
    · rename_i s' hrun
      exact ih s' (invariant_run_operation hsz fuel s s' operation h hrun)
    · exact h

theorem invariant_construct_session (sz k : Nat) (hk : k < 32) (memory : streambuffer)
    (options : Options) :
    Session.invariant sz k ⟨streambuffer_construct memory (2 ^ k) options, none, none⟩ := by
  unfold Session.invariant cursors_ordered
  refine ⟨hk, rfl, ?_, ?_, ?_, ?_, ?_, ?_, ?_, ?_⟩ <;>
    simp [streambuffer_construct, cursor_distance, claimed_bytes, UINT_MOD]

theorem cursor_invariant_of_session {sz k : Nat} (s : Session)
    (h : Session.invariant sz k s) : cursor_invariant s.stream := by
  obtain ⟨_, hcap, _, _, _, _, h1, h2, h3, _⟩ := h
  exact ⟨h1, by omega, by rw [hcap]; exact h3⟩

/-! ## Waits that return -/

/-- With no wait that returns the loop is the loop of a thread that is alone. -/
theorem stream_out_loop_woken_nil (sz : Nat) (buffer : List Nat) (length : Nat)
    (options : Options) :
    ∀ (fuel : Nat) (stream : streambuffer) (bytes_written : Nat) (events : List Event),
      stream_out_loop_woken sz buffer length options fuel [] stream bytes_written events =
        stream_out_loop sz buffer length options fuel stream bytes_written events := by
  intro fuel
  induction fuel with
  | zero => intro stream bytes_written events; rfl
  | succ fuel ih =>
    intro stream bytes_written events
    rw [stream_out_loop_woken, stream_out_loop]
    simp only [ih]
    rfl

theorem write_packet_start_loop_woken_nil (sz packet_len length : Nat) (options : Options) :
    ∀ (fuel : Nat) (stream : streambuffer) (bytes_allocated base_out state_out : Nat)
      (events : List Event),
      write_packet_start_loop_woken sz packet_len length options fuel [] stream
          bytes_allocated base_out state_out events =
        write_packet_start_loop sz packet_len length options fuel stream bytes_allocated
          base_out state_out events := by
  intro fuel
  induction fuel with
  | zero => intro stream bytes_allocated base_out state_out events; rfl
  | succ fuel ih =>
    intro stream bytes_allocated base_out state_out events
    rw [write_packet_start_loop_woken, write_packet_start_loop]
    simp only [ih]
    rfl

theorem stream_in_loop_woken_nil (sz : Nat) (stream : streambuffer) (buffer : List Nat)
    (length : Nat) (options : Options) :
    stream_in_loop_woken sz buffer length options [] stream [] =
      streambuffer_stream_in sz stream buffer length options := by
  rw [stream_in_loop_woken, streambuffer_stream_in]
  simp only [List.nil_append]
  rfl

theorem read_packet_start_loop_woken_nil (sz : Nat) (options : Options) :
    ∀ (fuel : Nat) (stream : streambuffer) (bytes_read base_out state_out : Nat)
      (events : List Event),
      read_packet_start_loop_woken sz options fuel [] stream bytes_read base_out state_out
          events =
        read_packet_start_loop sz options fuel stream bytes_read base_out state_out
          events := by
  intro fuel
  induction fuel with
  | zero => intro stream bytes_read base_out state_out events; rfl
  | succ fuel ih =>
    intro stream bytes_read base_out state_out events
    rw [read_packet_start_loop_woken, read_packet_start_loop]
    simp only [ih]
    rfl

/-! ## Reaching the wrap of the cursors -/

theorem write_loop_replicate (sz capacity m c v : Nat) (n : Nat) :
    ∀ (wi bw : Nat), bw + n ≤ m →
      (write_loop sz capacity (List.replicate m v) n (List.replicate c v) wi bw).1 =
        List.replicate c v := by
  induction n with
  | zero => intro wi bw _; rfl
  | succ n ih =>
    intro wi bw h
    have hv : (List.replicate m v).getD bw 0 = v := by
      rw [List.getD_eq_getElem?_getD, List.getElem?_replicate, if_pos (by omega)]
      rfl
    rw [write_loop, hv, List.set_replicate_self]
    exact ih _ _ (by omega)

/-- Writing 16 bytes into the drained buffer and reading them back moves all four
cursors on by 16, as long as they stay below the wrap. -/
theorem drained_round (sz fuel p : Nat) (hsz : 32 ≤ sz) (hp : p + 16 < 4294967296) :
    run_operation sz (fuel + 2) ⟨drained p, none, none⟩
        (.stream_out (List.replicate 16 238) Options.none) =
      some ⟨{ drained p with producer_index := p + 16, producer_comitted_index := p + 16 },
        none, none⟩ ∧
    run_operation sz (fuel + 2)
        ⟨{ drained p with producer_index := p + 16, producer_comitted_index := p + 16 },
          none, none⟩ (.stream_in 16 Options.none) =
      some ⟨drained (p + 16), none, none⟩ := by
  have h3 := uint_mod_le_two_pow hsz
  constructor
  · have hw : bytes_writable sz (drained p).capacity (drained p).consumer_comitted_index
        (drained p).producer_index = 16 := by
      have := @bytes_writable_eq sz 4 p p hsz (by decide)
        (by omega) (by omega) (by norm_num)
      simp only [drained]
      rw [show (16 : Nat) = 2 ^ 4 by norm_num, this]
      norm_num
    have hrun := stream_out_fits sz fuel (drained p) (List.replicate 16 238) 16 Options.none
      (by decide) (by rw [hw])
      (by
        apply and_decide_lt_eq_false
        rw [write_loop_index _ _ _ _ _ _ _ (show (drained p).producer_index < 4294967296 by
          simp only [drained]; omega)]
        simp only [drained]
        rw [size_sub_cursor hsz _ _ (by omega) (by omega) (Or.inr (by omega))])
    simp only [run_operation, List.length_replicate, hrun]
    simp only [stream_out_commit, drained, UINT_MOD, write_loop_replicate _ _ _ _ _ 16 _ 0
      (Nat.le_refl _), Nat.mod_eq_of_lt hp]
  · have hr : bytes_readable sz 16 p (p + 16) = 16 := by
      rw [bytes_readable_of_le hsz (by omega) (by omega)]
      omega
    have hrun := stream_in_ok sz
      { drained p with producer_index := p + 16, producer_comitted_index := p + 16 }
      (List.replicate 16 0) 16 Options.none 16 (by decide)
      (by simp only [drained]; rw [hr]; rfl) (by decide) (by simp [drained, Options.none])
    simp only [run_operation, hrun]
    simp only [stream_in_commit, drained, UINT_MOD, Nat.mod_eq_of_lt hp]

theorem drained_rounds (sz fuel : Nat) (hsz : 32 ≤ sz) (n : Nat) :
    ∀ p, p + 16 * n < 4294967296 →
      run_operations sz (fuel + 2) ⟨drained p, none, none⟩
          (List.replicate n
            [.stream_out (List.replicate 16 238) Options.none,
              .stream_in 16 Options.none]).flatten =
        ⟨drained (p + 16 * n), none, none⟩ := by
  induction n with
  | zero => intro p _; rfl
  | succ n ih =>
    intro p hp
    obtain ⟨h1, h2⟩ := drained_round sz fuel p hsz (by omega)
    rw [List.replicate_succ, List.flatten_cons]
    simp only [List.cons_append, List.nil_append]
    rw [run_operations, h1]
    simp only []
    rw [run_operations, h2]
    simp only []
    rw [ih (p + 16) (by omega), show p + 16 + 16 * n = p + 16 * (n + 1) by omega]

/-- The drained buffer 5 bytes below the wrap of the cursors is what the calls of
`drain_operations` make of a freshly constructed buffer. -/
theorem drained_reachable (sz fuel : Nat) (h : sz = 32 ∨ sz = 64) :
    run_operations sz (fuel + 2)
        ⟨streambuffer_construct ⟨0, Options.none, 0, 0, 0, 0, 0, 0, List.replicate 16 238⟩ 16
          { Options.none with MULTIPLE_WRITERS := true }, none, none⟩ drain_operations =
      ⟨drained 4294967291, none, none⟩ := by
  have hsz : 32 ≤ sz := by omega
  have h1 : run_operation sz (fuel + 2)
      ⟨streambuffer_construct ⟨0, Options.none, 0, 0, 0, 0, 0, 0, List.replicate 16 238⟩ 16
        { Options.none with MULTIPLE_WRITERS := true }, none, none⟩
      (.stream_out (List.replicate 11 238) Options.none) =
      some ⟨{ drained 0 with producer_index := 11, producer_comitted_index := 11 },
        none, none⟩ := by
    rcases h with h | h <;> subst h <;> rfl
  have h2 : run_operation sz (fuel + 2)
      ⟨{ drained 0 with producer_index := 11, producer_comitted_index := 11 }, none, none⟩
      (.stream_in 11 Options.none) = some ⟨drained 11, none, none⟩ := by
    rcases h with h | h <;> subst h <;> rfl
  unfold drain_operations
  rw [run_operations, h1]
  simp only []
  rw [run_operations, h2]
  simp only []
  exact drained_rounds sz fuel hsz 268435455 11 (by norm_num)

/-! ## Concurrent producers -/

/-- A thread that is alone and takes all the steps of the model leaves the stream that
`streambuffer_stream_out` returns. -/
theorem machine_run_single_producer :
    (machine_run 32
        ⟨⟨16, Options.none, 4294967291, 4294967291, 4294967291, 4294967291, 0, 3,
            List.replicate 16 238⟩,
          [Producer.start [1, 2, 3, 4, 5, 6, 7, 8, 9, 10] 10 Options.none], []⟩
        (List.replicate 15 0)).producers =
      [⟨[1, 2, 3, 4, 5, 6, 7, 8, 9, 10], 10, Options.none, .done, 10, 5, 0, 0, 10⟩] ∧
    streambuffer_stream_out 32 2
        ⟨16, Options.none, 4294967291, 4294967291, 4294967291, 4294967291, 0, 3,
          List.replicate 16 238⟩ [1, 2, 3, 4, 5, 6, 7, 8, 9, 10] 10 Options.none =
      .returned 10
        (machine_run 32
          ⟨⟨16, Options.none, 4294967291, 4294967291, 4294967291, 4294967291, 0, 3,
              List.replicate 16 238⟩,
            [Producer.start [1, 2, 3, 4, 5, 6, 7, 8, 9, 10] 10 Options.none], []⟩
          (List.replicate 15 0)).stream
        (machine_run 32
          ⟨⟨16, Options.none, 4294967291, 4294967291, 4294967291, 4294967291, 0, 3,
              List.replicate 16 238⟩,
            [Producer.start [1, 2, 3, 4, 5, 6, 7, 8, 9, 10] 10 Options.none], []⟩
          (List.replicate 15 0)).events := by
  decide

/-! ## Waits that return and the thread that is alone -/

/-- `streambuffer_try_truncate` has no futex wait and no loop of its own: it returns or it
busy-waits. -/
theorem try_truncate_cases (sz : Nat) (stream : streambuffer) (options : Options)
    (length : Nat) :
    (∃ stream', streambuffer_try_truncate sz stream options length =
      .returned () stream' []) ∨
    (∃ stream', streambuffer_try_truncate sz stream options length = .spinning stream' []) := by
  unfold streambuffer_try_truncate
  simp only []
  split
  · exact Or.inl ⟨_, rfl⟩
  · split
    · exact Or.inr ⟨_, rfl⟩
    · exact Or.inl ⟨_, rfl⟩

/-- The loop of `streambuffer_stream_out` with waits that return, told by the loop of the
thread that is alone.  When the latter ends in a wait, the former goes on, after `used`
passes, from the head of the loop on the stream the wake-up leaves, with the same count
of bytes written; when the latter ends otherwise, so does the former, whatever the
wake-ups. -/
theorem stream_out_loop_woken_link (sz : Nat) (buffer : List Nat) (length : Nat)
    (options : Options) :
    ∀ (fuel : Nat) (stream : streambuffer) (bytes_written : Nat) (events : List Event),
      (∀ stream' events',
        stream_out_loop sz buffer length options fuel stream bytes_written events =
          .suspended stream' events' →
        ∃ used, 1 ≤ used ∧ used ≤ fuel ∧
          ∀ wakes,
            stream_out_loop_woken sz buffer length options fuel wakes stream bytes_written
                events =
              match wakes with
              | [] => .suspended stream' events'
              | wake :: wakes =>
                stream_out_loop_woken sz buffer length options (fuel - used) wakes
                  (wake stream') bytes_written events') ∧
      ((∀ stream' events',
          stream_out_loop sz buffer length options fuel stream bytes_written events ≠
            .suspended stream' events') →
        ∀ wakes,
          stream_out_loop_woken sz buffer length options fuel wakes stream bytes_written
              events =
            stream_out_loop sz buffer length options fuel stream bytes_written events) := by
  intro fuel
  induction fuel with
  | zero =>
    intro stream bytes_written events
    refine ⟨fun s' ev' h => ?_, fun _ wakes => rfl⟩
    simp [stream_out_loop] at h
  | succ fuel ih =>
    intro stream bytes_written events
    rw [stream_out_loop]
    by_cases hlen : bytes_written < length
    · simp only [if_pos hlen]
      by_cases hcan : STREAMBUFFER_CAN_STREAM stream options
          (min (bytes_writable sz stream.capacity stream.consumer_comitted_index
            stream.producer_index) (length - bytes_written)) (length - bytes_written) = true
      · simp only [hcan, Bool.not_true, Bool.false_eq_true, if_false]
        by_cases hshort : min (bytes_writable sz stream.capacity
            stream.consumer_comitted_index stream.producer_index) (length - bytes_written) <
            length - bytes_written
        · simp only [if_pos hshort]
          have hw : ∀ wakes, stream_out_loop_woken sz buffer length options (fuel + 1) wakes
              stream bytes_written events =
              match streambuffer_try_truncate sz stream options (length - bytes_written) with
              | .returned _ stream _ =>
                stream_out_loop_woken sz buffer length options fuel wakes stream
                  bytes_written events
              | .suspended stream _ => .suspended stream events
              | .spinning stream _ => .spinning stream events
              | .out_of_fuel => .out_of_fuel := by
            intro wakes
            rw [stream_out_loop_woken]
            simp only [if_pos hlen, hcan, Bool.not_true, Bool.false_eq_true, if_false,
              if_pos hshort]
          rcases try_truncate_cases sz stream options (length - bytes_written) with
            ⟨s2, h2⟩ | ⟨s2, h2⟩
          · rw [h2]
            simp only [h2] at hw
            obtain ⟨ih1, ih2⟩ := ih s2 bytes_written events
            constructor
            · intro s' ev' h
              obtain ⟨used, hu1, hu2, hu3⟩ := ih1 s' ev' h
              refine ⟨used + 1, by omega, by omega, fun wakes => ?_⟩
              rw [hw, hu3, show fuel + 1 - (used + 1) = fuel - used by omega]
            · intro h wakes
              rw [hw]
              exact ih2 h wakes
          · rw [h2]
            simp only [h2] at hw
            exact ⟨fun s' ev' h => (by cases h), fun _ wakes => hw wakes⟩
        · simp only [if_neg hshort]
          have hmin : min (bytes_writable sz stream.capacity stream.consumer_comitted_index
              stream.producer_index) (length - bytes_written) = length - bytes_written := by
            omega
          have hcan2 : STREAMBUFFER_CAN_STREAM stream options (length - bytes_written)
              (length - bytes_written) = true := by
            rw [hmin] at hcan
            exact hcan
          have hw : ∀ wakes, stream_out_loop_woken sz buffer length options (fuel + 1) wakes
              stream bytes_written events =
              stream_out_loop sz buffer length options (fuel + 1) stream bytes_written
                events := by
            intro wakes
            rw [stream_out_loop_woken, stream_out_loop]
            simp only [if_pos hlen, hmin, hcan2, Bool.not_true, Bool.false_eq_true, if_false,
              Nat.lt_irrefl, write_loop_count,
              show bytes_written + (length - bytes_written) = length by omega]
            split
            · rfl
            · cases fuel with
              | zero => rfl
              | succ fuel =>
                rw [stream_out_loop_done]
                rw [stream_out_loop_woken]
                simp only [Nat.lt_irrefl, if_false]
          have hns : ∀ s' ev', stream_out_loop sz buffer length options (fuel + 1) stream
              bytes_written events ≠ .suspended s' ev' := by
            intro s' ev'
            rw [stream_out_loop]
            simp only [if_pos hlen, hmin, hcan2, Bool.not_true, Bool.false_eq_true, if_false,
              Nat.lt_irrefl, write_loop_count,
              show bytes_written + (length - bytes_written) = length by omega]
            split
            · intro h; cases h
            · cases fuel with
              | zero => intro h; simp [stream_out_loop] at h
              | succ fuel =>
                rw [stream_out_loop_done]
                intro h; cases h
          rw [stream_out_loop] at hw hns
          simp only [if_pos hlen, hcan, Bool.not_true, Bool.false_eq_true, if_false,
            if_neg hshort] at hw hns
          exact ⟨fun s' ev' h => absurd h (hns s' ev'), fun _ wakes => hw wakes⟩
      · have hcan' : STREAMBUFFER_CAN_STREAM stream options
            (min (bytes_writable sz stream.capacity stream.consumer_comitted_index
              stream.producer_index) (length - bytes_written)) (length - bytes_written) =
            false := by
          simpa using hcan
        simp only [hcan', Bool.not_false, if_true]
        by_cases hblock : (!STREAMBUFFER_CAN_BLOCK options) = true
        · simp only [if_pos hblock]
          refine ⟨fun s' ev' h => (by cases h), fun _ wakes => ?_⟩
          rw [stream_out_loop_woken]
          simp only [if_pos hlen, hcan', Bool.not_false, if_true, if_pos hblock]
        · simp only [if_neg hblock]
          constructor
          · intro s' ev' h
            cases h
            refine ⟨1, Nat.le_refl _, by omega, fun wakes => ?_⟩
            rw [stream_out_loop_woken]
            simp only [if_pos hlen, hcan', Bool.not_false, if_true, if_neg hblock]
            cases wakes with
            | nil => simp [STREAMBUFFER_FUTEX_FLAGS]
            | cons wake wakes => simp [STREAMBUFFER_FUTEX_FLAGS]
          · intro h
            exact absurd rfl (h _ _)
    · simp only [if_neg hlen]
      refine ⟨fun s' ev' h => (by cases h), fun _ wakes => ?_⟩
      rw [stream_out_loop_woken]
      simp only [if_neg hlen]

/-- Once the claim is made the loop of `streambuffer_write_packet_start` makes no futex
wait. -/
theorem write_packet_start_loop_claimed (sz packet_len length : Nat) (options : Options)
    (fuel : Nat) (stream : streambuffer) (base_out state_out : Nat) (events : List Event)
    (stream' : streambuffer) (events' : List Event) :
    write_packet_start_loop sz packet_len length options fuel stream length base_out
      state_out events ≠ .suspended stream' events' := by
  by_cases hz : length = 0
  · subst hz
    rw [write_packet_start_loop_zero]
    intro h; cases h
  · cases fuel with
    | zero => intro h; simp [write_packet_start_loop] at h
    | succ fuel =>
      rw [write_packet_start_loop_done _ _ _ _ _ _ _ _ _ _ hz]
      intro h; cases h

/-- The loop of `streambuffer_write_packet_start` with waits that return, told by the
loop of the thread that is alone. -/
theorem write_packet_start_loop_woken_link (sz packet_len length : Nat) (options : Options) :
    ∀ (fuel : Nat) (stream : streambuffer) (bytes_allocated base_out state_out : Nat)
      (events : List Event),
      (∀ stream' events',
        write_packet_start_loop sz packet_len length options fuel stream bytes_allocated
            base_out state_out events = .suspended stream' events' →
        ∃ used, 1 ≤ used ∧ used ≤ fuel ∧
          ∀ wakes,
            write_packet_start_loop_woken sz packet_len length options fuel wakes stream
                bytes_allocated base_out state_out events =
              match wakes with
              | [] => .suspended stream' events'
              | wake :: wakes =>
                write_packet_start_loop_woken sz packet_len length options (fuel - used)
                  wakes (wake stream') bytes_allocated base_out state_out events') ∧
      ((∀ stream' events',
          write_packet_start_loop sz packet_len length options fuel stream bytes_allocated
            base_out state_out events ≠ .suspended stream' events') →
        ∀ wakes,
          write_packet_start_loop_woken sz packet_len length options fuel wakes stream
              bytes_allocated base_out state_out events =
            write_packet_start_loop sz packet_len length options fuel stream bytes_allocated
              base_out state_out events) := by
  intro fuel
  induction fuel with
  | zero =>
    intro stream bytes_allocated base_out state_out events
    refine ⟨fun s' ev' h => ?_, fun _ wakes => rfl⟩
    simp [write_packet_start_loop] at h
  | succ fuel ih =>
    intro stream bytes_allocated base_out state_out events
    by_cases hz : (bytes_allocated == 0) = true
    · by_cases hshort : min (bytes_writable sz stream.capacity
          stream.consumer_comitted_index stream.producer_index) length < length
      · by_cases hblock : (!STREAMBUFFER_CAN_BLOCK options) = true
        · have hl : write_packet_start_loop sz packet_len length options (fuel + 1) stream
              bytes_allocated base_out state_out events =
              .returned (bytes_allocated, base_out, state_out) stream events := by
            rw [write_packet_start_loop]
            simp only [hz, if_true, if_pos hshort, if_pos hblock]
          rw [hl]
          refine ⟨fun s' ev' h => (by cases h), fun _ wakes => ?_⟩
          rw [write_packet_start_loop_woken]
          simp only [hz, if_true, if_pos hshort, if_pos hblock]
        · have hl : write_packet_start_loop sz packet_len length options (fuel + 1) stream
              bytes_allocated base_out state_out events =
              .suspended
                { stream with producer_count := (stream.producer_count + 1) % UINT_MOD }
                (events ++ [.Syscall_FutexWait .consumer_comitted_index
                  stream.consumer_comitted_index (STREAMBUFFER_FUTEX_FLAGS stream)]) := by
            rw [write_packet_start_loop]
            simp only [hz, if_true, if_pos hshort, if_neg hblock]
          rw [hl]
          constructor
          · intro s' ev' h
            cases h
            refine ⟨1, Nat.le_refl _, by omega, fun wakes => ?_⟩
            rw [write_packet_start_loop_woken]
            simp only [hz, if_true, if_pos hshort, if_neg hblock]
            cases wakes with
            | nil => simp [STREAMBUFFER_FUTEX_FLAGS]
            | cons wake wakes => simp [STREAMBUFFER_FUTEX_FLAGS]
          · intro h
            exact absurd rfl (h _ _)
      · have hmin : min (bytes_writable sz stream.capacity stream.consumer_comitted_index
            stream.producer_index) length = length := by omega
        have hl : write_packet_start_loop sz packet_len length options (fuel + 1) stream
            bytes_allocated base_out state_out events =
            write_packet_start_loop sz packet_len length options fuel
              (streambuffer_write_packet_data sz
                { stream with
                  producer_index := (stream.producer_index + length) % UINT_MOD }
                (size_t_bytes sz packet_len) (sizeof_size_t sz) stream.producer_index).1
              length
              (streambuffer_write_packet_data sz
                { stream with
                  producer_index := (stream.producer_index + length) % UINT_MOD }
                (size_t_bytes sz packet_len) (sizeof_size_t sz) stream.producer_index).2
              (streambuffer_write_packet_data sz
                { stream with
                  producer_index := (stream.producer_index + length) % UINT_MOD }
                (size_t_bytes sz packet_len) (sizeof_size_t sz) stream.producer_index).2
              events := by
          rw [write_packet_start_loop]
          simp only [hz, if_true, hmin, Nat.lt_irrefl, if_false]
        have hw : ∀ wakes, write_packet_start_loop_woken sz packet_len length options
            (fuel + 1) wakes stream bytes_allocated base_out state_out events =
            write_packet_start_loop_woken sz packet_len length options fuel wakes
              (streambuffer_write_packet_data sz
                { stream with
                  producer_index := (stream.producer_index + length) % UINT_MOD }
                (size_t_bytes sz packet_len) (sizeof_size_t sz) stream.producer_index).1
              length
              (streambuffer_write_packet_data sz
                { stream with
                  producer_index := (stream.producer_index + length) % UINT_MOD }
                (size_t_bytes sz packet_len) (sizeof_size_t sz) stream.producer_index).2
              (streambuffer_write_packet_data sz
                { stream with
                  producer_index := (stream.producer_index + length) % UINT_MOD }
                (size_t_bytes sz packet_len) (sizeof_size_t sz) stream.producer_index).2
              events := by
          intro wakes
          rw [write_packet_start_loop_woken]
          simp only [hz, if_true, hmin, Nat.lt_irrefl, if_false]
        rw [hl]
        refine ⟨fun s' ev' h =>
          absurd h (write_packet_start_loop_claimed sz packet_len length options fuel _ _ _ _
            s' ev'), fun h wakes => ?_⟩
        rw [hw]
        exact (ih _ _ _ _ _).2 h wakes
    · have hl : write_packet_start_loop sz packet_len length options (fuel + 1) stream
          bytes_allocated base_out state_out events =
          .returned (bytes_allocated, base_out, state_out) stream events := by
        rw [write_packet_start_loop]
        simp only [hz, Bool.false_eq_true, if_false]
      rw [hl]
      refine ⟨fun s' ev' h => (by cases h), fun _ wakes => ?_⟩
      rw [write_packet_start_loop_woken]
      simp only [hz, Bool.false_eq_true, if_false]

/-- The loop of `streambuffer_read_packet_start` with waits that return, told by the loop
of the thread that is alone.  A wait is only reached with `bytes_read` at 0; the
out-parameters may have been set by passes over packets of payload length 0. -/
theorem read_packet_start_loop_woken_link (sz : Nat) (options : Options) :
    ∀ (fuel : Nat) (stream : streambuffer) (bytes_read base_out state_out : Nat)
      (events : List Event),
      (∀ stream' events',
        read_packet_start_loop sz options fuel stream bytes_read base_out state_out events =
          .suspended stream' events' →
        ∃ used base_out' state_out', 1 ≤ used ∧ used ≤ fuel ∧
          ∀ wakes,
            read_packet_start_loop_woken sz options fuel wakes stream bytes_read base_out
                state_out events =
              match wakes with
              | [] => .suspended stream' events'
              | wake :: wakes =>
                read_packet_start_loop_woken sz options (fuel - used) wakes (wake stream') 0
                  base_out' state_out' events') ∧
      ((∀ stream' events',
          read_packet_start_loop sz options fuel stream bytes_read base_out state_out
            events ≠ .suspended stream' events') →
        ∀ wakes,
          read_packet_start_loop_woken sz options fuel wakes stream bytes_read base_out
              state_out events =
            read_packet_start_loop sz options fuel stream bytes_read base_out state_out
              events) := by
  intro fuel
  induction fuel with
  | zero =>
    intro stream bytes_read base_out state_out events
    refine ⟨fun s' ev' h => ?_, fun _ wakes => rfl⟩
    simp [read_packet_start_loop] at h
  | succ fuel ih =>
    intro stream bytes_read base_out state_out events
    by_cases hz : (bytes_read == 0) = true
    · have hl := read_packet_start_loop.eq_2 sz options stream bytes_read base_out
        state_out events fuel
      have hw := fun wakes => read_packet_start_loop_woken.eq_2 sz options wakes stream
        bytes_read base_out state_out events fuel
      simp only [Nat.succ_eq_add_one, hz, if_true] at hl hw
      generalize hL : (if (bytes_readable sz stream.capacity stream.consumer_index
          stream.producer_comitted_index != 0) = true then
            size_add sz
              (size_t_of_bytes
                (streambuffer_read_packet_data sz stream
                  (List.replicate (sizeof_size_t sz) 0) (sizeof_size_t sz)
                  stream.consumer_index).1)
              (sizeof_size_t sz)
          else sizeof_size_t sz) = L at hl hw
      by_cases hshort : min (bytes_readable sz stream.capacity stream.consumer_index
          stream.producer_comitted_index) L < L
      · simp only [if_pos hshort] at hl hw
        by_cases hblock : (!STREAMBUFFER_CAN_BLOCK options) = true
        · simp only [if_pos hblock] at hl hw
          rw [hl]
          exact ⟨fun s' ev' h => (by cases h), fun _ wakes => hw wakes⟩
        · simp only [if_neg hblock] at hl hw
          rw [hl]
          constructor
          · intro s' ev' h
            cases h
            refine ⟨1, base_out, state_out, Nat.le_refl _, by omega, fun wakes => ?_⟩
            rw [hw]
            have hb : bytes_read = 0 := by simpa using hz
            cases wakes with
            | nil => simp [STREAMBUFFER_FUTEX_FLAGS]
            | cons wake wakes => simp [STREAMBUFFER_FUTEX_FLAGS, hb]
          · intro h
            exact absurd rfl (h _ _)
      · simp only [if_neg hshort] at hl hw
        rw [hl]
        obtain ⟨ih1, ih2⟩ := ih
          (if (!options.PEEK) = true then
            { stream with
              consumer_index :=
                (stream.consumer_index +
                  min (bytes_readable sz stream.capacity stream.consumer_index
                    stream.producer_comitted_index) L) % UINT_MOD }
          else stream)
          (size_sub sz
            (min (bytes_readable sz stream.capacity stream.consumer_index
              stream.producer_comitted_index) L) (sizeof_size_t sz))
          ((stream.consumer_index + sizeof_size_t sz) % UINT_MOD)
          ((stream.consumer_index + sizeof_size_t sz) % UINT_MOD) events
        constructor
        · intro s' ev' h
          obtain ⟨used, b', c', hu1, hu2, hu3⟩ := ih1 s' ev' h
          refine ⟨used + 1, b', c', by omega, by omega, fun wakes => ?_⟩
          rw [hw, hu3, show fuel + 1 - (used + 1) = fuel - used by omega]
        · intro h wakes
          rw [hw]
          exact ih2 h wakes
    · have hl := read_packet_start_loop.eq_2 sz options stream bytes_read base_out
        state_out events fuel
      have hw := fun wakes => read_packet_start_loop_woken.eq_2 sz options wakes stream
        bytes_read base_out state_out events fuel
      simp only [Nat.succ_eq_add_one, hz, Bool.false_eq_true, if_false] at hl hw
      rw [hl]
      exact ⟨fun s' ev' h => (by cases h), fun _ wakes => hw wakes⟩

/-- The loop of `streambuffer_stream_in` with waits that return, told by the single pass
of the thread that is alone: when the pass ends in a wait, the loop goes on from its head
on the stream the wake-up leaves; otherwise it ends as the pass does. -/
theorem stream_in_loop_woken_link (sz : Nat) (stream : streambuffer) (buffer : List Nat)
    (length : Nat) (options : Options) :
    (∀ stream' events',
      streambuffer_stream_in sz stream buffer length options = .suspended stream' events' →
      ∀ wakes events,
        stream_in_loop_woken sz buffer length options wakes stream events =
          match wakes with
          | [] => .suspended stream' (events ++ events')
          | wake :: wakes =>
            stream_in_loop_woken sz buffer length options wakes (wake stream')
              (events ++ events')) ∧
    (∀ value stream' events',
      streambuffer_stream_in sz stream buffer length options =
        .returned value stream' events' →
      ∀ wakes events,
        stream_in_loop_woken sz buffer length options wakes stream events =
          .returned value stream' (events ++ events')) ∧
    (∀ stream' events',
      streambuffer_stream_in sz stream buffer length options = .spinning stream' events' →
      ∀ wakes events,
        stream_in_loop_woken sz buffer length options wakes stream events =
          .spinning stream' (events ++ events')) := by
  unfold streambuffer_stream_in
  by_cases hlen : 0 < length
  · simp only [if_pos hlen, Nat.sub_zero]
    by_cases hcan : STREAMBUFFER_CAN_READ options
        (min (bytes_readable sz stream.capacity stream.consumer_index
          stream.producer_comitted_index) length) length = true
    · simp only [hcan, Bool.not_true, Bool.false_eq_true, if_false]
      split
      · rename_i hspin
        refine ⟨fun s' ev' h => (by cases h), fun v s' ev' h => (by cases h),
          fun s' ev' h wakes events => ?_⟩
        cases h
        rw [stream_in_loop_woken]
        simp only [if_pos hlen, Nat.sub_zero, hcan, Bool.not_true, Bool.false_eq_true,
          if_false, if_pos hspin, List.append_nil]
      · rename_i hspin
        refine ⟨fun s' ev' h => (by cases h), fun v s' ev' h wakes events => ?_,
          fun s' ev' h => (by cases h)⟩
        cases h
        rw [stream_in_loop_woken]
        simp only [if_pos hlen, Nat.sub_zero, hcan, Bool.not_true, Bool.false_eq_true,
          if_false, if_neg hspin]
        split <;> simp
    · have hcan' : STREAMBUFFER_CAN_READ options
          (min (bytes_readable sz stream.capacity stream.consumer_index
            stream.producer_comitted_index) length) length = false := by
        simpa using hcan
      simp only [hcan', Bool.not_false, if_true]
      by_cases hblock : (!STREAMBUFFER_CAN_BLOCK options) = true
      · simp only [if_pos hblock]
        refine ⟨fun s' ev' h => (by cases h), fun v s' ev' h wakes events => ?_,
          fun s' ev' h => (by cases h)⟩
        cases h
        rw [stream_in_loop_woken]
        simp only [if_pos hlen, Nat.sub_zero, hcan', Bool.not_false, if_true, if_pos hblock,
          List.append_nil]
      · simp only [if_neg hblock]
        refine ⟨fun s' ev' h wakes events => ?_, fun v s' ev' h => (by cases h),
          fun s' ev' h => (by cases h)⟩
        cases h
        rw [stream_in_loop_woken]
        simp only [if_pos hlen, Nat.sub_zero, hcan', Bool.not_false, if_true, if_neg hblock]
        cases wakes with
        | nil => simp [STREAMBUFFER_FUTEX_FLAGS]
        | cons wake wakes => simp [STREAMBUFFER_FUTEX_FLAGS]
  · simp only [if_neg hlen]
    refine ⟨fun s' ev' h => (by cases h), fun v s' ev' h wakes events => ?_,
      fun s' ev' h => (by cases h)⟩
    cases h
    rw [stream_in_loop_woken]
    simp only [if_neg hlen, List.append_nil]

/-- A pass of one of the four loops, made without NO_BLOCK, in which the claim check
fails: the thread that is alone ends suspended with only the waiter counter of its side
incremented and one `Syscall_FutexWait` on the opposite committed cursor; the thread
whose wait returns goes on with the next pass on the stream the wake-up leaves. -/
theorem failed_pass_waits (sz fuel : Nat) (options : Options)
    (wake : streambuffer → streambuffer) (wakes : List (streambuffer → streambuffer))
    (hblock : options.NO_BLOCK = false) :
    (∀ (stream : streambuffer) (buffer : List Nat) (length bytes_written : Nat)
      (events : List Event), bytes_written < length →
      STREAMBUFFER_CAN_STREAM stream options
        (min (bytes_writable sz stream.capacity stream.consumer_comitted_index
          stream.producer_index) (length - bytes_written)) (length - bytes_written) = false →
      stream_out_loop sz buffer length options (fuel + 1) stream bytes_written events =
        .suspended { stream with producer_count := (stream.producer_count + 1) % UINT_MOD }
          (events ++ [.Syscall_FutexWait .consumer_comitted_index
            stream.consumer_comitted_index (STREAMBUFFER_FUTEX_FLAGS stream)]) ∧
      stream_out_loop_woken sz buffer length options (fuel + 1) (wake :: wakes) stream
          bytes_written events =
        stream_out_loop_woken sz buffer length options fuel wakes
          (wake { stream with producer_count := (stream.producer_count + 1) % UINT_MOD })
          bytes_written
          (events ++ [.Syscall_FutexWait .consumer_comitted_index
            stream.consumer_comitted_index (STREAMBUFFER_FUTEX_FLAGS stream)])) ∧
    (∀ (stream : streambuffer) (packet_len length base_out state_out : Nat)
      (events : List Event),
      bytes_writable sz stream.capacity stream.consumer_comitted_index
        stream.producer_index < length →
      write_packet_start_loop sz packet_len length options (fuel + 1) stream 0 base_out
          state_out events =
        .suspended { stream with producer_count := (stream.producer_count + 1) % UINT_MOD }
          (events ++ [.Syscall_FutexWait .consumer_comitted_index
            stream.consumer_comitted_index (STREAMBUFFER_FUTEX_FLAGS stream)]) ∧
      write_packet_start_loop_woken sz packet_len length options (fuel + 1) (wake :: wakes)
          stream 0 base_out state_out events =
        write_packet_start_loop_woken sz packet_len length options fuel wakes
          (wake { stream with producer_count := (stream.producer_count + 1) % UINT_MOD })
          0 base_out state_out
          (events ++ [.Syscall_FutexWait .consumer_comitted_index
            stream.consumer_comitted_index (STREAMBUFFER_FUTEX_FLAGS stream)])) ∧
    (∀ (stream : streambuffer) (buffer : List Nat) (length : Nat) (events : List Event),
      0 < length →
      STREAMBUFFER_CAN_READ options
        (min (bytes_readable sz stream.capacity stream.consumer_index
          stream.producer_comitted_index) length) length = false →
      streambuffer_stream_in sz stream buffer length options =
        .suspended { stream with consumer_count := (stream.consumer_count + 1) % UINT_MOD }
          [.Syscall_FutexWait .producer_comitted_index stream.producer_comitted_index
            (STREAMBUFFER_FUTEX_FLAGS stream)] ∧
      stream_in_loop_woken sz buffer length options (wake :: wakes) stream events =
        stream_in_loop_woken sz buffer length options wakes
          (wake { stream with consumer_count := (stream.consumer_count + 1) % UINT_MOD })
          (events ++ [.Syscall_FutexWait .producer_comitted_index
            stream.producer_comitted_index (STREAMBUFFER_FUTEX_FLAGS stream)])) ∧
    (∀ (stream : streambuffer) (base_out state_out : Nat) (events : List Event),
      bytes_readable sz stream.capacity stream.consumer_index
        stream.producer_comitted_index < read_packet_frame_length sz stream →
      read_packet_start_loop sz options (fuel + 1) stream 0 base_out state_out events =
        .suspended { stream with consumer_count := (stream.consumer_count + 1) % UINT_MOD }
          (events ++ [.Syscall_FutexWait .producer_comitted_index
            stream.producer_comitted_index (STREAMBUFFER_FUTEX_FLAGS stream)]) ∧
      read_packet_start_loop_woken sz options (fuel + 1) (wake :: wakes) stream 0 base_out
          state_out events =
        read_packet_start_loop_woken sz options fuel wakes
          (wake { stream with consumer_count := (stream.consumer_count + 1) % UINT_MOD })
          0 base_out state_out
          (events ++ [.Syscall_FutexWait .producer_comitted_index
            stream.producer_comitted_index (STREAMBUFFER_FUTEX_FLAGS stream)])) := by
  refine ⟨?_, ?_, ?_, ?_⟩
  · intro stream buffer length bytes_written events hlen hcan
    constructor
    · rw [stream_out_loop]
      simp [hlen, hcan, STREAMBUFFER_CAN_BLOCK, hblock]
    · rw [stream_out_loop_woken]
      simp [hlen, hcan, STREAMBUFFER_CAN_BLOCK, hblock, STREAMBUFFER_FUTEX_FLAGS]
  · intro stream packet_len length base_out state_out events hshort
    have hmin : min (bytes_writable sz stream.capacity stream.consumer_comitted_index
        stream.producer_index) length < length := by omega
    constructor
    · rw [write_packet_start_loop]
      simp [hmin, STREAMBUFFER_CAN_BLOCK, hblock]
    · rw [write_packet_start_loop_woken]
      simp [hmin, STREAMBUFFER_CAN_BLOCK, hblock, STREAMBUFFER_FUTEX_FLAGS]
  · intro stream buffer length events hlen hcan
    constructor
    · rw [streambuffer_stream_in]
      simp [hlen, hcan, STREAMBUFFER_CAN_BLOCK, hblock]
    · rw [stream_in_loop_woken]
      simp [hlen, hcan, STREAMBUFFER_CAN_BLOCK, hblock, STREAMBUFFER_FUTEX_FLAGS]
  · intro stream base_out state_out events hshort
    unfold read_packet_frame_length at hshort
    constructor
    · rw [read_packet_start_loop]
      simp only [beq_self_eq_true, if_true]
      rw [if_pos (by omega)]
      simp [STREAMBUFFER_CAN_BLOCK, hblock]
    · rw [read_packet_start_loop_woken]
      simp only [beq_self_eq_true, if_true]
      rw [if_pos (by omega)]
      simp [STREAMBUFFER_CAN_BLOCK, hblock, STREAMBUFFER_FUTEX_FLAGS]

/-! ## At the wrap of the cursors -/

/-- The drained buffer with all four cursors at `2^32 - 4` is what single-threaded calls
make of a freshly constructed buffer: 12 bytes are written and read, then 268435455
times 16 bytes are written and read. -/
theorem drained_near_wrap_reachable (sz fuel : Nat) (h : sz = 32 ∨ sz = 64) :
    run_operations sz (fuel + 2)
        ⟨streambuffer_construct ⟨0, Options.none, 0, 0, 0, 0, 0, 0, List.replicate 16 238⟩ 16
          { Options.none with MULTIPLE_WRITERS := true }, none, none⟩
        (.stream_out (List.replicate 12 238) Options.none :: .stream_in 12 Options.none ::
          (List.replicate 268435455
            [.stream_out (List.replicate 16 238) Options.none,
              .stream_in 16 Options.none]).flatten) =
      ⟨drained 4294967292, none, none⟩ := by
  have hsz : 32 ≤ sz := by omega
  have h1 : run_operation sz (fuel + 2)
      ⟨streambuffer_construct ⟨0, Options.none, 0, 0, 0, 0, 0, 0, List.replicate 16 238⟩ 16
        { Options.none with MULTIPLE_WRITERS := true }, none, none⟩
      (.stream_out (List.replicate 12 238) Options.none) =
      some ⟨{ drained 0 with producer_index := 12, producer_comitted_index := 12 },
        none, none⟩ := by
    rcases h with h | h <;> subst h <;> rfl
  have h2 : run_operation sz (fuel + 2)
      ⟨{ drained 0 with producer_index := 12, producer_comitted_index := 12 }, none, none⟩
      (.stream_in 12 Options.none) = some ⟨drained 12, none, none⟩ := by
    rcases h with h | h <;> subst h <;> rfl
  rw [run_operations, h1]
  simp only []
  rw [run_operations, h2]
  simp only []
  exact drained_rounds sz fuel hsz 268435455 12 (by norm_num)

/-- The largest capacity, `2^31`, with OVERWRITE_ENABLED and neither MULTIPLE flag: a
fresh buffer takes `2^31` bytes, then `2^31` more (the first `2^31` are discarded), and
the storage then holds exactly the second `2^31` bytes from the offset of
consumer_index on.  The producer cursors have wrapped to 0 while the consumer cursors
stand at `2^31`, `bytes_readable` is `2^31 - 1`, and a `streambuffer_stream_in` of
`2^31` bytes is not served: with NO_BLOCK and without ALLOW_PARTIAL it returns 0 and leaves the destination and
the stream as they are. -/
theorem overwrite_at_largest_capacity (sz k fuel : Nat) (memory : streambuffer)
    (stream_options options1 options2 options3 : Options)
    (first second destination : List Nat)
    (hsz : 32 ≤ sz) (hC : 2 ^ k = 2147483648) (hmem : memory.buffer.length = 2 ^ k)
    (hov : stream_options.OVERWRITE_ENABLED = true)
    (hmr : stream_options.MULTIPLE_READERS = false)
    (hmw : stream_options.MULTIPLE_WRITERS = false)
    (hsecond : second.length = 2 ^ k)
    (hnb : options3.NO_BLOCK = true) (hnp : options3.ALLOW_PARTIAL = false) :
    ∃ stream1 stream2,
      streambuffer_stream_out sz (fuel + 2)
          (streambuffer_construct memory (2 ^ k) stream_options) first (2 ^ k) options1 =
        .returned (2 ^ k) stream1 [] ∧
      streambuffer_stream_out sz (fuel + 3) stream1 second (2 ^ k) options2 =
        .returned (2 ^ k) stream2 [] ∧
      stream2.capacity = 2 ^ k ∧
      stream2.producer_index = 0 ∧ stream2.producer_comitted_index = 0 ∧
      stream2.consumer_index = 2 ^ k ∧ stream2.consumer_comitted_index = 2 ^ k ∧
      ring_bytes k stream2.buffer stream2.consumer_index (2 ^ k) = second ∧
      bytes_readable sz stream2.capacity stream2.consumer_index
        stream2.producer_comitted_index = 2 ^ k - 1 ∧
      streambuffer_stream_in sz stream2 destination (2 ^ k) options3 =
        .returned (0, destination) stream2 [] := by
  have hk : k < 32 := by
    by_contra hge
    have : 2 ^ 32 ≤ 2 ^ k := Nat.pow_le_pow_right (by norm_num) (by omega)
    norm_num at this
    omega
  have h3 := uint_mod_le_two_pow hsz
  have hmodC : (0 + 2 ^ k) % 4294967296 = 2 ^ k := by omega
  have hmodCE : (2 ^ k + 2 ^ k) % 4294967296 = 0 := by omega
  -- the first write
  have hw0 : bytes_writable sz (2 ^ k) 0 0 = 2 ^ k := by
    rw [bytes_writable_eq hsz hk (by omega) (by omega) (by norm_num)]
    norm_num
  have hout1 := stream_out_fits sz fuel (streambuffer_construct memory (2 ^ k) stream_options)
    first (2 ^ k) options1 (by omega) (by simp only [streambuffer_construct]; omega)
    (by
      apply and_decide_lt_eq_false
      simp only [streambuffer_construct]
      rw [write_loop_index _ _ _ _ _ _ _ (by omega), hmodC,
        size_sub_of_le (Nat.le_refl _) (by omega)]
      omega)
  -- the second write: a pass that truncates, then a pass that writes
  have hw1 : bytes_writable sz (2 ^ k) 0 (2 ^ k) = 0 := by
    rw [bytes_writable_eq hsz hk (by omega) (by omega) (by omega)]
    omega
  have hr1 : bytes_readable sz (2 ^ k) 0 (2 ^ k) = 2 ^ k := by
    rw [bytes_readable_of_le hsz (Nat.zero_le _) (by omega)]
    omega
  have htr := try_truncate_ok sz
    (stream_out_commit sz (streambuffer_construct memory (2 ^ k) stream_options) first (2 ^ k))
    options2 (2 ^ k) (2 ^ k)
    (by
      simp only [stream_out_commit, streambuffer_construct, UINT_MOD]
      rw [hmodC, hr1]
      omega)
    (by simp [STREAMBUFFER_CAN_READ])
    (by
      simp only [stream_out_commit, streambuffer_construct]
      rw [hmr]; rfl)
  have hstep := stream_out_truncate_step sz (fuel + 2)
    (stream_out_commit sz (streambuffer_construct memory (2 ^ k) stream_options) first (2 ^ k))
    _ second (2 ^ k) options2 [] (by omega)
    (by simp [STREAMBUFFER_CAN_STREAM, STREAMBUFFER_CAN_OVERWRITE, stream_out_commit,
      streambuffer_construct, hov])
    (by
      simp only [stream_out_commit, streambuffer_construct, UINT_MOD]
      rw [hmodC, hw1]
      omega)
    htr
  have hw2 : bytes_writable sz (2 ^ k) (2 ^ k) (2 ^ k) = 2 ^ k := by
    rw [bytes_writable_eq hsz hk (by omega) (by omega) (by omega)]
    omega
  have hout2 := stream_out_fits sz fuel
    (truncated
      (stream_out_commit sz (streambuffer_construct memory (2 ^ k) stream_options) first
        (2 ^ k)) (2 ^ k))
    second (2 ^ k) options2 (by omega)
    (by
      simp only [truncated, stream_out_commit, streambuffer_construct, UINT_MOD]
      rw [hmodC, hw2])
    (by
      simp only [truncated, stream_out_commit, streambuffer_construct]
      rw [hmw]; rfl)
  rw [← hstep] at hout2
  -- the storage after the two writes
  have hB1len : (write_loop sz (2 ^ k) first (2 ^ k) (memory.buffer.set 0 0) 0 0).1.length =
      2 ^ k := by
    rw [write_loop_length, List.length_set]
    exact hmem
  have hB2 : ring_bytes k
      (write_loop sz (2 ^ k) second (2 ^ k)
        (write_loop sz (2 ^ k) first (2 ^ k) (memory.buffer.set 0 0) 0 0).1 (2 ^ k) 0).1
      (2 ^ k) (2 ^ k) = second := by
    have hs := ring_bytes_write_loop hsz hk second
      (write_loop sz (2 ^ k) first (2 ^ k) (memory.buffer.set 0 0) 0 0).1 (2 ^ k) (by omega)
      hB1len
    rw [hsecond] at hs
    exact hs
  -- the read
  have hr2 : bytes_readable sz (2 ^ k) (2 ^ k) 0 = 2 ^ k - 1 := by
    rw [bytes_readable_wrapped hsz hk (by omega) (by omega) (by omega)]
    omega
  have hin := stream_in_fail sz
    (stream_out_commit sz
      (truncated
        (stream_out_commit sz (streambuffer_construct memory (2 ^ k) stream_options) first
          (2 ^ k)) (2 ^ k)) second (2 ^ k))
    destination (2 ^ k) options3 (by omega) hnb
    (by
      simp only [truncated, stream_out_commit, streambuffer_construct, UINT_MOD]
      rw [hmodC, hmodCE, hr2]
      have hmin : min (2 ^ k - 1) (2 ^ k) = 2 ^ k - 1 := by omega
      have hne : ¬ (2 ^ k - 1 = 2 ^ k) := by omega
      simp [STREAMBUFFER_CAN_READ, STREAMBUFFER_PARTIAL_OP_SAFE, STREAMBUFFER_PARTIAL_OP, hmin,
        hne, hnp])
  refine ⟨_, _, hout1, hout2, ?_, ?_, ?_, ?_, ?_, ?_, ?_, hin⟩
  · rfl
  · simp only [truncated, stream_out_commit, streambuffer_construct, UINT_MOD]
    rw [hmodC, hmodCE]
  · simp only [truncated, stream_out_commit, streambuffer_construct, UINT_MOD]
    rw [hmodC, hmodCE]
  · simp only [truncated, stream_out_commit, streambuffer_construct, UINT_MOD]
    rw [hmodC]
  · simp only [truncated, stream_out_commit, streambuffer_construct, UINT_MOD]
    rw [hmodC]
  · simp only [truncated, stream_out_commit, streambuffer_construct, UINT_MOD]
    rw [hmodC]
    exact hB2
  · simp only [truncated, stream_out_commit, streambuffer_construct, UINT_MOD]
    rw [hmodC, hmodCE]
    exact hr2

/-! ## Before the cursors wrap -/

/-- On a buffer without OVERWRITE_ENABLED in a consistent, non-wrapped state, a
`streambuffer_stream_out` call with NO_BLOCK and without ALLOW_PARTIAL either fits
(`length ≤ bytes_writable`): it returns `length`, advances producer_index and
producer_committed by `length` (as 32-bit cursors) and leaves the consumer cursors alone;
or does not fit: it returns 0 with the stream (cursors, waiter counters, storage)
unchanged and no futex call.  The write may even carry the producer cursor past `2^32`,
except on a wider-than-32-bit `size_t` with MULTIPLE_WRITERS set. -/
theorem stream_out_exact_unwrapped (sz k fuel : Nat) (stream : streambuffer)
    (buffer : List Nat) (length : Nat) (options : Options)
    (hsz : 32 ≤ sz) (hstate : consistent_nonwrapped k stream)
    (hov : stream.options.OVERWRITE_ENABLED = false)
    (hnb : options.NO_BLOCK = true) (hpart : options.ALLOW_PARTIAL = false)
    (hwrap : sz = 32 ∨ stream.options.MULTIPLE_WRITERS = false ∨
      stream.producer_index + length < 4294967296) :
    (length ≤ bytes_writable sz stream.capacity stream.consumer_comitted_index
        stream.producer_index →
      ∃ stream' events,
        streambuffer_stream_out sz (fuel + 2) stream buffer length options =
          .returned length stream' events ∧
        stream'.producer_index = (stream.producer_index + length) % 4294967296 ∧
        stream'.producer_comitted_index =
          (stream.producer_comitted_index + length) % 4294967296 ∧
        stream'.consumer_index = stream.consumer_index ∧
        stream'.consumer_comitted_index = stream.consumer_comitted_index) ∧
    (bytes_writable sz stream.capacity stream.consumer_comitted_index
        stream.producer_index < length →
      streambuffer_stream_out sz (fuel + 2) stream buffer length options =
        .returned 0 stream []) := by
  obtain ⟨hk, hcap, hlen, hpc, hcc, hle, hfl, hpi⟩ := hstate
  unfold UINT_MOD at hpi
  have h1 : 1 ≤ 2 ^ k := Nat.one_le_two_pow
  have h2 := two_pow_le_of_lt_32 hk
  have h3 := uint_mod_le_two_pow hsz
  constructor
  · intro hfit
    by_cases h0 : length = 0
    · subst h0
      refine ⟨stream, [], stream_out_zero sz (fuel + 1) stream buffer options, ?_, ?_, rfl, rfl⟩
      · rw [Nat.add_zero, Nat.mod_eq_of_lt hpi]
      · rw [Nat.add_zero, hpc, Nat.mod_eq_of_lt hpi]
    · have hwv : bytes_writable sz stream.capacity stream.consumer_comitted_index
          stream.producer_index ≤ 2 ^ k := by
        rw [hcap, bytes_writable_eq hsz hk (by omega) hpi (by omega)]
        omega
      refine ⟨_, _, stream_out_fits sz fuel stream buffer length options (by omega) hfit ?_,
        rfl, rfl, rfl, rfl⟩
      by_cases hmw : stream.options.MULTIPLE_WRITERS = false
      · rw [hmw]; rfl
      · apply and_decide_lt_eq_false
        have hor : sz = 32 ∨ stream.producer_index + length < 4294967296 := by
          rcases hwrap with h | h | h
          · exact Or.inl h
          · exact absurd h hmw
          · exact Or.inr h
        rw [write_loop_index _ _ _ _ _ _ _ hpi,
          size_sub_cursor hsz _ _ hpi (by omega) hor, hpc]
  · intro hfail
    exact stream_out_exact_fail sz (fuel + 1) stream buffer length options hov hpart hnb hfail

/-- An instance: capacity 4 holding two unread bytes, on a 64-bit `size_t`: a write of 2
bytes fits and returns 2, a write of 3 bytes returns 0 and changes nothing. -/
theorem stream_out_exact_unwrapped_witness :
    (∃ stream' events,
      streambuffer_stream_out 64 (0 + 2) ⟨4, Options.none, 2, 2, 0, 0, 0, 0, [1, 2, 0, 0]⟩ [5, 6] 2
          { Options.none with NO_BLOCK := true } = .returned 2 stream' events ∧
        stream'.producer_index = (2 + 2) % 4294967296 ∧
        stream'.producer_comitted_index = (2 + 2) % 4294967296 ∧
        stream'.consumer_index = 0 ∧ stream'.consumer_comitted_index = 0) ∧
    streambuffer_stream_out 64 (0 + 2) ⟨4, Options.none, 2, 2, 0, 0, 0, 0, [1, 2, 0, 0]⟩ [5, 6, 7] 3
        { Options.none with NO_BLOCK := true } =
      .returned 0 ⟨4, Options.none, 2, 2, 0, 0, 0, 0, [1, 2, 0, 0]⟩ [] :=
  ⟨(stream_out_exact_unwrapped 64 2 0 ⟨4, Options.none, 2, 2, 0, 0, 0, 0, [1, 2, 0, 0]⟩
      [5, 6] 2 { Options.none with NO_BLOCK := true } (by decide) (by decide) rfl rfl rfl
      (Or.inr (Or.inl rfl))).1 (by decide),
   (stream_out_exact_unwrapped 64 2 0 ⟨4, Options.none, 2, 2, 0, 0, 0, 0, [1, 2, 0, 0]⟩
      [5, 6, 7] 3 { Options.none with NO_BLOCK := true } (by decide) (by decide) rfl rfl rfl
      (Or.inr (Or.inl rfl))).2 (by decide)⟩

/-- For every power-of-two capacity `C = 2^k` and every `extra` with
`1 ≤ extra ≤ C` (and `C + extra < 2^32`, so that no cursor wraps), on a fresh buffer with
OVERWRITE_ENABLED (and without MULTIPLE_READERS): `streambuffer_stream_out` of `C` bytes
returns `C`, `streambuffer_stream_out` of `extra` more bytes returns `extra`, and
`streambuffer_stream_in` of `C` bytes then returns `C` and hands back exactly the last
`C` of the `C + extra` bytes written, in order. -/
theorem overwrite_keeps_newest_unwrapped (sz k fuel extra : Nat) (memory : streambuffer)
    (stream_options options1 options2 options3 : Options)
    (first second destination : List Nat)
    (hsz : 32 ≤ sz) (hk : k < 32) (hmem : memory.buffer.length = 2 ^ k)
    (hov : stream_options.OVERWRITE_ENABLED = true)
    (hmr : stream_options.MULTIPLE_READERS = false)
    (hfirst : first.length = 2 ^ k) (hsecond : second.length = extra)
    (hextra : 1 ≤ extra) (hextra' : extra ≤ 2 ^ k) (hwrap : 2 ^ k + extra < 4294967296)
    (hdest : destination.length = 2 ^ k) :
    ∃ stream1 events1 stream2 events2 stream3 events3,
      streambuffer_stream_out sz (fuel + 2)
          (streambuffer_construct memory (2 ^ k) stream_options) first (2 ^ k) options1 =
        .returned (2 ^ k) stream1 events1 ∧
      streambuffer_stream_out sz (fuel + 3) stream1 second extra options2 =
        .returned extra stream2 events2 ∧
      streambuffer_stream_in sz stream2 destination (2 ^ k) options3 =
        .returned (2 ^ k, (first ++ second).drop extra) stream3 events3 := by
  have h1 : 1 ≤ 2 ^ k := Nat.one_le_two_pow
  have h2 := two_pow_le_of_lt_32 hk
  have h3 := uint_mod_le_two_pow hsz
  have hmodC : (0 + 2 ^ k) % 4294967296 = 2 ^ k := by omega
  have hmodE : (0 + extra) % 4294967296 = extra := by omega
  have hmodCE : (2 ^ k + extra) % 4294967296 = 2 ^ k + extra := by omega
  -- the first write
  have hw0 : bytes_writable sz (2 ^ k) 0 0 = 2 ^ k := by
    rw [bytes_writable_eq hsz hk (by omega) (by omega) (by norm_num)]
    norm_num
  have hout1 := stream_out_fits sz fuel (streambuffer_construct memory (2 ^ k) stream_options)
    first (2 ^ k) options1 (by omega) (by simp only [streambuffer_construct]; omega)
    (by
      apply and_decide_lt_eq_false
      simp only [streambuffer_construct]
      rw [write_loop_index _ _ _ _ _ _ _ (by omega), hmodC,
        size_sub_of_le (Nat.le_refl _) (by omega)]
      omega)
  -- the second write: a pass that truncates, then a pass that writes
  have hw1 : bytes_writable sz (2 ^ k) 0 (2 ^ k) = 0 := by
    rw [bytes_writable_eq hsz hk (by omega) (by omega) (by omega)]
    omega
  have hr1 : bytes_readable sz (2 ^ k) 0 (2 ^ k) = 2 ^ k := by
    rw [bytes_readable_of_le hsz (Nat.zero_le _) (by omega)]
    omega
  have htr := try_truncate_ok sz
    (stream_out_commit sz (streambuffer_construct memory (2 ^ k) stream_options) first (2 ^ k))
    options2 extra extra
    (by
      simp only [stream_out_commit, streambuffer_construct, UINT_MOD]
      rw [hmodC, hr1]
      omega)
    (by simp [STREAMBUFFER_CAN_READ])
    (by
      simp only [stream_out_commit, streambuffer_construct]
      rw [hmr]; rfl)
  have hstep := stream_out_truncate_step sz (fuel + 2)
    (stream_out_commit sz (streambuffer_construct memory (2 ^ k) stream_options) first (2 ^ k))
    _ second extra options2 [] (by omega)
    (by simp [STREAMBUFFER_CAN_STREAM, STREAMBUFFER_CAN_OVERWRITE, stream_out_commit,
      streambuffer_construct, hov])
    (by
      simp only [stream_out_commit, streambuffer_construct, UINT_MOD]
      rw [hmodC, hw1]
      omega)
    htr
  have hw2 : bytes_writable sz (2 ^ k) extra (2 ^ k) = extra := by
    rw [bytes_writable_eq hsz hk (by omega) (by omega) (by omega)]
    omega
  have hout2 := stream_out_fits sz fuel
    (truncated
      (stream_out_commit sz (streambuffer_construct memory (2 ^ k) stream_options) first
        (2 ^ k)) extra)
    second extra options2 (by omega)
    (by
      simp only [truncated, stream_out_commit, streambuffer_construct, UINT_MOD]
      rw [hmodC, hmodE, hw2])
    (by
      apply and_decide_lt_eq_false
      simp only [truncated, stream_out_commit, streambuffer_construct, UINT_MOD]
      rw [hmodC, write_loop_index _ _ _ _ _ _ _ (by omega), hmodCE,
        size_sub_of_le (by omega) (by omega)]
      omega)
  rw [← hstep] at hout2
  -- the storage after the two writes
  have hB1len : (write_loop sz (2 ^ k) first (2 ^ k) (memory.buffer.set 0 0) 0 0).1.length =
      2 ^ k := by
    rw [write_loop_length, List.length_set]
    exact hmem
  have hB1 : ring_bytes k (write_loop sz (2 ^ k) first (2 ^ k) (memory.buffer.set 0 0) 0 0).1
      0 (2 ^ k) = first := by
    have := ring_bytes_write_loop hsz hk first (memory.buffer.set 0 0) 0 (by omega)
      (by rw [List.length_set]; exact hmem)
    rw [hfirst] at this
    exact this
  have hB2 : ring_bytes k
      (write_loop sz (2 ^ k) second extra
        (write_loop sz (2 ^ k) first (2 ^ k) (memory.buffer.set 0 0) 0 0).1 (2 ^ k) 0).1
      extra (2 ^ k) = (first ++ second).drop extra := by
    have e1 := ring_bytes_add k
      (write_loop sz (2 ^ k) second extra
        (write_loop sz (2 ^ k) first (2 ^ k) (memory.buffer.set 0 0) 0 0).1 (2 ^ k) 0).1
      extra (2 ^ k - extra) extra
    rw [Nat.sub_add_cancel hextra', Nat.add_sub_of_le hextra'] at e1
    have e2 := ring_bytes_add k
      (write_loop sz (2 ^ k) first (2 ^ k) (memory.buffer.set 0 0) 0 0).1 0 extra
      (2 ^ k - extra)
    rw [Nat.add_sub_of_le hextra', hB1, Nat.zero_add] at e2
    have hs := ring_bytes_write_loop hsz hk second
      (write_loop sz (2 ^ k) first (2 ^ k) (memory.buffer.set 0 0) 0 0).1 (2 ^ k) (by omega)
      hB1len
    rw [hsecond] at hs
    rw [e1, hs, ring_bytes_write_loop_before hsz hk _ _ _ _ _ _ (by omega) (by omega),
      List.drop_append_of_le_length (by omega)]
    congr 1
    have e3 := congrArg (List.drop extra) e2
    rw [List.drop_left' (ring_bytes_length _ _ _ _)] at e3
    exact e3.symm
  -- the read
  have hr2 : bytes_readable sz (2 ^ k) extra (2 ^ k + extra) = 2 ^ k := by
    rw [bytes_readable_of_le hsz (by omega) (by omega)]
    omega
  have hin := stream_in_ok sz
    (stream_out_commit sz
      (truncated
        (stream_out_commit sz (streambuffer_construct memory (2 ^ k) stream_options) first
          (2 ^ k)) extra) second extra)
    destination (2 ^ k) options3 (2 ^ k) (by omega)
    (by
      simp only [truncated, stream_out_commit, streambuffer_construct, UINT_MOD]
      rw [hmodC, hmodE, hmodCE, hr2]
      omega)
    (by simp [STREAMBUFFER_CAN_READ])
    (by
      simp only [truncated, stream_out_commit, streambuffer_construct]
      rw [hmr]; rfl)
  have hobuf : (read_loop sz
      (stream_out_commit sz
        (truncated
          (stream_out_commit sz (streambuffer_construct memory (2 ^ k) stream_options) first
            (2 ^ k)) extra) second extra).capacity
      (stream_out_commit sz
        (truncated
          (stream_out_commit sz (streambuffer_construct memory (2 ^ k) stream_options) first
            (2 ^ k)) extra) second extra).buffer
      (2 ^ k) destination
      (stream_out_commit sz
        (truncated
          (stream_out_commit sz (streambuffer_construct memory (2 ^ k) stream_options) first
            (2 ^ k)) extra) second extra).consumer_index 0).1 =
      (first ++ second).drop extra := by
    simp only [truncated, stream_out_commit, streambuffer_construct, UINT_MOD]
    rw [hmodC, hmodE, read_loop_eq_ring_bytes hsz hk _ _ _ _ hdest]
    exact hB2
  rw [hobuf] at hin
  exact ⟨_, _, _, _, _, _, hout1, hout2, hin⟩

/-- An instance: capacity 16 and 4 extra bytes, on a 32-bit `size_t`. -/
theorem overwrite_keeps_newest_unwrapped_witness :
    ∃ stream1 events1 stream2 events2 stream3 events3,
      streambuffer_stream_out 32 (0 + 2)
          (streambuffer_construct ⟨0, Options.none, 0, 0, 0, 0, 0, 0, List.replicate 16 9⟩
            (2 ^ 4) { Options.none with OVERWRITE_ENABLED := true })
          (List.range 16) (2 ^ 4) Options.none =
        .returned (2 ^ 4) stream1 events1 ∧
      streambuffer_stream_out 32 (0 + 3) stream1 [100, 101, 102, 103] 4 Options.none =
        .returned 4 stream2 events2 ∧
      streambuffer_stream_in 32 stream2 (List.replicate 16 0) (2 ^ 4) Options.none =
        .returned (2 ^ 4, (List.range 16 ++ [100, 101, 102, 103]).drop 4) stream3 events3 :=
  overwrite_keeps_newest_unwrapped 32 4 0 4 ⟨0, Options.none, 0, 0, 0, 0, 0, 0, List.replicate 16 9⟩
    { Options.none with OVERWRITE_ENABLED := true } Options.none Options.none Options.none
    (List.range 16) [100, 101, 102, 103] (List.replicate 16 0) (by decide) (by decide)
    (by decide) rfl rfl (by decide) (by decide) (by decide) (by decide) (by decide) (by decide)

/-- On a consistent, non-wrapped buffer holding no unread data, with the writes not
carrying producer_index past `2^32`.  One packet: for a payload of length `L ≥ 1` with
`L + sizeof(header) ≤ bytes_writable`, `streambuffer_write_packet_start(L)` claims
`L + sizeof(header)` bytes, and after `streambuffer_write_packet_data(payload)` and
`streambuffer_write_packet_end(base, L)` a `streambuffer_read_packet_start` without PEEK
returns `L` and `streambuffer_read_packet_data` of `L` bytes from the returned state
yields exactly the payload.  Several packets (none empty, together fitting
`bytes_writable`) written in sequence: as many successive packet reads return exactly
those payloads, in write order. -/
theorem packet_round_trip_unwrapped (sz k fuel : Nat) (stream : streambuffer)
    (payload destination : List Nat) (payloads : List (List Nat))
    (write_options read_options : Options) (base_out state_out : Nat)
    (hsz : sz = 32 ∨ sz = 64) (hstate : consistent_nonwrapped k stream)
    (hempty : stream.consumer_index = stream.producer_index)
    (hnopeek : read_options.PEEK = false)
    (hpos : 1 ≤ payload.length)
    (hfit : payload.length + sizeof_size_t sz ≤
      bytes_writable sz stream.capacity stream.consumer_comitted_index
        stream.producer_index)
    (hwrap : stream.producer_index + (payload.length + sizeof_size_t sz) < 4294967296)
    (hdest : destination.length = payload.length)
    (hposs : ∀ p, p ∈ payloads → 1 ≤ p.length)
    (hfits : (packet_bytes sz payloads).length ≤
      bytes_writable sz stream.capacity stream.consumer_comitted_index
        stream.producer_index)
    (hwraps : stream.producer_index + (packet_bytes sz payloads).length < 4294967296) :
    (∃ started written claimed,
      streambuffer_write_packet_start sz (fuel + 2) stream payload.length write_options 0 0 =
        .returned
          (payload.length + sizeof_size_t sz,
            (stream.producer_index + sizeof_size_t sz) % 4294967296,
            (stream.producer_index + sizeof_size_t sz) % 4294967296) started [] ∧
      write_packet sz (fuel + 2) stream payload write_options = some written ∧
      streambuffer_read_packet_start sz (fuel + 2) written read_options base_out state_out =
        .returned
          (payload.length, stream.producer_index + sizeof_size_t sz,
            stream.producer_index + sizeof_size_t sz) claimed [] ∧
      (streambuffer_read_packet_data sz claimed destination payload.length
        (stream.producer_index + sizeof_size_t sz)).1 = payload) ∧
    ∃ written,
      write_packets sz (fuel + 2) write_options stream payloads = some written ∧
      read_packets sz (fuel + 2) read_options payloads.length written = some payloads := by
  have h32 := le_of_size_cases hsz
  constructor
  · obtain ⟨hstart, hrun⟩ := write_packet_ok fuel stream payload write_options hsz hstate hfit
    obtain ⟨hold, hci⟩ :=
      oldest_packet_write_packet_result stream payload hsz hstate hempty hfit hwrap
    have hread := read_packet_start_oldest fuel (write_packet_result sz stream payload) payload
      read_options base_out state_out hsz hold hpos
    rw [hci] at hread
    refine ⟨_, _, _, hstart, hrun, hread, ?_⟩
    have := read_packet_data_oldest (write_packet_result sz stream payload)
      (if !read_options.PEEK then
        { write_packet_result sz stream payload with
          consumer_index := stream.producer_index + (sizeof_size_t sz + payload.length) }
      else write_packet_result sz stream payload) payload destination hsz hold
      (by rw [hnopeek]; rfl) (by rw [hnopeek]; rfl) hdest
    rw [hci] at this
    exact this
  · rw [bytes_writable_consistent h32 stream hstate] at hfits
    have h1 : 1 ≤ 2 ^ k := Nat.one_le_two_pow
    obtain ⟨written, hrun, hstate', hci', hpi', hring', _⟩ :=
      write_packets_ok fuel write_options hsz payloads stream hstate (by omega) hwraps
    obtain ⟨hk, hcap, hlen, hpc, hcc, hle, hfl, hpi⟩ := hstate'
    unfold UINT_MOD at hpi
    refine ⟨written, hrun, ?_⟩
    exact read_packets_ok fuel read_options hsz hnopeek payloads written hk hcap hlen
      (by rw [hpc]; exact hle) (by rw [hpc]; exact hpi)
      (by rw [hpc, hpi', hci', hempty]; omega)
      (by rw [hci', hempty]; exact hring') hposs

/-- An instance: an empty buffer of capacity 32 with cursors at 5 (64-bit `size_t`,
header of 8 bytes), the packet `[7, 8, 9]`, and the sequence of packets `[1]`, `[2, 3]`
with MULTIPLE_WRITERS set. -/
theorem packet_round_trip_unwrapped_witness :
    (∃ started written claimed,
      streambuffer_write_packet_start 64 (0 + 2)
          ⟨32, { Options.none with MULTIPLE_WRITERS := true }, 5, 5, 5, 5, 0, 0,
            List.replicate 32 0⟩ [7, 8, 9].length Options.none 0 0 =
        .returned
          ([7, 8, 9].length + sizeof_size_t 64, (5 + sizeof_size_t 64) % 4294967296,
            (5 + sizeof_size_t 64) % 4294967296) started [] ∧
      write_packet 64 (0 + 2)
          ⟨32, { Options.none with MULTIPLE_WRITERS := true }, 5, 5, 5, 5, 0, 0,
            List.replicate 32 0⟩ [7, 8, 9] Options.none = some written ∧
      streambuffer_read_packet_start 64 (0 + 2) written Options.none 0 0 =
        .returned ([7, 8, 9].length, 5 + sizeof_size_t 64, 5 + sizeof_size_t 64) claimed [] ∧
      (streambuffer_read_packet_data 64 claimed [0, 0, 0] [7, 8, 9].length
        (5 + sizeof_size_t 64)).1 = [7, 8, 9]) ∧
    ∃ written,
      write_packets 64 (0 + 2) Options.none
          ⟨32, { Options.none with MULTIPLE_WRITERS := true }, 5, 5, 5, 5, 0, 0,
            List.replicate 32 0⟩ [[1], [2, 3]] = some written ∧
      read_packets 64 (0 + 2) Options.none [[1], [2, 3]].length written =
        some [[1], [2, 3]] :=
  packet_round_trip_unwrapped 64 5 0
    ⟨32, { Options.none with MULTIPLE_WRITERS := true }, 5, 5, 5, 5, 0, 0, List.replicate 32 0⟩
    [7, 8, 9] [0, 0, 0] [[1], [2, 3]] Options.none Options.none 0 0 (by decide) (by decide) rfl rfl
    (by decide) (by decide) (by decide) rfl (by decide) (by decide) (by decide)

/-- When the oldest unread data of a (non-wrapped) buffer is a complete committed
packet with payload of length `L ≥ 1`, `streambuffer_read_packet_start` with PEEK returns
`L` with base and state at the payload and hands the stream back unchanged (all four
cursors, waiter counters and storage), with no futex call; a second consecutive PEEK
call returns the same length and the same base/state offset, and
`streambuffer_read_packet_data` from that offset yields the payload; a following call
without PEEK returns the same length and offset, claims the frame, and its
`streambuffer_read_packet_data` yields the same payload. -/
theorem read_packet_peek_unwrapped (sz k fuel : Nat) (stream : streambuffer)
    (payload destination : List Nat) (peek_options options : Options)
    (base_out state_out : Nat)
    (hsz : sz = 32 ∨ sz = 64) (hpacket : oldest_packet sz k stream payload)
    (hpos : 1 ≤ payload.length) (hpeek : peek_options.PEEK = true)
    (hnopeek : options.PEEK = false) (hdest : destination.length = payload.length) :
    streambuffer_read_packet_start sz (fuel + 2) stream peek_options base_out state_out =
      .returned
        (payload.length, stream.consumer_index + sizeof_size_t sz,
          stream.consumer_index + sizeof_size_t sz) stream [] ∧
    streambuffer_read_packet_start sz (fuel + 2) stream peek_options
        (stream.consumer_index + sizeof_size_t sz) (stream.consumer_index + sizeof_size_t sz) =
      .returned
        (payload.length, stream.consumer_index + sizeof_size_t sz,
          stream.consumer_index + sizeof_size_t sz) stream [] ∧
    (streambuffer_read_packet_data sz stream destination payload.length
      (stream.consumer_index + sizeof_size_t sz)).1 = payload ∧
    ∃ claimed,
      streambuffer_read_packet_start sz (fuel + 2) stream options
          (stream.consumer_index + sizeof_size_t sz)
          (stream.consumer_index + sizeof_size_t sz) =
        .returned
          (payload.length, stream.consumer_index + sizeof_size_t sz,
            stream.consumer_index + sizeof_size_t sz) claimed [] ∧
      claimed.consumer_index = stream.consumer_index + (sizeof_size_t sz + payload.length) ∧
      (streambuffer_read_packet_data sz claimed destination payload.length
        (stream.consumer_index + sizeof_size_t sz)).1 = payload := by
  have hp := fun b s =>
    read_packet_start_oldest fuel stream payload peek_options b s hsz hpacket hpos
  rw [hpeek] at hp
  have hn := read_packet_start_oldest fuel stream payload options
    (stream.consumer_index + sizeof_size_t sz) (stream.consumer_index + sizeof_size_t sz) hsz
    hpacket hpos
  rw [hnopeek] at hn
  exact ⟨hp _ _, hp _ _,
    read_packet_data_oldest stream stream payload destination hsz hpacket rfl rfl hdest,
    _, hn, rfl,
    read_packet_data_oldest stream _ payload destination hsz hpacket rfl rfl hdest⟩

/-- An instance: capacity 16, 32-bit `size_t`; the unread data is the packet `[7, 8]`
(header 2, 0, 0, 0) at offset 3, followed by two more committed bytes. -/
theorem read_packet_peek_unwrapped_witness :
    streambuffer_read_packet_start 32 (0 + 2)
        ⟨16, Options.none, 11, 11, 3, 3, 0, 0, [0, 0, 0, 2, 0, 0, 0, 7, 8, 1, 1, 0, 0, 0, 0, 0]⟩
        { Options.none with PEEK := true, NO_BLOCK := true } 0 0 =
      .returned ([7, 8].length, 3 + sizeof_size_t 32, 3 + sizeof_size_t 32)
        ⟨16, Options.none, 11, 11, 3, 3, 0, 0, [0, 0, 0, 2, 0, 0, 0, 7, 8, 1, 1, 0, 0, 0, 0, 0]⟩
        [] :=
  (read_packet_peek_unwrapped 32 4 0
    ⟨16, Options.none, 11, 11, 3, 3, 0, 0, [0, 0, 0, 2, 0, 0, 0, 7, 8, 1, 1, 0, 0, 0, 0, 0]⟩
    [7, 8] [0, 0] { Options.none with PEEK := true, NO_BLOCK := true } Options.none 0 0
    (by decide) (by decide) (by decide) rfl rfl rfl).1

/-! ## Claims C1 to C30 -/

/-- C1: start from a freshly constructed buffer of power-of-two capacity `2^k` (below
`2^32`) without OVERWRITE_ENABLED and run any sequence of `streambuffer_stream_out` and
`streambuffer_stream_in` calls, each with NO_BLOCK and without ALLOW_PARTIAL, in a single
thread.  Then the bytes delivered by the reads, concatenated in order, are a prefix of
the bytes accepted by the writes, concatenated in order (the sequence stops at a call
that does not return; with two rounds of loop fuel every call returns, on a 32-bit
`size_t` or without the MULTIPLE flags).  In particular writing
`N ≤ capacity` bytes into the fresh buffer returns `N`, and reading `N` bytes next
returns `N` and hands back exactly those bytes. -/
theorem stream_exact_no_data_loss (sz k fuel : Nat) (memory : streambuffer)
    (stream_options options : Options) (calls : List StreamCall)
    (buffer destination : List Nat)
    (hsz : 32 ≤ sz) (hk : k < 32) (hmem : memory.buffer.length = 2 ^ k)
    (hov : stream_options.OVERWRITE_ENABLED = false)
    (hcalls : ∀ call, call ∈ calls → call.exact_noblock = true)
    (hbuf : buffer.length ≤ 2 ^ k) (hdest : destination.length = buffer.length) :
    (run_calls sz fuel
        { stream := streambuffer_construct memory (2 ^ k) stream_options, accepted := [],
          delivered := [] } calls).delivered <+:
      (run_calls sz fuel
        { stream := streambuffer_construct memory (2 ^ k) stream_options, accepted := [],
          delivered := [] } calls).accepted ∧
    (sz = 32 ∨ (stream_options.MULTIPLE_WRITERS = false ∧
        stream_options.MULTIPLE_READERS = false) →
      calls_return sz (fuel + 2)
        { stream := streambuffer_construct memory (2 ^ k) stream_options, accepted := [],
          delivered := [] } calls = true) ∧
    ∃ stream events stream' events',
      streambuffer_stream_out sz (fuel + 2)
          (streambuffer_construct memory (2 ^ k) stream_options) buffer buffer.length options =
        .returned buffer.length stream events ∧
      streambuffer_stream_in sz stream destination buffer.length options =
        .returned (buffer.length, buffer) stream' events' := by
  refine ⟨?_, ?_, ?_⟩
  · have hinv := @invariant_run_calls sz k fuel hsz calls _
      (invariant_construct memory stream_options hk hmem hov) hcalls
    rw [List.prefix_iff_eq_take]
    exact hinv.2.2.2.2.2.2.2.2.2.2.1
  · intro hspin
    exact calls_return_of_invariant hsz calls _
      (invariant_construct memory stream_options hk hmem hov) hcalls hspin
  · exact fresh_write_then_read fuel memory stream_options options buffer destination hsz hk
      hmem hov hbuf hdest

/-- Witness of C1: capacity 4 on a 32-bit `size_t` with MULTIPLE_WRITERS set; the calls
write 3 bytes, read 2, write 3 more and read 4. -/
theorem stream_exact_no_data_loss_witness :
    (run_calls 32 2
        { stream := streambuffer_construct ⟨0, Options.none, 0, 0, 0, 0, 0, 0, [9, 9, 9, 9]⟩
            (2 ^ 2) { Options.none with MULTIPLE_WRITERS := true },
          accepted := [], delivered := [] }
        [.stream_out [1, 2, 3] { Options.none with NO_BLOCK := true },
         .stream_in 2 { Options.none with NO_BLOCK := true },
         .stream_out [4, 5, 6] { Options.none with NO_BLOCK := true },
         .stream_in 4 { Options.none with NO_BLOCK := true }]).delivered <+:
      (run_calls 32 2
        { stream := streambuffer_construct ⟨0, Options.none, 0, 0, 0, 0, 0, 0, [9, 9, 9, 9]⟩
            (2 ^ 2) { Options.none with MULTIPLE_WRITERS := true },
          accepted := [], delivered := [] }
        [.stream_out [1, 2, 3] { Options.none with NO_BLOCK := true },
         .stream_in 2 { Options.none with NO_BLOCK := true },
         .stream_out [4, 5, 6] { Options.none with NO_BLOCK := true },
         .stream_in 4 { Options.none with NO_BLOCK := true }]).accepted ∧
    (32 = 32 ∨ ({ Options.none with MULTIPLE_WRITERS := true }.MULTIPLE_WRITERS = false ∧
        { Options.none with MULTIPLE_WRITERS := true }.MULTIPLE_READERS = false) →
      calls_return 32 (2 + 2)
        { stream := streambuffer_construct ⟨0, Options.none, 0, 0, 0, 0, 0, 0, [9, 9, 9, 9]⟩
            (2 ^ 2) { Options.none with MULTIPLE_WRITERS := true },
          accepted := [], delivered := [] }
        [.stream_out [1, 2, 3] { Options.none with NO_BLOCK := true },
         .stream_in 2 { Options.none with NO_BLOCK := true },
         .stream_out [4, 5, 6] { Options.none with NO_BLOCK := true },
         .stream_in 4 { Options.none with NO_BLOCK := true }] = true) ∧
    ∃ stream events stream' events',
      streambuffer_stream_out 32 (2 + 2)
          (streambuffer_construct ⟨0, Options.none, 0, 0, 0, 0, 0, 0, [9, 9, 9, 9]⟩ (2 ^ 2)
            { Options.none with MULTIPLE_WRITERS := true }) [1, 2, 3] [1, 2, 3].length
          { Options.none with NO_BLOCK := true } =
        .returned [1, 2, 3].length stream events ∧
      streambuffer_stream_in 32 stream [0, 0, 0] [1, 2, 3].length
          { Options.none with NO_BLOCK := true } =
        .returned ([1, 2, 3].length, [1, 2, 3]) stream' events' :=
  stream_exact_no_data_loss 32 2 2 ⟨0, Options.none, 0, 0, 0, 0, 0, 0, [9, 9, 9, 9]⟩
    { Options.none with MULTIPLE_WRITERS := true } { Options.none with NO_BLOCK := true }
    [.stream_out [1, 2, 3] { Options.none with NO_BLOCK := true },
     .stream_in 2 { Options.none with NO_BLOCK := true },
     .stream_out [4, 5, 6] { Options.none with NO_BLOCK := true },
     .stream_in 4 { Options.none with NO_BLOCK := true }]
    [1, 2, 3] [0, 0, 0] (by decide) (by decide) (by decide) rfl (by decide) (by decide)
    (by decide)

/-- C2: for capacity 16, consumer_index = 2^32 - 4 and producer_committed = 2 the wrapping
distance is 6, yet `bytes_readable` returns 5, with a 32-bit and with a 64-bit `size_t`:
the wrapped branch is one short. -/
theorem bytes_readable_wrapped_off_by_one :
    (2 + 4294967296 - 4294967292) % 4294967296 = 6 ∧
    bytes_readable 32 16 4294967292 2 = 5 ∧ bytes_readable 64 16 4294967292 2 = 5 := by
  decide

/-- C3: for a power-of-two capacity `2^k` below `2^32` and 32-bit cursors
`consumer_committed`, `producer_index` whose wrapping distance
`d = (producer_index - consumer_committed) mod 2^32` is at most the capacity,
`bytes_writable` returns `capacity - d`, whether or not `producer_index` has wrapped
past `2^32` ahead of `consumer_committed`. -/
theorem bytes_writable_wrapping_distance (sz k consumer_committed producer_index : Nat)
    (hsz : 32 ≤ sz) (hk : k < 32)
    (hc : consumer_committed < 4294967296) (hp : producer_index < 4294967296)
    (hd : (producer_index + 4294967296 - consumer_committed) % 4294967296 ≤ 2 ^ k) :
    bytes_writable sz (2 ^ k) consumer_committed producer_index =
      2 ^ k - (producer_index + 4294967296 - consumer_committed) % 4294967296 :=
  bytes_writable_eq hsz hk hc hp hd

/-- Witness of C3: capacity 16, consumer_committed = 2^32 - 4, producer_index = 2
(wrapped): distance 6, 10 bytes writable. -/
theorem bytes_writable_wrapping_distance_witness :
    bytes_writable 64 (2 ^ 4) 4294967292 2 = 2 ^ 4 - (2 + 4294967296 - 4294967292) % 4294967296 ∧
    bytes_writable 64 (2 ^ 4) 4294967292 2 = 10 :=
  ⟨bytes_writable_wrapping_distance 64 4 4294967292 2 (by decide) (by decide) (by decide)
    (by decide) (by decide), by decide⟩

/-- C4: for capacity 16, read_index = 0 and write_index = 17 (one byte more in flight
than the capacity, read_index ≤ write_index) `bytes_writable` does not return 0 but the
wrapped difference `SIZE_MAX`, a value greater than the capacity. -/
theorem bytes_writable_overcommitted_underflow :
    bytes_writable 32 16 0 17 = 4294967295 ∧ bytes_writable 64 16 0 17 = 18446744073709551615 := by
  decide

/-- C5: for every power-of-two capacity `C = 2^k` (below `2^32`), writing exactly `C` bytes
with `streambuffer_stream_out` into a freshly constructed buffer returns `C` (in exact
mode, and indeed with any call options), with no futex call; afterwards producer_index
and producer_committed are `C`, the consumer cursors are still 0 and storage byte `i` is
the `i`-th written byte for every `i < C`. -/
theorem stream_out_capacity_into_fresh (sz k fuel : Nat) (memory : streambuffer)
    (stream_options options : Options) (buffer : List Nat)
    (hsz : 32 ≤ sz) (hk : k < 32) (hmem : memory.buffer.length = 2 ^ k)
    (hbuf : buffer.length = 2 ^ k) :
    ∃ stream,
      streambuffer_stream_out sz (fuel + 2)
          (streambuffer_construct memory (2 ^ k) stream_options) buffer (2 ^ k) options =
        .returned (2 ^ k) stream [] ∧
      stream.producer_index = 2 ^ k ∧ stream.producer_comitted_index = 2 ^ k ∧
      stream.consumer_index = 0 ∧ stream.consumer_comitted_index = 0 ∧
      ∀ i, i < 2 ^ k → stream.buffer[i]? = buffer[i]? := by
  have h1 : 1 ≤ 2 ^ k := Nat.one_le_two_pow
  have h2 := two_pow_le_of_lt_32 hk
  have h3 := uint_mod_le_two_pow hsz
  have hw : bytes_writable sz (2 ^ k) 0 0 = 2 ^ k := by
    rw [bytes_writable_eq hsz hk (by omega) (by omega) (by norm_num)]
    norm_num
  have hmod : (2 ^ k) % 4294967296 = 2 ^ k := Nat.mod_eq_of_lt (by omega)
  have hrun := stream_out_fits sz fuel (streambuffer_construct memory (2 ^ k) stream_options)
    buffer (2 ^ k) options (by omega) (by simp only [streambuffer_construct]; omega)
    (by
      apply and_decide_lt_eq_false
      simp only [streambuffer_construct]
      rw [write_loop_index _ _ _ _ _ _ _ (by omega), Nat.zero_add, hmod,
        size_sub_of_le (Nat.le_refl _) (by omega)]
      omega)
  refine ⟨stream_out_commit sz (streambuffer_construct memory (2 ^ k) stream_options) buffer
    (2 ^ k), ?_, ?_, ?_, ?_, ?_, ?_⟩
  · rw [hrun]
    simp [wake_events, streambuffer_construct]
  · simp only [stream_out_commit, streambuffer_construct, UINT_MOD, Nat.zero_add]
    exact hmod
  · simp only [stream_out_commit, streambuffer_construct, UINT_MOD, Nat.zero_add]
    exact hmod
  · rfl
  · rfl
  · intro i hi
    have := write_loop_getElem?_of_lt hsz hk buffer (2 ^ k) (memory.buffer.set 0 0) 0 0 i
      (Nat.le_refl _) (by rw [List.length_set]; exact hmem) hi
    rw [Nat.zero_add, Nat.mod_eq_of_lt hi] at this
    simp only [stream_out_commit, streambuffer_construct]
    rw [this, List.getD_eq_getElem?_getD, List.getElem?_eq_getElem (by omega)]
    rfl

/-- Witness of C5: capacity 4 on a 32-bit `size_t`, storage initially `[9, 9, 9, 9]`. -/
theorem stream_out_capacity_into_fresh_witness :
    ∃ stream,
      streambuffer_stream_out 32 (0 + 2)
          (streambuffer_construct ⟨0, Options.none, 0, 0, 0, 0, 0, 0, [9, 9, 9, 9]⟩ (2 ^ 2)
            Options.none) [1, 2, 3, 4] (2 ^ 2) Options.none =
        .returned (2 ^ 2) stream [] ∧
      stream.producer_index = 2 ^ 2 ∧ stream.producer_comitted_index = 2 ^ 2 ∧
      stream.consumer_index = 0 ∧ stream.consumer_comitted_index = 0 ∧
      ∀ i, i < 2 ^ 2 → stream.buffer[i]? = [1, 2, 3, 4][i]? :=
  stream_out_capacity_into_fresh 32 2 0 ⟨0, Options.none, 0, 0, 0, 0, 0, 0, [9, 9, 9, 9]⟩
    Options.none Options.none [1, 2, 3, 4] (by decide) (by decide) (by decide) (by decide)

/-- C6: a buffer of capacity 16 with MULTIPLE_WRITERS and without OVERWRITE_ENABLED,
empty, all four cursors at 4294967292 (`2^32 - 4`): the state is consistent and
non-wrapped, it is what single-threaded calls make of a fresh buffer, and
`bytes_writable` is 16.  A `streambuffer_stream_out` of 8 bytes with NO_BLOCK and
without ALLOW_PARTIAL fits.  With a 64-bit `size_t` the call never returns: it claims
the 8 bytes (producer_index becomes 4), copies them in, and then busy-waits in
`while (current_commit < (write_index - bytes_comitted))`, where `write_index` is the
wrapped 32-bit cursor 4 and `4 - 8` is `2^64 - 4` in `size_t`; producer_committed is
never advanced.  With a 32-bit `size_t` the same call returns 8. -/
theorem stream_out_exact_spins_at_wrap :
    consistent_nonwrapped 4
      ⟨16, { Options.none with MULTIPLE_WRITERS := true }, 4294967292, 4294967292,
        4294967292, 4294967292, 0, 0, List.replicate 16 238⟩ ∧
    run_operations 64 2
        ⟨streambuffer_construct ⟨0, Options.none, 0, 0, 0, 0, 0, 0, List.replicate 16 238⟩ 16
          { Options.none with MULTIPLE_WRITERS := true }, none, none⟩
        (.stream_out (List.replicate 12 238) Options.none :: .stream_in 12 Options.none ::
          (List.replicate 268435455
            [.stream_out (List.replicate 16 238) Options.none,
              .stream_in 16 Options.none]).flatten) =
      ⟨⟨16, { Options.none with MULTIPLE_WRITERS := true }, 4294967292, 4294967292,
        4294967292, 4294967292, 0, 0, List.replicate 16 238⟩, none, none⟩ ∧
    bytes_writable 64 16 4294967292 4294967292 = 16 ∧
    size_sub 64 4 8 = 18446744073709551612 ∧
    streambuffer_stream_out 64 2
        ⟨16, { Options.none with MULTIPLE_WRITERS := true }, 4294967292, 4294967292,
          4294967292, 4294967292, 0, 0, List.replicate 16 238⟩
        [1, 2, 3, 4, 5, 6, 7, 8] 8 { Options.none with NO_BLOCK := true } =
      .spinning
        ⟨16, { Options.none with MULTIPLE_WRITERS := true }, 4, 4294967292,
          4294967292, 4294967292, 0, 0,
          [5, 6, 7, 8, 238, 238, 238, 238, 238, 238, 238, 238, 1, 2, 3, 4]⟩ [] ∧
    streambuffer_stream_out 32 2
        ⟨16, { Options.none with MULTIPLE_WRITERS := true }, 4294967292, 4294967292,
          4294967292, 4294967292, 0, 0, List.replicate 16 238⟩
        [1, 2, 3, 4, 5, 6, 7, 8] 8 { Options.none with NO_BLOCK := true } =
      .returned 8
        ⟨16, { Options.none with MULTIPLE_WRITERS := true }, 4, 4,
          4294967292, 4294967292, 0, 0,
          [5, 6, 7, 8, 238, 238, 238, 238, 238, 238, 238, 238, 1, 2, 3, 4]⟩ [] :=
  ⟨by decide, drained_near_wrap_reachable 64 0 (Or.inr rfl), by decide, by decide, by decide,
    by decide⟩

/-- C7: a fresh buffer of capacity 16 without OVERWRITE_ENABLED, asked to write 17 bytes
with ALLOW_PARTIAL and NO_BLOCK (16 bytes are writable), never writes the 16 bytes and
never returns 16: whatever the fuel, the loop is still running when it is used up, with
a 32-bit and with a 64-bit `size_t`. -/
theorem stream_out_partial_never_returns (fuel : Nat) :
    streambuffer_stream_out 32 fuel
        (streambuffer_construct ⟨0, Options.none, 0, 0, 0, 0, 0, 0, List.replicate 16 0⟩ 16
          Options.none) (List.range 17) 17
        { Options.none with ALLOW_PARTIAL := true, NO_BLOCK := true } = .out_of_fuel ∧
    streambuffer_stream_out 64 fuel
        (streambuffer_construct ⟨0, Options.none, 0, 0, 0, 0, 0, 0, List.replicate 16 0⟩ 16
          Options.none) (List.range 17) 17
        { Options.none with ALLOW_PARTIAL := true, NO_BLOCK := true } = .out_of_fuel := by
  unfold streambuffer_stream_out
  induction fuel with
  | zero => exact ⟨rfl, rfl⟩
  | succ fuel ih =>
    rw [stream_out_partial_loop_step 32 (Or.inl rfl), stream_out_partial_loop_step 64 (Or.inr rfl)]
    exact ih

/-- C8: on a buffer with no readable bytes (producer_committed = consumer_index), for
every length > 0 and every option set containing NO_BLOCK (with or without
ALLOW_PARTIAL), `streambuffer_stream_in` returns 0, makes no futex call, and hands back
the stream (cursors, waiter counters, storage) and the destination buffer unchanged. -/
theorem stream_in_empty_noblock (sz : Nat) (stream : streambuffer) (buffer : List Nat)
    (length : Nat) (options : Options)
    (hempty : stream.producer_comitted_index = stream.consumer_index)
    (hlen : 0 < length) (hnb : options.NO_BLOCK = true) :
    streambuffer_stream_in sz stream buffer length options =
      .returned (0, buffer) stream [] := by
  apply stream_in_fail sz stream buffer length options hlen hnb
  rw [hempty, bytes_readable_self, Nat.zero_min]
  have : (0 == length) = false := by
    rw [beq_eq_false_iff_ne]
    omega
  simp [STREAMBUFFER_CAN_READ, STREAMBUFFER_PARTIAL_OP_SAFE, this]

/-- Witness of C8: an empty buffer of capacity 16 whose cursors stand at 7, a read of 10
bytes with NO_BLOCK and ALLOW_PARTIAL. -/
theorem stream_in_empty_noblock_witness :
    streambuffer_stream_in 32 ⟨16, Options.none, 7, 7, 7, 7, 0, 0, List.replicate 16 3⟩
        (List.replicate 10 0) 10 { Options.none with NO_BLOCK := true, ALLOW_PARTIAL := true } =
      .returned (0, List.replicate 10 0)
        ⟨16, Options.none, 7, 7, 7, 7, 0, 0, List.replicate 16 3⟩ [] :=
  stream_in_empty_noblock 32 ⟨16, Options.none, 7, 7, 7, 7, 0, 0, List.replicate 16 3⟩
    (List.replicate 10 0) 10 { Options.none with NO_BLOCK := true, ALLOW_PARTIAL := true }
    rfl (by decide) rfl

/-- C9: on a buffer in a consistent, non-wrapped state, a `streambuffer_stream_in` call
with NO_BLOCK and without ALLOW_PARTIAL (into a destination with room for `length`
bytes) either finds `length ≤ bytes_readable`: it returns `length`, output byte `i` is
`storage[(consumer_index + i) mod capacity]` for every `i < length`, and consumer_index
and consumer_committed have advanced by `length`; or finds fewer readable bytes: it
returns 0 and changes nothing (stream and destination unchanged, no futex call). -/
theorem stream_in_exact_all_or_nothing (sz k : Nat) (stream : streambuffer)
    (buffer : List Nat) (length : Nat) (options : Options)
    (hsz : 32 ≤ sz) (hstate : consistent_nonwrapped k stream)
    (hnb : options.NO_BLOCK = true) (hpart : options.ALLOW_PARTIAL = false)
    (hroom : length ≤ buffer.length) :
    (length ≤ bytes_readable sz stream.capacity stream.consumer_index
        stream.producer_comitted_index →
      ∃ out stream' events,
        streambuffer_stream_in sz stream buffer length options =
          .returned (length, out) stream' events ∧
        (∀ i, i < length →
          out[i]? =
            some (stream.buffer.getD ((stream.consumer_index + i) % stream.capacity) 0)) ∧
        stream'.consumer_index = stream.consumer_index + length ∧
        stream'.consumer_comitted_index = stream.consumer_comitted_index + length) ∧
    (bytes_readable sz stream.capacity stream.consumer_index
        stream.producer_comitted_index < length →
      streambuffer_stream_in sz stream buffer length options =
        .returned (0, buffer) stream []) := by
  have hr : bytes_readable sz stream.capacity stream.consumer_index
      stream.producer_comitted_index = stream.producer_index - stream.consumer_index := by
    obtain ⟨_, _, _, hpc, _, hle, _, hpi⟩ := hstate
    rw [hpc]
    exact bytes_readable_of_le hsz hle hpi
  rw [hr]
  constructor
  · intro hfit
    by_cases h0 : length = 0
    · subst h0
      exact ⟨buffer, stream, [], stream_in_zero sz stream buffer options,
        fun i hi => absurd hi (Nat.not_lt_zero i), rfl, rfl⟩
    · obtain ⟨out, stream', events, hrun, hout, hci, hcc, _⟩ :=
        stream_in_consistent stream buffer length options length hsz hstate (by omega)
          (by omega) (by simp [STREAMBUFFER_CAN_READ]) hroom
      exact ⟨out, stream', events, hrun, hout, hci, hcc⟩
  · intro hfail
    apply stream_in_fail sz stream buffer length options (by omega) hnb
    rw [hr, Nat.min_eq_left (by omega)]
    have : (stream.producer_index - stream.consumer_index == length) = false := by
      rw [beq_eq_false_iff_ne]
      omega
    simp [STREAMBUFFER_CAN_READ, STREAMBUFFER_PARTIAL_OP_SAFE, STREAMBUFFER_PARTIAL_OP, this,
      hpart]

/-- Witness of C9: capacity 4 holding the three unread bytes 2, 3, 4 at offsets 1..3,
with MULTIPLE_READERS set: a read of 3 bytes returns them, a read of 4 bytes returns 0. -/
theorem stream_in_exact_all_or_nothing_witness :
    (∃ out stream' events,
      streambuffer_stream_in 32
          ⟨4, { Options.none with MULTIPLE_READERS := true }, 4, 4, 1, 1, 0, 0, [1, 2, 3, 4]⟩
          [0, 0, 0, 0] 3 { Options.none with NO_BLOCK := true } =
        .returned (3, out) stream' events ∧
      (∀ i, i < 3 → out[i]? = some ([1, 2, 3, 4].getD ((1 + i) % 4) 0)) ∧
      stream'.consumer_index = 1 + 3 ∧ stream'.consumer_comitted_index = 1 + 3) ∧
    streambuffer_stream_in 32
        ⟨4, { Options.none with MULTIPLE_READERS := true }, 4, 4, 1, 1, 0, 0, [1, 2, 3, 4]⟩
        [0, 0, 0, 0] 4 { Options.none with NO_BLOCK := true } =
      .returned (0, [0, 0, 0, 0])
        ⟨4, { Options.none with MULTIPLE_READERS := true }, 4, 4, 1, 1, 0, 0, [1, 2, 3, 4]⟩ [] :=
  ⟨(stream_in_exact_all_or_nothing 32 2
      ⟨4, { Options.none with MULTIPLE_READERS := true }, 4, 4, 1, 1, 0, 0, [1, 2, 3, 4]⟩
      [0, 0, 0, 0] 3 { Options.none with NO_BLOCK := true } (by decide) (by decide) rfl rfl
      (by decide)).1 (by decide),
   (stream_in_exact_all_or_nothing 32 2
      ⟨4, { Options.none with MULTIPLE_READERS := true }, 4, 4, 1, 1, 0, 0, [1, 2, 3, 4]⟩
      [0, 0, 0, 0] 4 { Options.none with NO_BLOCK := true } (by decide) (by decide) rfl rfl
      (by decide)).2 (by decide)⟩

/-- C10: on a buffer in a consistent, non-wrapped state with `r > 0` readable bytes, one
`streambuffer_stream_in` call with ALLOW_PARTIAL (blocking or not, into a destination
with room for `length` bytes) returns exactly `min r length`, output byte `i` is the
`i`-th oldest unread byte `storage[(consumer_index + i) mod capacity]` for every
`i < min r length`, and consumer_index and consumer_committed have advanced by
`min r length`. -/
theorem stream_in_partial_single_pass (sz k : Nat) (stream : streambuffer)
    (buffer : List Nat) (length : Nat) (options : Options)
    (hsz : 32 ≤ sz) (hstate : consistent_nonwrapped k stream)
    (hpart : options.ALLOW_PARTIAL = true)
    (hr : 0 < bytes_readable sz stream.capacity stream.consumer_index
      stream.producer_comitted_index)
    (hroom : length ≤ buffer.length) :
    ∃ out stream' events,
      streambuffer_stream_in sz stream buffer length options =
        .returned
          (min (bytes_readable sz stream.capacity stream.consumer_index
            stream.producer_comitted_index) length, out) stream' events ∧
      (∀ i, i < min (bytes_readable sz stream.capacity stream.consumer_index
            stream.producer_comitted_index) length →
        out[i]? =
          some (stream.buffer.getD ((stream.consumer_index + i) % stream.capacity) 0)) ∧
      stream'.consumer_index = stream.consumer_index +
        min (bytes_readable sz stream.capacity stream.consumer_index
          stream.producer_comitted_index) length ∧
      stream'.consumer_comitted_index = stream.consumer_comitted_index +
        min (bytes_readable sz stream.capacity stream.consumer_index
          stream.producer_comitted_index) length := by
  have hrv : bytes_readable sz stream.capacity stream.consumer_index
      stream.producer_comitted_index = stream.producer_index - stream.consumer_index := by
    obtain ⟨_, _, _, hpc, _, hle, _, hpi⟩ := hstate
    rw [hpc]
    exact bytes_readable_of_le hsz hle hpi
  rw [hrv] at hr ⊢
  by_cases h0 : length = 0
  · subst h0
    exact ⟨buffer, stream, [], by rw [Nat.min_zero]; exact stream_in_zero sz stream buffer options,
      fun i hi => absurd hi (by omega), by omega, by omega⟩
  · have hne : (min (stream.producer_index - stream.consumer_index) length != 0) = true := by
      rw [bne_iff_ne]
      omega
    obtain ⟨out, stream', events, hrun, hout, hci, hcc, _⟩ :=
      stream_in_consistent stream buffer length options
        (min (stream.producer_index - stream.consumer_index) length) hsz hstate (by omega) rfl
        (by simp [STREAMBUFFER_CAN_READ, STREAMBUFFER_PARTIAL_OP_SAFE, STREAMBUFFER_PARTIAL_OP,
          hpart, hne])
        hroom
    exact ⟨out, stream', events, hrun, hout, hci, hcc⟩

/-- Witness of C10: capacity 4 holding the two unread bytes 2, 3 at offsets 1 and 2, on a
64-bit `size_t`: a blocking partial read of 3 bytes returns 2 bytes. -/
theorem stream_in_partial_single_pass_witness :
    ∃ out stream' events,
      streambuffer_stream_in 64 ⟨4, Options.none, 3, 3, 1, 1, 0, 0, [1, 2, 3, 4]⟩ [0, 0, 0] 3
          { Options.none with ALLOW_PARTIAL := true } =
        .returned (min (bytes_readable 64 4 1 3) 3, out) stream' events ∧
      (∀ i, i < min (bytes_readable 64 4 1 3) 3 →
        out[i]? = some ([1, 2, 3, 4].getD ((1 + i) % 4) 0)) ∧
      stream'.consumer_index = 1 + min (bytes_readable 64 4 1 3) 3 ∧
      stream'.consumer_comitted_index = 1 + min (bytes_readable 64 4 1 3) 3 :=
  stream_in_partial_single_pass 64 2 ⟨4, Options.none, 3, 3, 1, 1, 0, 0, [1, 2, 3, 4]⟩ [0, 0, 0] 3
    { Options.none with ALLOW_PARTIAL := true } (by decide) (by decide) rfl (by decide)
    (by decide)

/-- C11: two cases inside the claim in which the read after the two writes does not
return the last `C` bytes.  (1) Capacity 16, 4 extra bytes, buffer options
OVERWRITE_ENABLED and MULTIPLE_READERS: the write of 16 bytes into the fresh buffer
returns 16, and the write of 4 more bytes never returns: `streambuffer_try_truncate`
advances consumer_index to 4 and busy-waits for consumer_committed to reach `0 - 4`,
with a 32-bit and with a 64-bit `size_t`.  (2) Capacity `C = 2^31` and `2^31` extra
bytes, buffer options OVERWRITE_ENABLED alone, any `size_t` of at least 32 bits, any
bytes written: both writes return `2^31`; the producer cursors have then wrapped to 0,
the consumer cursors stand at `2^31`, the storage holds the second `2^31` bytes,
`bytes_readable` is `2^31 - 1`, and `streambuffer_stream_in` of `2^31` bytes with
NO_BLOCK (and without ALLOW_PARTIAL) returns 0 and hands back nothing. -/
theorem overwrite_read_back_fails (sz fuel : Nat) (memory : streambuffer)
    (options1 options2 options3 : Options) (first second destination : List Nat)
    (hsz : 32 ≤ sz) (hmem : memory.buffer.length = 2 ^ 31)
    (hsecond : second.length = 2 ^ 31)
    (hnb : options3.NO_BLOCK = true) (hnp : options3.ALLOW_PARTIAL = false) :
    (streambuffer_stream_out 32 2
          (streambuffer_construct ⟨0, Options.none, 0, 0, 0, 0, 0, 0, List.replicate 16 9⟩ 16
            { Options.none with OVERWRITE_ENABLED := true, MULTIPLE_READERS := true })
          (List.range 16) 16 Options.none =
        .returned 16
          ⟨16, { Options.none with OVERWRITE_ENABLED := true, MULTIPLE_READERS := true },
            16, 16, 0, 0, 0, 0, List.range 16⟩ [] ∧
      streambuffer_stream_out 32 3
          ⟨16, { Options.none with OVERWRITE_ENABLED := true, MULTIPLE_READERS := true },
            16, 16, 0, 0, 0, 0, List.range 16⟩ [100, 101, 102, 103] 4 Options.none =
        .spinning
          ⟨16, { Options.none with OVERWRITE_ENABLED := true, MULTIPLE_READERS := true },
            16, 16, 4, 0, 0, 0, List.range 16⟩ [] ∧
      streambuffer_stream_out 64 2
          (streambuffer_construct ⟨0, Options.none, 0, 0, 0, 0, 0, 0, List.replicate 16 9⟩ 16
            { Options.none with OVERWRITE_ENABLED := true, MULTIPLE_READERS := true })
          (List.range 16) 16 Options.none =
        .returned 16
          ⟨16, { Options.none with OVERWRITE_ENABLED := true, MULTIPLE_READERS := true },
            16, 16, 0, 0, 0, 0, List.range 16⟩ [] ∧
      streambuffer_stream_out 64 3
          ⟨16, { Options.none with OVERWRITE_ENABLED := true, MULTIPLE_READERS := true },
            16, 16, 0, 0, 0, 0, List.range 16⟩ [100, 101, 102, 103] 4 Options.none =
        .spinning
          ⟨16, { Options.none with OVERWRITE_ENABLED := true, MULTIPLE_READERS := true },
            16, 16, 4, 0, 0, 0, List.range 16⟩ []) ∧
    ∃ stream1 stream2,
      streambuffer_stream_out sz (fuel + 2)
          (streambuffer_construct memory (2 ^ 31)
            { Options.none with OVERWRITE_ENABLED := true }) first (2 ^ 31) options1 =
        .returned (2 ^ 31) stream1 [] ∧
      streambuffer_stream_out sz (fuel + 3) stream1 second (2 ^ 31) options2 =
        .returned (2 ^ 31) stream2 [] ∧
      stream2.capacity = 2 ^ 31 ∧
      stream2.producer_index = 0 ∧ stream2.producer_comitted_index = 0 ∧
      stream2.consumer_index = 2 ^ 31 ∧ stream2.consumer_comitted_index = 2 ^ 31 ∧
      ring_bytes 31 stream2.buffer stream2.consumer_index (2 ^ 31) = second ∧
      bytes_readable sz stream2.capacity stream2.consumer_index
        stream2.producer_comitted_index = 2 ^ 31 - 1 ∧
      streambuffer_stream_in sz stream2 destination (2 ^ 31) options3 =
        .returned (0, destination) stream2 [] :=
  ⟨by decide,
    overwrite_at_largest_capacity sz 31 fuel memory
      { Options.none with OVERWRITE_ENABLED := true } options1 options2 options3 first second
      destination hsz (by norm_num) hmem rfl rfl rfl hsecond hnb hnp⟩

/-- Witness of C11: a 32-bit `size_t`, memory and caller buffers of `2^31` bytes. -/
theorem overwrite_read_back_fails_witness :
    32 ≤ 32 ∧
    (⟨0, Options.none, 0, 0, 0, 0, 0, 0, List.replicate (2 ^ 31) 9⟩ :
      streambuffer).buffer.length = 2 ^ 31 ∧
    (List.replicate (2 ^ 31) 2).length = 2 ^ 31 ∧
    ∃ stream1 stream2,
      streambuffer_stream_out 32 (0 + 2)
          (streambuffer_construct
            ⟨0, Options.none, 0, 0, 0, 0, 0, 0, List.replicate (2 ^ 31) 9⟩ (2 ^ 31)
            { Options.none with OVERWRITE_ENABLED := true })
          (List.replicate (2 ^ 31) 1) (2 ^ 31) Options.none =
        .returned (2 ^ 31) stream1 [] ∧
      streambuffer_stream_out 32 (0 + 3) stream1 (List.replicate (2 ^ 31) 2) (2 ^ 31)
          Options.none =
        .returned (2 ^ 31) stream2 [] ∧
      stream2.capacity = 2 ^ 31 ∧
      stream2.producer_index = 0 ∧ stream2.producer_comitted_index = 0 ∧
      stream2.consumer_index = 2 ^ 31 ∧ stream2.consumer_comitted_index = 2 ^ 31 ∧
      ring_bytes 31 stream2.buffer stream2.consumer_index (2 ^ 31) =
        List.replicate (2 ^ 31) 2 ∧
      bytes_readable 32 stream2.capacity stream2.consumer_index
        stream2.producer_comitted_index = 2 ^ 31 - 1 ∧
      streambuffer_stream_in 32 stream2 (List.replicate (2 ^ 31) 0) (2 ^ 31)
          { Options.none with NO_BLOCK := true } =
        .returned (0, List.replicate (2 ^ 31) 0) stream2 [] :=
  ⟨Nat.le_refl 32, List.length_replicate _ _, List.length_replicate _ _,
    (overwrite_read_back_fails 32 0
      ⟨0, Options.none, 0, 0, 0, 0, 0, 0, List.replicate (2 ^ 31) 9⟩
      Options.none Options.none { Options.none with NO_BLOCK := true }
      (List.replicate (2 ^ 31) 1) (List.replicate (2 ^ 31) 2) (List.replicate (2 ^ 31) 0)
      (Nat.le_refl 32) (List.length_replicate _ _) (List.length_replicate _ _) rfl rfl).2⟩

/-- C12: on a buffer without OVERWRITE_ENABLED (capacity 4, two unread bytes, cursors
2/2/0/0) a `streambuffer_stream_out` of 3 bytes with ALLOW_PARTIAL and NO_BLOCK returns
3 and leaves consumer_index = consumer_committed = 2: the two unread bytes were
discarded by the producer, with a 32-bit and with a 64-bit `size_t`. -/
theorem stream_out_partial_discards_unread :
    streambuffer_stream_out 32 3 ⟨4, Options.none, 2, 2, 0, 0, 0, 0, [1, 2, 0, 0]⟩ [5, 6, 7] 3
        { Options.none with ALLOW_PARTIAL := true, NO_BLOCK := true } =
      .returned 3 ⟨4, Options.none, 5, 5, 2, 2, 0, 0, [7, 2, 5, 6]⟩ [] ∧
    streambuffer_stream_out 64 3 ⟨4, Options.none, 2, 2, 0, 0, 0, 0, [1, 2, 0, 0]⟩ [5, 6, 7] 3
        { Options.none with ALLOW_PARTIAL := true, NO_BLOCK := true } =
      .returned 3 ⟨4, Options.none, 5, 5, 2, 2, 0, 0, [7, 2, 5, 6]⟩ [] := by
  decide

/-- C13: a fresh (consistent) buffer of capacity 16 with OVERWRITE_ENABLED, asked to write
17 bytes with NO_BLOCK, never returns: whatever the fuel, the retry loop is still
running when it is used up, with a 32-bit and with a 64-bit `size_t`. -/
theorem stream_out_noblock_never_returns (fuel : Nat) :
    streambuffer_stream_out 32 fuel
        (streambuffer_construct ⟨0, Options.none, 0, 0, 0, 0, 0, 0, List.replicate 16 0⟩ 16
          { Options.none with OVERWRITE_ENABLED := true }) (List.range 17) 17
        { Options.none with NO_BLOCK := true } = .out_of_fuel ∧
    streambuffer_stream_out 64 fuel
        (streambuffer_construct ⟨0, Options.none, 0, 0, 0, 0, 0, 0, List.replicate 16 0⟩ 16
          { Options.none with OVERWRITE_ENABLED := true }) (List.range 17) 17
        { Options.none with NO_BLOCK := true } = .out_of_fuel := by
  unfold streambuffer_stream_out
  induction fuel with
  | zero => exact ⟨rfl, rfl⟩
  | succ fuel ih =>
    rw [stream_out_overwrite_loop_step 32 (Or.inl rfl),
      stream_out_overwrite_loop_step 64 (Or.inr rfl)]
    exact ih

/-- C14: write one packet of payload length 0 into a fresh buffer of capacity 16 (32-bit
`size_t`, zeroed memory): `streambuffer_write_packet_start` and
`streambuffer_write_packet_end` succeed and leave the cursors at 4/4/0/0.  On that
state `streambuffer_read_packet_start` with NO_BLOCK and PEEK never returns: whatever
the fuel, its loop is still running when it is used up. -/
theorem read_packet_start_peek_never_returns (fuel : Nat) :
    streambuffer_write_packet_start 32 2
        (streambuffer_construct ⟨0, Options.none, 0, 0, 0, 0, 0, 0, List.replicate 16 0⟩ 16
          Options.none) 0 { Options.none with NO_BLOCK := true } 0 0 =
      .returned (4, 4, 4) ⟨16, Options.none, 4, 0, 0, 0, 0, 0, List.replicate 16 0⟩ [] ∧
    streambuffer_write_packet_end 32
        ⟨16, Options.none, 4, 0, 0, 0, 0, 0, List.replicate 16 0⟩ 4 0 =
      .returned () ⟨16, Options.none, 4, 4, 0, 0, 0, 0, List.replicate 16 0⟩ [] ∧
    streambuffer_read_packet_start 32 fuel
        ⟨16, Options.none, 4, 4, 0, 0, 0, 0, List.replicate 16 0⟩
        { Options.none with NO_BLOCK := true, PEEK := true } 0 0 = .out_of_fuel :=
  ⟨by decide, by decide, read_packet_peek_empty_loop fuel 0 0⟩

/-- C15: an empty buffer of capacity 16 with all four cursors at 4294967292 (`2^32 - 4`)
is consistent and non-wrapped and has 16 bytes writable.  The packet with the one-byte
payload `[7]` is written with `streambuffer_write_packet_start`,
`streambuffer_write_packet_data` and `streambuffer_write_packet_end`; the producer
cursors wrap to 1 (to 5 with a 64-bit `size_t`, whose header has 8 bytes).  A
`streambuffer_read_packet_start` without PEEK does not return the length 1: it finds
`bytes_readable` one short of the packet (4 < 5, resp. 8 < 9) and with NO_BLOCK returns
0, without NO_BLOCK it suspends. -/
theorem packet_round_trip_fails_at_wrap :
    consistent_nonwrapped 4
      ⟨16, Options.none, 4294967292, 4294967292, 4294967292, 4294967292, 0, 0,
        List.replicate 16 0⟩ ∧
    1 + sizeof_size_t 32 ≤ bytes_writable 32 16 4294967292 4294967292 ∧
    write_packet 32 2
        ⟨16, Options.none, 4294967292, 4294967292, 4294967292, 4294967292, 0, 0,
          List.replicate 16 0⟩ [7] Options.none =
      some ⟨16, Options.none, 1, 1, 4294967292, 4294967292, 0, 0,
        [7, 0, 0, 0, 0, 0, 0, 0, 0, 0, 0, 0, 1, 0, 0, 0]⟩ ∧
    bytes_readable 32 16 4294967292 1 = 4 ∧
    streambuffer_read_packet_start 32 2
        ⟨16, Options.none, 1, 1, 4294967292, 4294967292, 0, 0,
          [7, 0, 0, 0, 0, 0, 0, 0, 0, 0, 0, 0, 1, 0, 0, 0]⟩
        { Options.none with NO_BLOCK := true } 0 0 =
      .returned (0, 0, 0)
        ⟨16, Options.none, 1, 1, 4294967292, 4294967292, 0, 0,
          [7, 0, 0, 0, 0, 0, 0, 0, 0, 0, 0, 0, 1, 0, 0, 0]⟩ [] ∧
    streambuffer_read_packet_start 32 2
        ⟨16, Options.none, 1, 1, 4294967292, 4294967292, 0, 0,
          [7, 0, 0, 0, 0, 0, 0, 0, 0, 0, 0, 0, 1, 0, 0, 0]⟩ Options.none 0 0 =
      .suspended
        ⟨16, Options.none, 1, 1, 4294967292, 4294967292, 0, 1,
          [7, 0, 0, 0, 0, 0, 0, 0, 0, 0, 0, 0, 1, 0, 0, 0]⟩
        [.Syscall_FutexWait .producer_comitted_index 1 true] ∧
    1 + sizeof_size_t 64 ≤ bytes_writable 64 16 4294967292 4294967292 ∧
    write_packet 64 2
        ⟨16, Options.none, 4294967292, 4294967292, 4294967292, 4294967292, 0, 0,
          List.replicate 16 0⟩ [7] Options.none =
      some ⟨16, Options.none, 5, 5, 4294967292, 4294967292, 0, 0,
        [0, 0, 0, 0, 7, 0, 0, 0, 0, 0, 0, 0, 1, 0, 0, 0]⟩ ∧
    bytes_readable 64 16 4294967292 5 = 8 ∧
    streambuffer_read_packet_start 64 2
        ⟨16, Options.none, 5, 5, 4294967292, 4294967292, 0, 0,
          [0, 0, 0, 0, 7, 0, 0, 0, 0, 0, 0, 0, 1, 0, 0, 0]⟩
        { Options.none with NO_BLOCK := true } 0 0 =
      .returned (0, 0, 0)
        ⟨16, Options.none, 5, 5, 4294967292, 4294967292, 0, 0,
          [0, 0, 0, 0, 7, 0, 0, 0, 0, 0, 0, 0, 1, 0, 0, 0]⟩ [] := by
  decide

/-- C16: on a consistent, non-wrapped buffer `streambuffer_write_packet_start` claims a
frame of `length + sizeof(header)` bytes; after it and after any run of
`streambuffer_write_packet_data` calls within the claimed range, producer_committed is
what it was, so is `bytes_readable`, a NO_BLOCK `streambuffer_stream_in` returns the same
count and bytes as before the start, and a NO_BLOCK `streambuffer_read_packet_start`
returns the same as before (0 on a buffer without unread data, the oldest packet
otherwise).  `streambuffer_write_packet_end` then advances producer_committed by exactly
`length + sizeof(header)` in one step and changes no other cursor and no storage. -/
theorem partial_packet_not_visible (sz k fuel : Nat) (stream : streambuffer) (length : Nat)
    (chunks : List (List Nat)) (payload destination : List Nat) (read_length : Nat)
    (options read_options : Options) (base_out state_out read_base read_state : Nat)
    (hsz : sz = 32 ∨ sz = 64) (hstate : consistent_nonwrapped k stream)
    (hfit : length + sizeof_size_t sz ≤
      bytes_writable sz stream.capacity stream.consumer_comitted_index
        stream.producer_index)
    (hchunks : chunks_length chunks ≤ length) (hnb : read_options.NO_BLOCK = true) :
    ∃ started base filled committed events,
      streambuffer_write_packet_start sz (fuel + 2) stream length options base_out state_out =
        .returned (length + sizeof_size_t sz, base, base) started [] ∧
      filled = (write_packet_chunks sz started base chunks).1 ∧
      started.producer_comitted_index = stream.producer_comitted_index ∧
      filled.producer_comitted_index = stream.producer_comitted_index ∧
      bytes_readable sz filled.capacity filled.consumer_index filled.producer_comitted_index =
        bytes_readable sz stream.capacity stream.consumer_index
          stream.producer_comitted_index ∧
      (∃ value after after' read_events,
        streambuffer_stream_in sz stream destination read_length read_options =
          .returned value after read_events ∧
        streambuffer_stream_in sz filled destination read_length read_options =
          .returned value after' read_events) ∧
      (stream.consumer_index = stream.producer_comitted_index →
        streambuffer_read_packet_start sz (fuel + 2) stream read_options read_base
            read_state = .returned (0, read_base, read_state) stream [] ∧
        streambuffer_read_packet_start sz (fuel + 2) filled read_options read_base
            read_state = .returned (0, read_base, read_state) filled []) ∧
      (oldest_packet sz k stream payload → 1 ≤ payload.length →
        ∃ after after',
          streambuffer_read_packet_start sz (fuel + 2) stream read_options read_base
              read_state =
            .returned
              (payload.length, stream.consumer_index + sizeof_size_t sz,
                stream.consumer_index + sizeof_size_t sz) after [] ∧
          streambuffer_read_packet_start sz (fuel + 2) filled read_options read_base
              read_state =
            .returned
              (payload.length, stream.consumer_index + sizeof_size_t sz,
                stream.consumer_index + sizeof_size_t sz) after' []) ∧
      streambuffer_write_packet_end sz filled base length = .returned () committed events ∧
      committed.producer_comitted_index =
        (stream.producer_comitted_index + (length + sizeof_size_t sz)) % 4294967296 ∧
      committed.producer_index = filled.producer_index ∧
      committed.consumer_index = stream.consumer_index ∧
      committed.consumer_comitted_index = stream.consumer_comitted_index ∧
      committed.buffer = filled.buffer := by
  have h32 := le_of_size_cases hsz
  have h3 := uint_mod_le_two_pow h32
  have hw := bytes_writable_consistent h32 stream hstate
  obtain ⟨c1, c2, c3, c4, c5, c6, c7, c8, c9, c10⟩ :=
    packet_under_construction hsz stream length chunks hstate hfit hchunks
  have hstate' := hstate
  obtain ⟨hk, hcap, hlen, hpc, hcc, hle, hfl, hpi⟩ := hstate
  unfold UINT_MOD at hpi
  have h2 := two_pow_le_of_lt_32 hk
  have hadd : size_add sz length (sizeof_size_t sz) = length + sizeof_size_t sz :=
    size_add_of_lt (by omega)
  have hstart := write_packet_start_fits sz fuel stream length options base_out state_out hpi
    (by
      have hH : 4 ≤ sizeof_size_t sz := by unfold sizeof_size_t; omega
      rw [hadd]; omega)
    (by rw [hadd]; exact hfit)
  rw [hadd] at hstart
  refine ⟨write_packet_claimed sz stream length (length + sizeof_size_t sz),
    (stream.producer_index + sizeof_size_t sz) % 4294967296,
    (write_packet_chunks sz
        (write_packet_claimed sz stream length (length + sizeof_size_t sz))
        ((stream.producer_index + sizeof_size_t sz) % 4294967296) chunks).1,
    write_packet_committed sz
      (write_packet_chunks sz
        (write_packet_claimed sz stream length (length + sizeof_size_t sz))
        ((stream.producer_index + sizeof_size_t sz) % 4294967296) chunks).1 length,
    wake_events .producer_comitted_index
      (write_packet_chunks sz
        (write_packet_claimed sz stream length (length + sizeof_size_t sz))
        ((stream.producer_index + sizeof_size_t sz) % 4294967296) chunks).1.consumer_count
      (write_packet_chunks sz
        (write_packet_claimed sz stream length (length + sizeof_size_t sz))
        ((stream.producer_index + sizeof_size_t sz) % 4294967296) chunks).1, ?_⟩
  refine ⟨hstart, rfl, rfl, c4, by rw [c1, c5, c4], ?_, ?_, ?_, ?_, ?_, rfl, c5, c6, rfl⟩
  · exact stream_in_same_view h32 stream _ destination read_length read_options hstate' hnb
      c1 c2 c5 c6 c4 c7 (c10 _ (Nat.le_refl _))
  · intro hempty
    exact ⟨read_packet_start_empty sz (fuel + 1) stream read_options read_base read_state h32
        hnb hempty,
      read_packet_start_empty sz (fuel + 1) _ read_options read_base read_state h32 hnb
        (by rw [c5, c4]; exact hempty)⟩
  · intro hpacket hpos
    obtain ⟨_, _, _, ple, ppc, pfit, pring⟩ := hpacket
    have hpacket' : oldest_packet sz k
        (write_packet_chunks sz
          (write_packet_claimed sz stream length (length + sizeof_size_t sz))
          ((stream.producer_index + sizeof_size_t sz) % 4294967296) chunks).1 payload :=
      ⟨hk, by rw [c1]; exact hcap, c9, by rw [c5, c4]; exact ple, by rw [c4]; exact ppc,
        by rw [c5, c4]; exact pfit, by rw [c5, c10 _ pfit]; exact pring⟩
    have hread' := read_packet_start_oldest fuel _ payload read_options read_base read_state
      hsz hpacket' hpos
    rw [c5] at hread'
    exact ⟨_, _,
      read_packet_start_oldest fuel stream payload read_options read_base read_state hsz
        ⟨hk, hcap, hlen, ple, ppc, pfit, pring⟩ hpos, hread'⟩
  · apply write_packet_end_ok
    apply and_decide_lt_eq_false
    unfold UINT_MOD
    rw [packet_claim_start hsz _ hpi, c4, hpc]
  · simp only [write_packet_committed, UINT_MOD]
    rw [c4, hadd]

/-- Witness of C16: an empty buffer of capacity 16 (32-bit `size_t`), a packet of payload
length 3 whose first two bytes have been written in two data calls. -/
theorem partial_packet_not_visible_witness :
    ∃ started base filled committed events,
      streambuffer_write_packet_start 32 (0 + 2)
          ⟨16, Options.none, 0, 0, 0, 0, 0, 0, List.replicate 16 0⟩ 3 Options.none 0 0 =
        .returned (3 + sizeof_size_t 32, base, base) started [] ∧
      filled = (write_packet_chunks 32 started base [[1], [2]]).1 ∧
      filled.producer_comitted_index = 0 ∧
      streambuffer_read_packet_start 32 (0 + 2) filled { Options.none with NO_BLOCK := true }
          7 8 = .returned (0, 7, 8) filled [] ∧
      streambuffer_write_packet_end 32 filled base 3 = .returned () committed events ∧
      committed.producer_comitted_index = (0 + (3 + sizeof_size_t 32)) % 4294967296 := by
  obtain ⟨started, base, filled, committed, events, h1, h2, _, h4, _, _, h7, _, h9, h10, _⟩ :=
    partial_packet_not_visible 32 4 0 ⟨16, Options.none, 0, 0, 0, 0, 0, 0, List.replicate 16 0⟩
      3 [[1], [2]] [] [] 0 Options.none { Options.none with NO_BLOCK := true } 0 0 7 8
      (by decide) (by decide) (by decide) (by decide) rfl
  exact ⟨started, base, filled, committed, events, h1, h2, h4, (h7 rfl).2, h9, h10⟩

/-- C17: in a buffer of capacity 16 the oldest (and only) unread data is the complete,
committed packet with the payload `[7, 8]`, written by the three packet write calls
into the empty buffer with all cursors at 4294967292 (`2^32 - 4`): consumer_index =
consumer_committed = 4294967292, producer_index = producer_committed = 2, header bytes
2, 0, 0, 0 at offsets 12 to 15 and payload at offsets 0 and 1 (with a 64-bit `size_t`:
producer cursors 6, header of 8 bytes, payload at offsets 4 and 5).
`streambuffer_read_packet_start` with PEEK does not return the length 2: it finds
`bytes_readable` one short of the packet (5 < 6, resp. 9 < 10) and with NO_BLOCK
returns 0, without NO_BLOCK it suspends. -/
theorem read_packet_peek_fails_at_wrap :
    write_packet 32 2
        ⟨16, Options.none, 4294967292, 4294967292, 4294967292, 4294967292, 0, 0,
          List.replicate 16 0⟩ [7, 8] Options.none =
      some ⟨16, Options.none, 2, 2, 4294967292, 4294967292, 0, 0,
        [7, 8, 0, 0, 0, 0, 0, 0, 0, 0, 0, 0, 2, 0, 0, 0]⟩ ∧
    cursor_distance 4294967292 2 = sizeof_size_t 32 + 2 ∧
    ring_bytes 4 [7, 8, 0, 0, 0, 0, 0, 0, 0, 0, 0, 0, 2, 0, 0, 0] 4294967292
        (sizeof_size_t 32 + 2) = size_t_bytes 32 2 ++ [7, 8] ∧
    bytes_readable 32 16 4294967292 2 = 5 ∧
    streambuffer_read_packet_start 32 2
        ⟨16, Options.none, 2, 2, 4294967292, 4294967292, 0, 0,
          [7, 8, 0, 0, 0, 0, 0, 0, 0, 0, 0, 0, 2, 0, 0, 0]⟩
        { Options.none with NO_BLOCK := true, PEEK := true } 0 0 =
      .returned (0, 0, 0)
        ⟨16, Options.none, 2, 2, 4294967292, 4294967292, 0, 0,
          [7, 8, 0, 0, 0, 0, 0, 0, 0, 0, 0, 0, 2, 0, 0, 0]⟩ [] ∧
    streambuffer_read_packet_start 32 2
        ⟨16, Options.none, 2, 2, 4294967292, 4294967292, 0, 0,
          [7, 8, 0, 0, 0, 0, 0, 0, 0, 0, 0, 0, 2, 0, 0, 0]⟩
        { Options.none with PEEK := true } 0 0 =
      .suspended
        ⟨16, Options.none, 2, 2, 4294967292, 4294967292, 0, 1,
          [7, 8, 0, 0, 0, 0, 0, 0, 0, 0, 0, 0, 2, 0, 0, 0]⟩
        [.Syscall_FutexWait .producer_comitted_index 2 true] ∧
    write_packet 64 2
        ⟨16, Options.none, 4294967292, 4294967292, 4294967292, 4294967292, 0, 0,
          List.replicate 16 0⟩ [7, 8] Options.none =
      some ⟨16, Options.none, 6, 6, 4294967292, 4294967292, 0, 0,
        [0, 0, 0, 0, 7, 8, 0, 0, 0, 0, 0, 0, 2, 0, 0, 0]⟩ ∧
    cursor_distance 4294967292 6 = sizeof_size_t 64 + 2 ∧
    ring_bytes 4 [0, 0, 0, 0, 7, 8, 0, 0, 0, 0, 0, 0, 2, 0, 0, 0] 4294967292
        (sizeof_size_t 64 + 2) = size_t_bytes 64 2 ++ [7, 8] ∧
    bytes_readable 64 16 4294967292 6 = 9 ∧
    streambuffer_read_packet_start 64 2
        ⟨16, Options.none, 6, 6, 4294967292, 4294967292, 0, 0,
          [0, 0, 0, 0, 7, 8, 0, 0, 0, 0, 0, 0, 2, 0, 0, 0]⟩
        { Options.none with NO_BLOCK := true, PEEK := true } 0 0 =
      .returned (0, 0, 0)
        ⟨16, Options.none, 6, 6, 4294967292, 4294967292, 0, 0,
          [0, 0, 0, 0, 7, 8, 0, 0, 0, 0, 0, 0, 2, 0, 0, 0]⟩ [] := by
  decide

/-- C18: `streambuffer_write_packet_start` with NO_BLOCK, for a request whose size
`length + sizeof(header)` does not overflow `size_t`.  When `bytes_writable` is less than
that size it returns 0 and changes nothing: the stream (cursors, waiter counters,
storage), `*base_out` and `*state_out` are as before and no futex call is made.  When
`bytes_writable` is at least that size it returns the non-zero size, producer_index has
advanced by exactly `length + sizeof(header)` (as a 32-bit cursor), `*base_out` and
`*state_out` are the old producer_index plus `sizeof(header)`, and the other cursors
and the waiter counters are unchanged. -/
theorem write_packet_start_noblock (sz fuel : Nat) (stream : streambuffer) (length : Nat)
    (options : Options) (base_out state_out : Nat)
    (hsz : 32 ≤ sz) (hnb : options.NO_BLOCK = true)
    (hpi : stream.producer_index < 4294967296)
    (hover : length + sizeof_size_t sz < 2 ^ sz) :
    (bytes_writable sz stream.capacity stream.consumer_comitted_index stream.producer_index <
        length + sizeof_size_t sz →
      streambuffer_write_packet_start sz (fuel + 2) stream length options base_out state_out =
        .returned (0, base_out, state_out) stream []) ∧
    (length + sizeof_size_t sz ≤
        bytes_writable sz stream.capacity stream.consumer_comitted_index
          stream.producer_index →
      ∃ stream',
        streambuffer_write_packet_start sz (fuel + 2) stream length options base_out
            state_out =
          .returned
            (length + sizeof_size_t sz,
              (stream.producer_index + sizeof_size_t sz) % 4294967296,
              (stream.producer_index + sizeof_size_t sz) % 4294967296) stream' [] ∧
        length + sizeof_size_t sz ≠ 0 ∧
        stream'.producer_index =
          (stream.producer_index + (length + sizeof_size_t sz)) % 4294967296 ∧
        stream'.producer_comitted_index = stream.producer_comitted_index ∧
        stream'.consumer_index = stream.consumer_index ∧
        stream'.consumer_comitted_index = stream.consumer_comitted_index ∧
        stream'.producer_count = stream.producer_count ∧
        stream'.consumer_count = stream.consumer_count) := by
  have hadd : size_add sz length (sizeof_size_t sz) = length + sizeof_size_t sz :=
    size_add_of_lt hover
  have hH : 4 ≤ sizeof_size_t sz := by unfold sizeof_size_t; omega
  constructor
  · intro hw
    exact write_packet_start_fail sz (fuel + 1) stream length options base_out state_out hnb
      (by rw [hadd]; exact hw)
  · intro hw
    refine ⟨write_packet_claimed sz stream length (length + sizeof_size_t sz), ?_, by omega,
      rfl, rfl, rfl, rfl, rfl, rfl⟩
    have := write_packet_start_fits sz fuel stream length options base_out state_out hpi
      (by rw [hadd]; omega) (by rw [hadd]; exact hw)
    rw [hadd] at this
    exact this

/-- Witness of C18: capacity 16 holding 10 unread bytes, 64-bit `size_t` (header of 8
bytes): a packet of payload length 1 does not fit, and on the empty buffer a packet of
payload length 3 is claimed. -/
theorem write_packet_start_noblock_witness :
    streambuffer_write_packet_start 64 (0 + 2)
        ⟨16, Options.none, 10, 10, 0, 0, 0, 0, List.replicate 16 7⟩ 1
        { Options.none with NO_BLOCK := true } 77 78 =
      .returned (0, 77, 78) ⟨16, Options.none, 10, 10, 0, 0, 0, 0, List.replicate 16 7⟩ [] ∧
    ∃ stream',
      streambuffer_write_packet_start 64 (0 + 2)
          ⟨16, Options.none, 10, 10, 10, 10, 0, 0, List.replicate 16 7⟩ 3
          { Options.none with NO_BLOCK := true } 77 78 =
        .returned (3 + sizeof_size_t 64, (10 + sizeof_size_t 64) % 4294967296,
          (10 + sizeof_size_t 64) % 4294967296) stream' [] ∧
      3 + sizeof_size_t 64 ≠ 0 ∧
      stream'.producer_index = (10 + (3 + sizeof_size_t 64)) % 4294967296 ∧
      stream'.producer_comitted_index = 10 ∧
      stream'.consumer_index = 10 ∧
      stream'.consumer_comitted_index = 10 ∧
      stream'.producer_count = 0 ∧
      stream'.consumer_count = 0 :=
  ⟨(write_packet_start_noblock 64 0 ⟨16, Options.none, 10, 10, 0, 0, 0, 0, List.replicate 16 7⟩
      1 { Options.none with NO_BLOCK := true } 77 78 (by decide) rfl (by decide)
      (by decide)).1 (by decide),
   (write_packet_start_noblock 64 0 ⟨16, Options.none, 10, 10, 10, 10, 0, 0, List.replicate 16 7⟩
      3 { Options.none with NO_BLOCK := true } 77 78 (by decide) rfl (by decide)
      (by decide)).2 (by decide)⟩

/-- C19: a `streambuffer_write_packet_start(length)` that succeeds on a consistent,
non-wrapped buffer with producer_index `s` leaves, in the `sizeof(size_t)` storage bytes
at positions `(s + i) mod capacity`, the object representation of the payload length
(`length` itself, the header size not included: decoding those bytes gives `length`), and
returns base = state = `s + sizeof(size_t)`; `streambuffer_write_packet_data` from that
state puts the payload at the positions from `(s + sizeof(size_t)) mod capacity` on and
leaves the header bytes in place.  A `streambuffer_read_packet_start` that finds a
packet as the oldest unread data returns the value decoded from the `sizeof(size_t)`
bytes at consumer_index. -/
theorem packet_header_layout (sz k fuel : Nat) (stream reader : streambuffer)
    (payload : List Nat) (options read_options : Options)
    (base_out state_out read_base read_state : Nat)
    (hsz : sz = 32 ∨ sz = 64) (hstate : consistent_nonwrapped k stream)
    (hfit : payload.length + sizeof_size_t sz ≤
      bytes_writable sz stream.capacity stream.consumer_comitted_index
        stream.producer_index)
    (hreader : oldest_packet sz k reader payload) (hpos : 1 ≤ payload.length) :
    (∃ started,
      streambuffer_write_packet_start sz (fuel + 2) stream payload.length options base_out
          state_out =
        .returned
          (payload.length + sizeof_size_t sz,
            (stream.producer_index + sizeof_size_t sz) % 4294967296,
            (stream.producer_index + sizeof_size_t sz) % 4294967296) started [] ∧
      ring_bytes k started.buffer stream.producer_index (sizeof_size_t sz) =
        size_t_bytes sz payload.length ∧
      size_t_of_bytes (ring_bytes k started.buffer stream.producer_index (sizeof_size_t sz)) =
        payload.length ∧
      ring_bytes k
          (streambuffer_write_packet_data sz started payload payload.length
            ((stream.producer_index + sizeof_size_t sz) % 4294967296)).1.buffer
          stream.producer_index (sizeof_size_t sz) =
        size_t_bytes sz payload.length ∧
      ring_bytes k
          (streambuffer_write_packet_data sz started payload payload.length
            ((stream.producer_index + sizeof_size_t sz) % 4294967296)).1.buffer
          (stream.producer_index + sizeof_size_t sz) payload.length =
        payload) ∧
    ∃ claimed,
      streambuffer_read_packet_start sz (fuel + 2) reader read_options read_base read_state =
        .returned
          (size_t_of_bytes
              (ring_bytes k reader.buffer reader.consumer_index (sizeof_size_t sz)),
            reader.consumer_index + sizeof_size_t sz,
            reader.consumer_index + sizeof_size_t sz) claimed [] := by
  have h32 := le_of_size_cases hsz
  have h3 := uint_mod_le_two_pow h32
  have hw := bytes_writable_consistent h32 stream hstate
  constructor
  · obtain ⟨hk, hcap, hlen, hpc, hcc, hle, hfl, hpi⟩ := hstate
    unfold UINT_MOD at hpi
    have h2 := two_pow_le_of_lt_32 hk
    have hH : 4 ≤ sizeof_size_t sz := by unfold sizeof_size_t; omega
    have hadd : size_add sz payload.length (sizeof_size_t sz) =
        payload.length + sizeof_size_t sz := size_add_of_lt (by omega)
    have hstart := write_packet_start_fits sz fuel stream payload.length options base_out
      state_out hpi (by rw [hadd]; omega) (by rw [hadd]; exact hfit)
    rw [hadd] at hstart
    have hhl : (size_t_bytes sz payload.length).length = sizeof_size_t sz :=
      size_t_bytes_length _ _
    have hheader : ring_bytes k
        (write_packet_claimed sz stream payload.length
          (payload.length + sizeof_size_t sz)).buffer stream.producer_index
        (sizeof_size_t sz) = size_t_bytes sz payload.length := by
      simp only [write_packet_claimed]
      rw [hcap]
      have := ring_bytes_write_loop h32 hk (size_t_bytes sz payload.length) stream.buffer
        stream.producer_index (by rw [hhl]; omega) hlen
      rw [hhl] at this
      exact this
    have hl1 : (write_packet_claimed sz stream payload.length
        (payload.length + sizeof_size_t sz)).buffer.length = 2 ^ k := by
      simp only [write_packet_claimed]
      rw [write_loop_length]
      exact hlen
    have hbuf : (streambuffer_write_packet_data sz
        (write_packet_claimed sz stream payload.length (payload.length + sizeof_size_t sz))
        payload payload.length
        ((stream.producer_index + sizeof_size_t sz) % 4294967296)).1.buffer =
        (write_loop sz (2 ^ k) payload payload.length
          (write_packet_claimed sz stream payload.length
            (payload.length + sizeof_size_t sz)).buffer
          (stream.producer_index + sizeof_size_t sz) 0).1 := by
      simp only [streambuffer_write_packet_data]
      rw [show (write_packet_claimed sz stream payload.length
        (payload.length + sizeof_size_t sz)).capacity = 2 ^ k from hcap,
        write_loop_mod_uint h32 hk]
    refine ⟨_, hstart, hheader, ?_, ?_, ?_⟩
    · rw [hheader, size_t_of_size_t_bytes hsz (by omega)]
    · rw [hbuf, ring_bytes_write_loop_before h32 hk _ _ _ _ _ _ (by omega) (by omega)]
      exact hheader
    · rw [hbuf]
      exact ring_bytes_write_loop h32 hk _ _ _ (by omega) hl1
  · have hparts := (oldest_packet_parts hreader).1
    have hlt : payload.length < 2 ^ sz := by
      obtain ⟨_, _, _, _, ppc, pfit, _⟩ := hreader
      unfold UINT_MOD at ppc
      omega
    rw [hparts, size_t_of_size_t_bytes hsz hlt]
    exact ⟨_, read_packet_start_oldest fuel reader payload read_options read_base read_state
      hsz hreader hpos⟩

/-- Witness of C19: a fresh buffer of capacity 16 with a 32-bit `size_t`, payload
`[7, 8, 9]`; the reader finds the committed packet at offset 0. -/
theorem packet_header_layout_witness :
    (∃ started,
      streambuffer_write_packet_start 32 (0 + 2)
          ⟨16, Options.none, 0, 0, 0, 0, 0, 0, List.replicate 16 0⟩ [7, 8, 9].length
          Options.none 0 0 =
        .returned ([7, 8, 9].length + sizeof_size_t 32, (0 + sizeof_size_t 32) % 4294967296,
          (0 + sizeof_size_t 32) % 4294967296) started [] ∧
      ring_bytes 4 started.buffer 0 (sizeof_size_t 32) = size_t_bytes 32 [7, 8, 9].length ∧
      size_t_of_bytes (ring_bytes 4 started.buffer 0 (sizeof_size_t 32)) = [7, 8, 9].length ∧
      ring_bytes 4
          (streambuffer_write_packet_data 32 started [7, 8, 9] [7, 8, 9].length
            ((0 + sizeof_size_t 32) % 4294967296)).1.buffer 0 (sizeof_size_t 32) =
        size_t_bytes 32 [7, 8, 9].length ∧
      ring_bytes 4
          (streambuffer_write_packet_data 32 started [7, 8, 9] [7, 8, 9].length
            ((0 + sizeof_size_t 32) % 4294967296)).1.buffer (0 + sizeof_size_t 32)
          [7, 8, 9].length = [7, 8, 9]) ∧
    ∃ claimed,
      streambuffer_read_packet_start 32 (0 + 2)
          ⟨16, Options.none, 7, 7, 0, 0, 0, 0, [3, 0, 0, 0, 7, 8, 9, 0, 0, 0, 0, 0, 0, 0, 0, 0]⟩
          Options.none 0 0 =
        .returned
          (size_t_of_bytes
              (ring_bytes 4 [3, 0, 0, 0, 7, 8, 9, 0, 0, 0, 0, 0, 0, 0, 0, 0] 0
                (sizeof_size_t 32)),
            0 + sizeof_size_t 32, 0 + sizeof_size_t 32) claimed [] :=
  packet_header_layout 32 4 0 ⟨16, Options.none, 0, 0, 0, 0, 0, 0, List.replicate 16 0⟩
    ⟨16, Options.none, 7, 7, 0, 0, 0, 0, [3, 0, 0, 0, 7, 8, 9, 0, 0, 0, 0, 0, 0, 0, 0, 0]⟩
    [7, 8, 9] Options.none Options.none 0 0 0 0 (by decide) (by decide) (by decide) (by decide)
    (by decide)

/-- C20, as the code has it: `streambuffer_construct` stores whatever capacity it is
given, and `streambuffer_create` returns OsSuccess with that capacity stored whenever
the allocation succeeds; neither looks at whether the capacity is a power of two. -/
theorem streambuffer_create_stores_any_capacity (memory : streambuffer) (capacity : Nat)
    (options : Options) (stream_out : Option streambuffer) :
    (streambuffer_construct memory capacity options).capacity = capacity ∧
    streambuffer_create (some memory) capacity options stream_out =
      (.OsSuccess, some (streambuffer_construct memory capacity options)) :=
  ⟨rfl, rfl⟩

/-- C20 fails for capacity 3, which is not a power of two: `streambuffer_create` returns
OsSuccess and hands out a buffer with capacity 3 stored. -/
theorem streambuffer_create_accepts_three :
    (¬ ∃ k, 3 = 2 ^ k) ∧
    ∃ stream,
      streambuffer_create (some ⟨0, Options.none, 0, 0, 0, 0, 0, 0, [0, 0, 0]⟩) 3 Options.none
          none = (.OsSuccess, some stream) ∧
      stream.capacity = 3 := by
  refine ⟨?_, _, rfl, rfl⟩
  rintro ⟨k, hk⟩
  cases k with
  | zero => simp at hk
  | succ k =>
    rw [Nat.pow_succ] at hk
    omega

/-- C21: when the allocation fails `streambuffer_create` returns OsOutOfMemory and leaves
`*stream_out` as it was; when it succeeds it returns OsSuccess and stores a buffer whose
capacity and options are the arguments and whose four cursors and two waiter counters
are zero, so that `bytes_readable` is 0 and `bytes_writable` is the capacity. -/
theorem streambuffer_create_outcome (sz capacity : Nat) (options : Options)
    (memory : streambuffer) (stream_out : Option streambuffer) (hcap : capacity < 2 ^ sz) :
    streambuffer_create none capacity options stream_out = (.OsOutOfMemory, stream_out) ∧
    ∃ stream,
      streambuffer_create (some memory) capacity options stream_out =
        (.OsSuccess, some stream) ∧
      stream.capacity = capacity ∧ stream.options = options ∧
      stream.producer_index = 0 ∧ stream.producer_comitted_index = 0 ∧
      stream.consumer_index = 0 ∧ stream.consumer_comitted_index = 0 ∧
      stream.producer_count = 0 ∧ stream.consumer_count = 0 ∧
      bytes_readable sz stream.capacity stream.consumer_index
        stream.producer_comitted_index = 0 ∧
      bytes_writable sz stream.capacity stream.consumer_comitted_index
        stream.producer_index = capacity := by
  refine ⟨rfl, streambuffer_construct memory capacity options, rfl, rfl, rfl, rfl, rfl, rfl,
    rfl, rfl, rfl, ?_, ?_⟩
  · show bytes_readable sz capacity 0 0 = 0
    unfold bytes_readable
    rw [if_neg (by omega)]
    unfold size_sub
    simp
  · show bytes_writable sz capacity 0 0 = capacity
    unfold bytes_writable
    rw [if_neg (by omega)]
    have h0 : size_sub sz 0 0 = 0 := by unfold size_sub; simp
    rw [h0]
    unfold size_sub
    rw [Nat.sub_zero, Nat.add_mod_right, Nat.mod_eq_of_lt hcap]

theorem streambuffer_create_outcome_witness :
    streambuffer_create none 16 Options.none none = (.OsOutOfMemory, none) ∧
    ∃ stream,
      streambuffer_create (some ⟨7, Options.none, 1, 2, 3, 4, 5, 6, List.replicate 16 9⟩) 16
          Options.none none = (.OsSuccess, some stream) ∧
      stream.capacity = 16 ∧ stream.options = Options.none ∧
      stream.producer_index = 0 ∧ stream.producer_comitted_index = 0 ∧
      stream.consumer_index = 0 ∧ stream.consumer_comitted_index = 0 ∧
      stream.producer_count = 0 ∧ stream.consumer_count = 0 ∧
      bytes_readable 32 stream.capacity stream.consumer_index
        stream.producer_comitted_index = 0 ∧
      bytes_writable 32 stream.capacity stream.consumer_comitted_index
        stream.producer_index = 16 :=
  streambuffer_create_outcome 32 16 Options.none
    ⟨7, Options.none, 1, 2, 3, 4, 5, 6, List.replicate 16 9⟩ none (by decide)

/-- C22: a buffer of capacity 16 with MULTIPLE_WRITERS through which 4294967291 bytes
have passed (`drain_operations` on a fresh buffer): all four cursors are 4294967291, 5
below the wrap of the 32-bit counter, and every storage byte is 238.  Thread 0 calls
`streambuffer_stream_out` with 10 bytes and thread 1 with 4 bytes.  Thread 0 claims
first (offsets 4294967291 up to the wrapped 5), thread 1 claims second (offsets 5 to 9);
both are then in their copy loops.  Thread 1 copies its 4 bytes, passes the commit-order
wait, because producer_committed = 4294967291 is not below the start 5 of its claim,
and commits: producer_committed is 4294967295 while thread 0 has not written a single
byte.  `bytes_readable` is now 4, and a `streambuffer_stream_in` of 4 bytes returns the
four stale bytes 238 from the range thread 0 has claimed and is still to write.  With a
32-bit and with a 64-bit `size_t`. -/
theorem commit_order_breaks_at_wrap :
    run_operations 32 2
        ⟨streambuffer_construct ⟨0, Options.none, 0, 0, 0, 0, 0, 0, List.replicate 16 238⟩ 16
          { Options.none with MULTIPLE_WRITERS := true }, none, none⟩ drain_operations =
      ⟨drained 4294967291, none, none⟩ ∧
    run_operations 64 2
        ⟨streambuffer_construct ⟨0, Options.none, 0, 0, 0, 0, 0, 0, List.replicate 16 238⟩ 16
          { Options.none with MULTIPLE_WRITERS := true }, none, none⟩ drain_operations =
      ⟨drained 4294967291, none, none⟩ ∧
    machine_run 32
        ⟨drained 4294967291,
        [Producer.start [1, 2, 3, 4, 5, 6, 7, 8, 9, 10] 10 Options.none,
          Producer.start [21, 22, 23, 24] 4 Options.none], []⟩
        [0, 1] =
      ⟨⟨16, { Options.none with MULTIPLE_WRITERS := true }, 9, 4294967291,
          4294967291, 4294967291, 0, 0,
          List.replicate 16 238⟩,
        [⟨[1, 2, 3, 4, 5, 6, 7, 8, 9, 10], 10, Options.none, .copy, 0, 4294967291, 0, 10, 10⟩,
          ⟨[21, 22, 23, 24], 4, Options.none, .copy, 0, 5, 0, 4, 4⟩], []⟩ ∧
    machine_run 32
        ⟨drained 4294967291,
        [Producer.start [1, 2, 3, 4, 5, 6, 7, 8, 9, 10] 10 Options.none,
          Producer.start [21, 22, 23, 24] 4 Options.none], []⟩
        [0, 1, 1, 1, 1, 1, 1, 1, 1] =
      ⟨⟨16, { Options.none with MULTIPLE_WRITERS := true }, 9, 4294967295,
          4294967291, 4294967291, 0, 0,
          List.replicate 5 238 ++ [21, 22, 23, 24] ++ List.replicate 7 238⟩,
        [⟨[1, 2, 3, 4, 5, 6, 7, 8, 9, 10], 10, Options.none, .copy, 0, 4294967291, 0, 10, 10⟩,
          ⟨[21, 22, 23, 24], 4, Options.none, .claim, 4, 9, 0, 0, 4⟩], []⟩ ∧
    bytes_readable 32 16 4294967291 4294967295 = 4 ∧
    streambuffer_stream_in 32
        ⟨16, { Options.none with MULTIPLE_WRITERS := true }, 9, 4294967295,
          4294967291, 4294967291, 0, 0,
          List.replicate 5 238 ++ [21, 22, 23, 24] ++ List.replicate 7 238⟩
        [0, 0, 0, 0] 4 { Options.none with NO_BLOCK := true } =
      .returned (4, [238, 238, 238, 238])
        ⟨16, { Options.none with MULTIPLE_WRITERS := true }, 9, 4294967295,
          4294967295, 4294967295, 0, 0,
          List.replicate 5 238 ++ [21, 22, 23, 24] ++ List.replicate 7 238⟩
        [] ∧
    machine_run 64
        ⟨drained 4294967291,
        [Producer.start [1, 2, 3, 4, 5, 6, 7, 8, 9, 10] 10 Options.none,
          Producer.start [21, 22, 23, 24] 4 Options.none], []⟩
        [0, 1] =
      ⟨⟨16, { Options.none with MULTIPLE_WRITERS := true }, 9, 4294967291,
          4294967291, 4294967291, 0, 0,
          List.replicate 16 238⟩,
        [⟨[1, 2, 3, 4, 5, 6, 7, 8, 9, 10], 10, Options.none, .copy, 0, 4294967291, 0, 10, 10⟩,
          ⟨[21, 22, 23, 24], 4, Options.none, .copy, 0, 5, 0, 4, 4⟩], []⟩ ∧
    machine_run 64
        ⟨drained 4294967291,
        [Producer.start [1, 2, 3, 4, 5, 6, 7, 8, 9, 10] 10 Options.none,
          Producer.start [21, 22, 23, 24] 4 Options.none], []⟩
        [0, 1, 1, 1, 1, 1, 1, 1, 1] =
      ⟨⟨16, { Options.none with MULTIPLE_WRITERS := true }, 9, 4294967295,
          4294967291, 4294967291, 0, 0,
          List.replicate 5 238 ++ [21, 22, 23, 24] ++ List.replicate 7 238⟩,
        [⟨[1, 2, 3, 4, 5, 6, 7, 8, 9, 10], 10, Options.none, .copy, 0, 4294967291, 0, 10, 10⟩,
          ⟨[21, 22, 23, 24], 4, Options.none, .claim, 4, 9, 0, 0, 4⟩], []⟩ ∧
    bytes_readable 64 16 4294967291 4294967295 = 4 ∧
    streambuffer_stream_in 64
        ⟨16, { Options.none with MULTIPLE_WRITERS := true }, 9, 4294967295,
          4294967291, 4294967291, 0, 0,
          List.replicate 5 238 ++ [21, 22, 23, 24] ++ List.replicate 7 238⟩
        [0, 0, 0, 0] 4 { Options.none with NO_BLOCK := true } =
      .returned (4, [238, 238, 238, 238])
        ⟨16, { Options.none with MULTIPLE_WRITERS := true }, 9, 4294967295,
          4294967295, 4294967295, 0, 0,
          List.replicate 5 238 ++ [21, 22, 23, 24] ++ List.replicate 7 238⟩
        [] :=
  ⟨drained_reachable 32 0 (Or.inl rfl), drained_reachable 64 0 (Or.inr rfl), by decide⟩

/-- C23: after any sequence of calls made by a single thread on a buffer constructed
with a power-of-two capacity (byte-stream calls with any options, paired
`streambuffer_write_packet_start` / data / end calls and paired non-PEEK
`streambuffer_read_packet_start` / end calls, the end called with the claimed base and
length) the cursors satisfy the cursor invariant: in wrapping 32-bit distance
consumer_committed, consumer_index, producer_committed and producer_index come in this
order and producer_index is at most `capacity` ahead of consumer_committed, so the
overcommitted state does not occur. -/
theorem cursor_invariant_reachable (sz k fuel : Nat) (memory : streambuffer)
    (options : Options) (operations : List Operation) (hsz : 32 ≤ sz) (hk : k < 32) :
    cursor_invariant
      (run_operations sz fuel ⟨streambuffer_construct memory (2 ^ k) options, none, none⟩
        operations).stream :=
  cursor_invariant_of_session _
    (invariant_run_operations hsz fuel operations _
      (invariant_construct_session sz k hk memory options))

theorem cursor_invariant_reachable_witness :
    32 ≤ 32 ∧ 4 < 32 ∧
    operations_return 32 3
        ⟨streambuffer_construct ⟨0, Options.none, 0, 0, 0, 0, 0, 0, List.replicate 16 0⟩
          (2 ^ 4) Options.none, none, none⟩
        [.write_packet_start 3 { Options.none with NO_BLOCK := true },
          .write_packet_data [7, 8, 9], .write_packet_end,
          .write_packet_start 20 { Options.none with NO_BLOCK := true },
          .read_packet_start { Options.none with NO_BLOCK := true },
          .write_packet_start 2 { Options.none with NO_BLOCK := true },
          .read_packet_end, .write_packet_data [5, 6], .write_packet_end] = true ∧
    (run_operations 32 3
        ⟨streambuffer_construct ⟨0, Options.none, 0, 0, 0, 0, 0, 0, List.replicate 16 0⟩
          (2 ^ 4) Options.none, none, none⟩
        [.write_packet_start 3 { Options.none with NO_BLOCK := true },
          .write_packet_data [7, 8, 9], .write_packet_end,
          .write_packet_start 20 { Options.none with NO_BLOCK := true },
          .read_packet_start { Options.none with NO_BLOCK := true },
          .write_packet_start 2 { Options.none with NO_BLOCK := true },
          .read_packet_end, .write_packet_data [5, 6], .write_packet_end]).stream =
      ⟨16, Options.none, 13, 13, 7, 7, 0, 0,
        [3, 0, 0, 0, 7, 8, 9, 2, 0, 0, 0, 5, 6, 0, 0, 0]⟩ ∧
    cursor_invariant
      (run_operations 32 3
        ⟨streambuffer_construct ⟨0, Options.none, 0, 0, 0, 0, 0, 0, List.replicate 16 0⟩
          (2 ^ 4) Options.none, none, none⟩
        [.write_packet_start 3 { Options.none with NO_BLOCK := true },
          .write_packet_data [7, 8, 9], .write_packet_end,
          .write_packet_start 20 { Options.none with NO_BLOCK := true },
          .read_packet_start { Options.none with NO_BLOCK := true },
          .write_packet_start 2 { Options.none with NO_BLOCK := true },
          .read_packet_end, .write_packet_data [5, 6], .write_packet_end]).stream :=
  ⟨by decide, by decide, by decide, by decide,
    cursor_invariant_reachable 32 4 3
      ⟨0, Options.none, 0, 0, 0, 0, 0, 0, List.replicate 16 0⟩ Options.none _ (by decide)
      (by decide)⟩

/-- C24: a buffer of capacity 16 with OVERWRITE_ENABLED holds 14 unread bytes, so 2 bytes
are writable; a `streambuffer_stream_out` of 4 bytes is 2 bytes short.  The call to
`streambuffer_try_truncate` it makes advances consumer_index and consumer_committed by
4, the whole request, not by the 2 bytes that were missing, and the write then returns
4 with 4 unread bytes discarded, with a 32-bit and with a 64-bit `size_t`. -/
theorem overwrite_discards_whole_request :
    bytes_writable 32 16 0 14 = 2 ∧
    streambuffer_try_truncate 32
        ⟨16, { Options.none with OVERWRITE_ENABLED := true }, 14, 14, 0, 0, 0, 0,
          List.range 16⟩ Options.none 4 =
      .returned ()
        ⟨16, { Options.none with OVERWRITE_ENABLED := true }, 14, 14, 4, 4, 0, 0,
          List.range 16⟩ [] ∧
    streambuffer_stream_out 32 3
        ⟨16, { Options.none with OVERWRITE_ENABLED := true }, 14, 14, 0, 0, 0, 0,
          List.range 16⟩ [100, 101, 102, 103] 4 Options.none =
      .returned 4
        ⟨16, { Options.none with OVERWRITE_ENABLED := true }, 18, 18, 4, 4, 0, 0,
          [102, 103, 2, 3, 4, 5, 6, 7, 8, 9, 10, 11, 12, 13, 100, 101]⟩ [] ∧
    bytes_writable 64 16 0 14 = 2 ∧
    streambuffer_stream_out 64 3
        ⟨16, { Options.none with OVERWRITE_ENABLED := true }, 14, 14, 0, 0, 0, 0,
          List.range 16⟩ [100, 101, 102, 103] 4 Options.none =
      .returned 4
        ⟨16, { Options.none with OVERWRITE_ENABLED := true }, 18, 18, 4, 4, 0, 0,
          [102, 103, 2, 3, 4, 5, 6, 7, 8, 9, 10, 11, 12, 13, 100, 101]⟩ [] := by
  decide

/-- C25: on a fresh buffer of capacity 16 with MULTIPLE_READERS and MULTIPLE_WRITERS one
packet with the 4-byte payload 1, 2, 3, 4 is written at offset 0 (the commit-order wait
of `streambuffer_write_packet_end` lets it pass) and `streambuffer_read_packet_start`
claims it, returning length 4 and the base behind the header.  consumer_committed is 0,
the start offset of that claim, yet `streambuffer_read_packet_end(base, 4)` busy-waits:
it compares consumer_committed with the start offset minus the length, which wraps.
With a 32-bit `size_t` (header of 4 bytes) and with a 64-bit one (header of 8 bytes). -/
theorem read_packet_end_first_packet_spins :
    write_packet 32 2
        (streambuffer_construct ⟨0, Options.none, 0, 0, 0, 0, 0, 0, List.replicate 16 0⟩ 16
          { Options.none with MULTIPLE_READERS := true, MULTIPLE_WRITERS := true })
        [1, 2, 3, 4] Options.none =
      some ⟨16, { Options.none with MULTIPLE_READERS := true, MULTIPLE_WRITERS := true },
        8, 8, 0, 0, 0, 0, [4, 0, 0, 0, 1, 2, 3, 4, 0, 0, 0, 0, 0, 0, 0, 0]⟩ ∧
    streambuffer_read_packet_start 32 2
        ⟨16, { Options.none with MULTIPLE_READERS := true, MULTIPLE_WRITERS := true },
          8, 8, 0, 0, 0, 0, [4, 0, 0, 0, 1, 2, 3, 4, 0, 0, 0, 0, 0, 0, 0, 0]⟩
        { Options.none with NO_BLOCK := true } 0 0 =
      .returned (4, 4, 4)
        ⟨16, { Options.none with MULTIPLE_READERS := true, MULTIPLE_WRITERS := true },
          8, 8, 8, 0, 0, 0, [4, 0, 0, 0, 1, 2, 3, 4, 0, 0, 0, 0, 0, 0, 0, 0]⟩ [] ∧
    streambuffer_read_packet_end 32
        ⟨16, { Options.none with MULTIPLE_READERS := true, MULTIPLE_WRITERS := true },
          8, 8, 8, 0, 0, 0, [4, 0, 0, 0, 1, 2, 3, 4, 0, 0, 0, 0, 0, 0, 0, 0]⟩ 4 4 =
      .spinning
        ⟨16, { Options.none with MULTIPLE_READERS := true, MULTIPLE_WRITERS := true },
          8, 8, 8, 0, 0, 0, [4, 0, 0, 0, 1, 2, 3, 4, 0, 0, 0, 0, 0, 0, 0, 0]⟩ [] ∧
    write_packet 64 2
        (streambuffer_construct ⟨0, Options.none, 0, 0, 0, 0, 0, 0, List.replicate 16 0⟩ 16
          { Options.none with MULTIPLE_READERS := true, MULTIPLE_WRITERS := true })
        [1, 2, 3, 4] Options.none =
      some ⟨16, { Options.none with MULTIPLE_READERS := true, MULTIPLE_WRITERS := true },
        12, 12, 0, 0, 0, 0, [4, 0, 0, 0, 0, 0, 0, 0, 1, 2, 3, 4, 0, 0, 0, 0]⟩ ∧
    streambuffer_read_packet_start 64 2
        ⟨16, { Options.none with MULTIPLE_READERS := true, MULTIPLE_WRITERS := true },
          12, 12, 0, 0, 0, 0, [4, 0, 0, 0, 0, 0, 0, 0, 1, 2, 3, 4, 0, 0, 0, 0]⟩
        { Options.none with NO_BLOCK := true } 0 0 =
      .returned (4, 8, 8)
        ⟨16, { Options.none with MULTIPLE_READERS := true, MULTIPLE_WRITERS := true },
          12, 12, 12, 0, 0, 0, [4, 0, 0, 0, 0, 0, 0, 0, 1, 2, 3, 4, 0, 0, 0, 0]⟩ [] ∧
    streambuffer_read_packet_end 64
        ⟨16, { Options.none with MULTIPLE_READERS := true, MULTIPLE_WRITERS := true },
          12, 12, 12, 0, 0, 0, [4, 0, 0, 0, 0, 0, 0, 0, 1, 2, 3, 4, 0, 0, 0, 0]⟩ 8 4 =
      .spinning
        ⟨16, { Options.none with MULTIPLE_READERS := true, MULTIPLE_WRITERS := true },
          12, 12, 12, 0, 0, 0, [4, 0, 0, 0, 0, 0, 0, 0, 1, 2, 3, 4, 0, 0, 0, 0]⟩ [] := by
  decide

/-- C26: a `streambuffer_stream_out` that returns a non-zero count has committed: it
leaves consumer_count at 0 and producer_count as it was, and its only futex call is a
wake on producer_committed, made exactly when consumer_count was non-zero before the
reset (`wake_events`); a call that returns 0 leaves both counters as they were and makes
no futex call.  Symmetrically a `streambuffer_stream_in` that returns a non-zero count
leaves producer_count at 0, consumer_count as it was, and wakes on consumer_committed
exactly when producer_count was non-zero; one that returns 0 changes neither counter and
makes no futex call. -/
theorem wake_on_commit (sz fuel : Nat) (stream : streambuffer) (buffer : List Nat)
    (length : Nat) (options : Options) :
    (∀ n stream' events,
      streambuffer_stream_out sz fuel stream buffer length options =
        .returned n stream' events →
      (n ≠ 0 →
        stream'.consumer_count = 0 ∧ stream'.producer_count = stream.producer_count ∧
        events =
          if stream.consumer_count ≠ 0 then
            [.Syscall_FutexWake .producer_comitted_index stream.consumer_count
              (STREAMBUFFER_FUTEX_FLAGS stream)]
          else []) ∧
      (n = 0 →
        stream'.consumer_count = stream.consumer_count ∧
        stream'.producer_count = stream.producer_count ∧ events = [])) ∧
    (∀ value stream' events,
      streambuffer_stream_in sz stream buffer length options =
        .returned value stream' events →
      (value.1 ≠ 0 →
        stream'.producer_count = 0 ∧ stream'.consumer_count = stream.consumer_count ∧
        events =
          if stream.producer_count ≠ 0 then
            [.Syscall_FutexWake .consumer_comitted_index stream.producer_count
              (STREAMBUFFER_FUTEX_FLAGS stream)]
          else []) ∧
      (value.1 = 0 →
        stream'.consumer_count = stream.consumer_count ∧
        stream'.producer_count = stream.producer_count ∧ events = [])) := by
  constructor
  · intro n stream' events h
    rcases stream_out_loop_returned sz buffer length options (fun _ => True)
        (fun _ _ => trivial) fuel stream n stream' events trivial h with
      ⟨h1, h2, _, _, _, h5, h6, _⟩ | ⟨h1, h2, h3, before, _, _, _, _, _, b5, b6, _, _, b9⟩
    · exact ⟨fun hn => absurd h1 hn, fun _ => ⟨h6, h5, h2⟩⟩
    · refine ⟨fun _ => ⟨?_, ?_, ?_⟩, fun hn => ?_⟩
      · rw [b9]; rfl
      · rw [b9]; exact b5
      · rw [h3]
        simp [wake_events]
      · omega
  · intro value stream' events h
    rcases stream_in_returned sz stream buffer length options value stream' events h with
      ⟨h1, h2, h3⟩ | ⟨h1, _, h2, h3⟩
    · refine ⟨fun hn => ?_, fun _ => ⟨by rw [h2], by rw [h2], h3⟩⟩
      rw [h1] at hn
      exact absurd rfl hn
    · refine ⟨fun _ => ⟨?_, ?_, ?_⟩, fun hn => absurd hn h1⟩
      · rw [h2]; rfl
      · rw [h2]; rfl
      · rw [h3]
        simp [wake_events]

theorem wake_on_commit_witness :
    (streambuffer_stream_out 32 2
        ⟨16, Options.none, 4, 4, 0, 0, 2, 3, [9, 8, 7, 6] ++ List.replicate 12 0⟩
        [1, 2, 3, 4] 4 Options.none =
      .returned 4
        ⟨16, Options.none, 8, 8, 0, 0, 2, 0, [9, 8, 7, 6, 1, 2, 3, 4] ++ List.replicate 8 0⟩
        [.Syscall_FutexWake .producer_comitted_index 3 true] ∧
      (4 ≠ 0 →
        (0 : Nat) = 0 ∧ (2 : Nat) = 2 ∧
        [Event.Syscall_FutexWake .producer_comitted_index 3 true] =
          if (3 : Nat) ≠ 0 then
            [.Syscall_FutexWake .producer_comitted_index 3
              (STREAMBUFFER_FUTEX_FLAGS
                ⟨16, Options.none, 4, 4, 0, 0, 2, 3, [9, 8, 7, 6] ++ List.replicate 12 0⟩)]
          else [])) ∧
    (streambuffer_stream_in 32
        ⟨16, Options.none, 4, 4, 0, 0, 2, 3, [9, 8, 7, 6] ++ List.replicate 12 0⟩
        [1, 2, 3, 4] 4 { Options.none with NO_BLOCK := true } =
      .returned (4, [9, 8, 7, 6])
        ⟨16, Options.none, 4, 4, 4, 4, 0, 3, [9, 8, 7, 6] ++ List.replicate 12 0⟩
        [.Syscall_FutexWake .consumer_comitted_index 2 true] ∧
      (4 ≠ 0 →
        (0 : Nat) = 0 ∧ (3 : Nat) = 3 ∧
        [Event.Syscall_FutexWake .consumer_comitted_index 2 true] =
          if (2 : Nat) ≠ 0 then
            [.Syscall_FutexWake .consumer_comitted_index 2
              (STREAMBUFFER_FUTEX_FLAGS
                ⟨16, Options.none, 4, 4, 0, 0, 2, 3, [9, 8, 7, 6] ++ List.replicate 12 0⟩)]
          else [])) :=
  ⟨⟨by decide,
    ((wake_on_commit 32 2
      ⟨16, Options.none, 4, 4, 0, 0, 2, 3, [9, 8, 7, 6] ++ List.replicate 12 0⟩ [1, 2, 3, 4]
      4 Options.none).1 4
      ⟨16, Options.none, 8, 8, 0, 0, 2, 0, [9, 8, 7, 6, 1, 2, 3, 4] ++ List.replicate 8 0⟩
      [.Syscall_FutexWake .producer_comitted_index 3 true] (by decide)).1⟩,
   ⟨by decide,
    ((wake_on_commit 32 2
      ⟨16, Options.none, 4, 4, 0, 0, 2, 3, [9, 8, 7, 6] ++ List.replicate 12 0⟩ [1, 2, 3, 4]
      4 { Options.none with NO_BLOCK := true }).2 (4, [9, 8, 7, 6])
      ⟨16, Options.none, 4, 4, 4, 4, 0, 3, [9, 8, 7, 6] ++ List.replicate 12 0⟩
      [.Syscall_FutexWake .consumer_comitted_index 2 true] (by decide)).1⟩⟩

/-- C27: a pass of `streambuffer_stream_out` (of `streambuffer_write_packet_start`) made
without NO_BLOCK in which the claim check fails adds 1 to producer_count and then calls
`Syscall_FutexWait` on consumer_committed with the consumer_committed value the pass
loaded, and changes nothing else of the stream; a pass of `streambuffer_stream_in` (of
`streambuffer_read_packet_start`) in which the check fails adds 1 to consumer_count and
waits on producer_committed with the loaded producer_committed value.  When the wait
returns, with the stream then being `wake` of the stream the thread left, the call goes
on as the loop run from its head on that stream: every cursor is loaded anew, and only
the count of bytes done so far, the out-parameters and the log of futex calls are
carried over.  The loops with waits that return are the loops of the thread that is
alone in everything else, for every state, fuel and list of wake-ups: whenever the
latter end in a wait, the former go on from the head of the loop on the woken stream,
and whenever the latter return, busy-wait or run out of fuel, so do the former, with
the same result. -/
theorem wait_registers_and_revalidates (sz fuel : Nat) (options : Options)
    (wake : streambuffer → streambuffer) (wakes : List (streambuffer → streambuffer))
    (hblock : options.NO_BLOCK = false) :
    (∀ (stream : streambuffer) (buffer : List Nat) (length bytes_written : Nat)
      (events : List Event), bytes_written < length →
      STREAMBUFFER_CAN_STREAM stream options
        (min (bytes_writable sz stream.capacity stream.consumer_comitted_index
          stream.producer_index) (length - bytes_written)) (length - bytes_written) = false →
      stream_out_loop sz buffer length options (fuel + 1) stream bytes_written events =
        .suspended { stream with producer_count := (stream.producer_count + 1) % UINT_MOD }
          (events ++ [.Syscall_FutexWait .consumer_comitted_index
            stream.consumer_comitted_index (STREAMBUFFER_FUTEX_FLAGS stream)]) ∧
      stream_out_loop_woken sz buffer length options (fuel + 1) (wake :: wakes) stream
          bytes_written events =
        stream_out_loop_woken sz buffer length options fuel wakes
          (wake { stream with producer_count := (stream.producer_count + 1) % UINT_MOD })
          bytes_written
          (events ++ [.Syscall_FutexWait .consumer_comitted_index
            stream.consumer_comitted_index (STREAMBUFFER_FUTEX_FLAGS stream)])) ∧
    (∀ (stream : streambuffer) (packet_len length base_out state_out : Nat)
      (events : List Event),
      bytes_writable sz stream.capacity stream.consumer_comitted_index
        stream.producer_index < length →
      write_packet_start_loop sz packet_len length options (fuel + 1) stream 0 base_out
          state_out events =
        .suspended { stream with producer_count := (stream.producer_count + 1) % UINT_MOD }
          (events ++ [.Syscall_FutexWait .consumer_comitted_index
            stream.consumer_comitted_index (STREAMBUFFER_FUTEX_FLAGS stream)]) ∧
      write_packet_start_loop_woken sz packet_len length options (fuel + 1) (wake :: wakes)
          stream 0 base_out state_out events =
        write_packet_start_loop_woken sz packet_len length options fuel wakes
          (wake { stream with producer_count := (stream.producer_count + 1) % UINT_MOD })
          0 base_out state_out
          (events ++ [.Syscall_FutexWait .consumer_comitted_index
            stream.consumer_comitted_index (STREAMBUFFER_FUTEX_FLAGS stream)])) ∧
    (∀ (stream : streambuffer) (buffer : List Nat) (length : Nat) (events : List Event),
      0 < length →
      STREAMBUFFER_CAN_READ options
        (min (bytes_readable sz stream.capacity stream.consumer_index
          stream.producer_comitted_index) length) length = false →
      streambuffer_stream_in sz stream buffer length options =
        .suspended { stream with consumer_count := (stream.consumer_count + 1) % UINT_MOD }
          [.Syscall_FutexWait .producer_comitted_index stream.producer_comitted_index
            (STREAMBUFFER_FUTEX_FLAGS stream)] ∧
      stream_in_loop_woken sz buffer length options (wake :: wakes) stream events =
        stream_in_loop_woken sz buffer length options wakes
          (wake { stream with consumer_count := (stream.consumer_count + 1) % UINT_MOD })
          (events ++ [.Syscall_FutexWait .producer_comitted_index
            stream.producer_comitted_index (STREAMBUFFER_FUTEX_FLAGS stream)])) ∧
    (∀ (stream : streambuffer) (base_out state_out : Nat) (events : List Event),
      bytes_readable sz stream.capacity stream.consumer_index
        stream.producer_comitted_index < read_packet_frame_length sz stream →
      read_packet_start_loop sz options (fuel + 1) stream 0 base_out state_out events =
        .suspended { stream with consumer_count := (stream.consumer_count + 1) % UINT_MOD }
          (events ++ [.Syscall_FutexWait .producer_comitted_index
            stream.producer_comitted_index (STREAMBUFFER_FUTEX_FLAGS stream)]) ∧
      read_packet_start_loop_woken sz options (fuel + 1) (wake :: wakes) stream 0 base_out
          state_out events =
        read_packet_start_loop_woken sz options fuel wakes
          (wake { stream with consumer_count := (stream.consumer_count + 1) % UINT_MOD })
          0 base_out state_out
          (events ++ [.Syscall_FutexWait .producer_comitted_index
            stream.producer_comitted_index (STREAMBUFFER_FUTEX_FLAGS stream)])) ∧
    (∀ (rounds : Nat) (stream : streambuffer) (buffer : List Nat)
      (length bytes_written : Nat) (events : List Event),
      (∀ stream' events',
        stream_out_loop sz buffer length options rounds stream bytes_written events =
          .suspended stream' events' →
        ∃ used, 1 ≤ used ∧ used ≤ rounds ∧
          ∀ wakes,
            stream_out_loop_woken sz buffer length options rounds wakes stream bytes_written
                events =
              match wakes with
              | [] => .suspended stream' events'
              | wake :: wakes =>
                stream_out_loop_woken sz buffer length options (rounds - used) wakes
                  (wake stream') bytes_written events') ∧
      ((∀ stream' events',
          stream_out_loop sz buffer length options rounds stream bytes_written events ≠
            .suspended stream' events') →
        ∀ wakes,
          stream_out_loop_woken sz buffer length options rounds wakes stream bytes_written
              events =
            stream_out_loop sz buffer length options rounds stream bytes_written events)) ∧
    (∀ (rounds : Nat) (stream : streambuffer)
      (packet_len length bytes_allocated base_out state_out : Nat) (events : List Event),
      (∀ stream' events',
        write_packet_start_loop sz packet_len length options rounds stream bytes_allocated
            base_out state_out events = .suspended stream' events' →
        ∃ used, 1 ≤ used ∧ used ≤ rounds ∧
          ∀ wakes,
            write_packet_start_loop_woken sz packet_len length options rounds wakes stream
                bytes_allocated base_out state_out events =
              match wakes with
              | [] => .suspended stream' events'
              | wake :: wakes =>
                write_packet_start_loop_woken sz packet_len length options (rounds - used)
                  wakes (wake stream') bytes_allocated base_out state_out events') ∧
      ((∀ stream' events',
          write_packet_start_loop sz packet_len length options rounds stream bytes_allocated
            base_out state_out events ≠ .suspended stream' events') →
        ∀ wakes,
          write_packet_start_loop_woken sz packet_len length options rounds wakes stream
              bytes_allocated base_out state_out events =
            write_packet_start_loop sz packet_len length options rounds stream
              bytes_allocated base_out state_out events)) ∧
    (∀ (stream : streambuffer) (buffer : List Nat) (length : Nat),
      (∀ stream' events',
        streambuffer_stream_in sz stream buffer length options =
          .suspended stream' events' →
        ∀ wakes events,
          stream_in_loop_woken sz buffer length options wakes stream events =
            match wakes with
            | [] => .suspended stream' (events ++ events')
            | wake :: wakes =>
              stream_in_loop_woken sz buffer length options wakes (wake stream')
                (events ++ events')) ∧
      (∀ value stream' events',
        streambuffer_stream_in sz stream buffer length options =
          .returned value stream' events' →
        ∀ wakes events,
          stream_in_loop_woken sz buffer length options wakes stream events =
            .returned value stream' (events ++ events')) ∧
      (∀ stream' events',
        streambuffer_stream_in sz stream buffer length options =
          .spinning stream' events' →
        ∀ wakes events,
          stream_in_loop_woken sz buffer length options wakes stream events =
            .spinning stream' (events ++ events'))) ∧
    (∀ (rounds : Nat) (stream : streambuffer) (bytes_read base_out state_out : Nat)
      (events : List Event),
      (∀ stream' events',
        read_packet_start_loop sz options rounds stream bytes_read base_out state_out
          events = .suspended stream' events' →
        ∃ used base_out' state_out', 1 ≤ used ∧ used ≤ rounds ∧
          ∀ wakes,
            read_packet_start_loop_woken sz options rounds wakes stream bytes_read base_out
                state_out events =
              match wakes with
              | [] => .suspended stream' events'
              | wake :: wakes =>
                read_packet_start_loop_woken sz options (rounds - used) wakes (wake stream')
                  0 base_out' state_out' events') ∧
      ((∀ stream' events',
          read_packet_start_loop sz options rounds stream bytes_read base_out state_out
            events ≠ .suspended stream' events') →
        ∀ wakes,
          read_packet_start_loop_woken sz options rounds wakes stream bytes_read base_out
              state_out events =
            read_packet_start_loop sz options rounds stream bytes_read base_out state_out
              events)) :=
  ⟨(failed_pass_waits sz fuel options wake wakes hblock).1,
    (failed_pass_waits sz fuel options wake wakes hblock).2.1,
    (failed_pass_waits sz fuel options wake wakes hblock).2.2.1,
    (failed_pass_waits sz fuel options wake wakes hblock).2.2.2,
    fun rounds stream buffer length bytes_written events =>
      stream_out_loop_woken_link sz buffer length options rounds stream bytes_written events,
    fun rounds stream packet_len length bytes_allocated base_out state_out events =>
      write_packet_start_loop_woken_link sz packet_len length options rounds stream
        bytes_allocated base_out state_out events,
    fun stream buffer length => stream_in_loop_woken_link sz stream buffer length options,
    fun rounds stream bytes_read base_out state_out events =>
      read_packet_start_loop_woken_link sz options rounds stream bytes_read base_out
        state_out events⟩

/-- Witness of C27: a full buffer of capacity 16 for the two producer loops, an empty
one for the two consumer loops, 32-bit `size_t`, one wake-up that changes nothing. -/
theorem wait_registers_and_revalidates_witness :
    Options.none.NO_BLOCK = false ∧
    (0 < 4 ∧
      STREAMBUFFER_CAN_STREAM
        ⟨16, Options.none, 16, 16, 0, 0, 0, 0, [100, 0, 0, 0] ++ List.replicate 12 7⟩
        Options.none (min (bytes_writable 32 16 0 16) (4 - 0)) (4 - 0) = false ∧
      stream_out_loop 32 [1, 2, 3, 4] 4 Options.none (1 + 1)
          ⟨16, Options.none, 16, 16, 0, 0, 0, 0, [100, 0, 0, 0] ++ List.replicate 12 7⟩ 0 [] =
        .suspended
          ⟨16, Options.none, 16, 16, 0, 0, 1, 0, [100, 0, 0, 0] ++ List.replicate 12 7⟩
          [.Syscall_FutexWait .consumer_comitted_index 0 true] ∧
      stream_out_loop_woken 32 [1, 2, 3, 4] 4 Options.none (1 + 1) [id]
          ⟨16, Options.none, 16, 16, 0, 0, 0, 0, [100, 0, 0, 0] ++ List.replicate 12 7⟩ 0 [] =
        stream_out_loop_woken 32 [1, 2, 3, 4] 4 Options.none 1 []
          (id ⟨16, Options.none, 16, 16, 0, 0, 1, 0, [100, 0, 0, 0] ++ List.replicate 12 7⟩)
          0 [.Syscall_FutexWait .consumer_comitted_index 0 true]) ∧
    (bytes_writable 32 16 0 16 < 8 ∧
      write_packet_start_loop 32 4 8 Options.none (1 + 1)
          ⟨16, Options.none, 16, 16, 0, 0, 0, 0, [100, 0, 0, 0] ++ List.replicate 12 7⟩ 0 0 0 [] =
        .suspended
          ⟨16, Options.none, 16, 16, 0, 0, 1, 0, [100, 0, 0, 0] ++ List.replicate 12 7⟩
          [.Syscall_FutexWait .consumer_comitted_index 0 true] ∧
      write_packet_start_loop_woken 32 4 8 Options.none (1 + 1) [id]
          ⟨16, Options.none, 16, 16, 0, 0, 0, 0, [100, 0, 0, 0] ++ List.replicate 12 7⟩ 0 0 0 [] =
        write_packet_start_loop_woken 32 4 8 Options.none 1 []
          (id ⟨16, Options.none, 16, 16, 0, 0, 1, 0, [100, 0, 0, 0] ++ List.replicate 12 7⟩)
          0 0 0 [.Syscall_FutexWait .consumer_comitted_index 0 true]) ∧
    (0 < 4 ∧
      STREAMBUFFER_CAN_READ Options.none (min (bytes_readable 32 16 0 0) 4) 4 = false ∧
      streambuffer_stream_in 32 ⟨16, Options.none, 0, 0, 0, 0, 0, 0, List.replicate 16 0⟩
          [0, 0, 0, 0] 4 Options.none =
        .suspended ⟨16, Options.none, 0, 0, 0, 0, 0, 1, List.replicate 16 0⟩
          [.Syscall_FutexWait .producer_comitted_index 0 true] ∧
      stream_in_loop_woken 32 [0, 0, 0, 0] 4 Options.none [id]
          ⟨16, Options.none, 0, 0, 0, 0, 0, 0, List.replicate 16 0⟩ [] =
        stream_in_loop_woken 32 [0, 0, 0, 0] 4 Options.none []
          (id ⟨16, Options.none, 0, 0, 0, 0, 0, 1, List.replicate 16 0⟩)
          [.Syscall_FutexWait .producer_comitted_index 0 true]) ∧
    (bytes_readable 32 16 0 0 <
        read_packet_frame_length 32
          ⟨16, Options.none, 0, 0, 0, 0, 0, 0, List.replicate 16 0⟩ ∧
      read_packet_start_loop 32 Options.none (1 + 1)
          ⟨16, Options.none, 0, 0, 0, 0, 0, 0, List.replicate 16 0⟩ 0 0 0 [] =
        .suspended ⟨16, Options.none, 0, 0, 0, 0, 0, 1, List.replicate 16 0⟩
          [.Syscall_FutexWait .producer_comitted_index 0 true] ∧
      read_packet_start_loop_woken 32 Options.none (1 + 1) [id]
          ⟨16, Options.none, 0, 0, 0, 0, 0, 0, List.replicate 16 0⟩ 0 0 0 [] =
        read_packet_start_loop_woken 32 Options.none 1 []
          (id ⟨16, Options.none, 0, 0, 0, 0, 0, 1, List.replicate 16 0⟩) 0 0 0
          [.Syscall_FutexWait .producer_comitted_index 0 true]) ∧
    (∃ used, 1 ≤ used ∧ used ≤ 2 ∧
      ∀ wakes,
        stream_out_loop_woken 32 [1, 2, 3, 4] 4 Options.none 2 wakes
            ⟨16, Options.none, 16, 16, 0, 0, 0, 0, [100, 0, 0, 0] ++ List.replicate 12 7⟩ 0 [] =
          match wakes with
          | [] =>
            .suspended
              ⟨16, Options.none, 16, 16, 0, 0, 1, 0, [100, 0, 0, 0] ++ List.replicate 12 7⟩
              [.Syscall_FutexWait .consumer_comitted_index 0 true]
          | wake :: wakes =>
            stream_out_loop_woken 32 [1, 2, 3, 4] 4 Options.none (2 - used) wakes
              (wake ⟨16, Options.none, 16, 16, 0, 0, 1, 0, [100, 0, 0, 0] ++ List.replicate 12 7⟩)
              0 [.Syscall_FutexWait .consumer_comitted_index 0 true]) ∧
    (∀ wakes,
      stream_out_loop_woken 32 [1, 2, 3, 4] 4 Options.none 2 wakes
          ⟨16, Options.none, 0, 0, 0, 0, 0, 0, List.replicate 16 0⟩ 0 [] =
        .returned 4 ⟨16, Options.none, 4, 4, 0, 0, 0, 0, [1, 2, 3, 4] ++ List.replicate 12 0⟩ []) ∧
    (∀ wakes events,
      stream_in_loop_woken 32 [0, 0, 0, 0] 4 Options.none wakes
          ⟨16, Options.none, 0, 0, 0, 0, 0, 0, List.replicate 16 0⟩ events =
        match wakes with
        | [] =>
          .suspended ⟨16, Options.none, 0, 0, 0, 0, 0, 1, List.replicate 16 0⟩
            (events ++ [.Syscall_FutexWait .producer_comitted_index 0 true])
        | wake :: wakes =>
          stream_in_loop_woken 32 [0, 0, 0, 0] 4 Options.none wakes
            (wake ⟨16, Options.none, 0, 0, 0, 0, 0, 1, List.replicate 16 0⟩)
            (events ++ [.Syscall_FutexWait .producer_comitted_index 0 true])) :=
  ⟨rfl,
    ⟨by decide, by decide,
      (wait_registers_and_revalidates 32 1 Options.none id [] rfl).1
        ⟨16, Options.none, 16, 16, 0, 0, 0, 0, [100, 0, 0, 0] ++ List.replicate 12 7⟩
        [1, 2, 3, 4] 4 0 [] (by decide) (by decide)⟩,
    ⟨by decide,
      (wait_registers_and_revalidates 32 1 Options.none id [] rfl).2.1
        ⟨16, Options.none, 16, 16, 0, 0, 0, 0, [100, 0, 0, 0] ++ List.replicate 12 7⟩
        4 8 0 0 [] (by decide)⟩,
    ⟨by decide, by decide,
      (wait_registers_and_revalidates 32 1 Options.none id [] rfl).2.2.1
        ⟨16, Options.none, 0, 0, 0, 0, 0, 0, List.replicate 16 0⟩ [0, 0, 0, 0] 4 []
        (by decide) (by decide)⟩,
    ⟨by decide,
      (wait_registers_and_revalidates 32 1 Options.none id [] rfl).2.2.2.1
        ⟨16, Options.none, 0, 0, 0, 0, 0, 0, List.replicate 16 0⟩ 0 0 []
        (by decide)⟩,
    ((wait_registers_and_revalidates 32 1 Options.none id [] rfl).2.2.2.2.1 2
        ⟨16, Options.none, 16, 16, 0, 0, 0, 0, [100, 0, 0, 0] ++ List.replicate 12 7⟩
        [1, 2, 3, 4] 4 0 []).1 _ _ (by decide),
    fun wakes =>
      (((wait_registers_and_revalidates 32 1 Options.none id [] rfl).2.2.2.2.1 2
          ⟨16, Options.none, 0, 0, 0, 0, 0, 0, List.replicate 16 0⟩ [1, 2, 3, 4] 4 0 []).2
        (fun _ _ h => by
          rw [show stream_out_loop 32 [1, 2, 3, 4] 4 Options.none 2
              ⟨16, Options.none, 0, 0, 0, 0, 0, 0, List.replicate 16 0⟩ 0 [] =
            .returned 4 ⟨16, Options.none, 4, 4, 0, 0, 0, 0, [1, 2, 3, 4] ++ List.replicate 12 0⟩ []
            from by decide] at h
          cases h) wakes).trans (by decide),
    ((wait_registers_and_revalidates 32 1 Options.none id [] rfl).2.2.2.2.2.2.1
        ⟨16, Options.none, 0, 0, 0, 0, 0, 0, List.replicate 16 0⟩ [0, 0, 0, 0] 4).1 _ _
      (by decide)⟩

/-- C28: a `streambuffer_stream_out` that returns, whatever the buffer options and the
call options (ALLOW_PARTIAL included), returns 0 or exactly `length`.  When it returns
0 the storage and both producer cursors are as before the call.  When it returns
`length` all of the request was copied in one pass of the loop, a pass that found at
least `length` bytes writable: the stream returned is the stream `before` of that pass
(the stream of the call, up to consumer cursors moved by truncation) with the whole
request claimed, copied in and committed. -/
theorem stream_out_zero_or_length (sz fuel : Nat) (stream : streambuffer)
    (buffer : List Nat) (length : Nat) (options : Options) (n : Nat)
    (stream' : streambuffer) (events : List Event)
    (h : streambuffer_stream_out sz fuel stream buffer length options =
      .returned n stream' events) :
    (n = 0 ∧ stream'.buffer = stream.buffer ∧
      stream'.producer_index = stream.producer_index ∧
      stream'.producer_comitted_index = stream.producer_comitted_index) ∨
    (n = length ∧
      ∃ before, before.buffer = stream.buffer ∧
        before.producer_index = stream.producer_index ∧
        before.producer_comitted_index = stream.producer_comitted_index ∧
        length ≤ bytes_writable sz before.capacity before.consumer_comitted_index
          before.producer_index ∧
        stream' = stream_out_commit sz before buffer length) := by
  rcases stream_out_loop_returned sz buffer length options (fun _ => True)
      (fun _ _ => trivial) fuel stream n stream' events trivial h with
    ⟨h1, _, _, h3, h4, _, _, h7⟩ | ⟨h1, _, _, before, _, _, _, b3, b4, _, _, b7, b8, b9⟩
  · exact Or.inl ⟨h1, h7, h3, h4⟩
  · exact Or.inr ⟨h1, before, b7, b3, b4, b8, b9⟩

theorem stream_out_zero_or_length_witness :
    streambuffer_stream_out 32 3 ⟨4, Options.none, 2, 2, 0, 0, 0, 0, [1, 2, 0, 0]⟩ [5, 6, 7] 3
        { Options.none with ALLOW_PARTIAL := true, NO_BLOCK := true } =
      .returned 3 ⟨4, Options.none, 5, 5, 2, 2, 0, 0, [7, 2, 5, 6]⟩ [] ∧
    (((3 : Nat) = 0 ∧ [7, 2, 5, 6] = [1, 2, 0, 0] ∧ (5 : Nat) = 2 ∧ (5 : Nat) = 2) ∨
      ((3 : Nat) = 3 ∧
        ∃ before : streambuffer, before.buffer = [1, 2, 0, 0] ∧
          before.producer_index = 2 ∧ before.producer_comitted_index = 2 ∧
          3 ≤ bytes_writable 32 before.capacity before.consumer_comitted_index
            before.producer_index ∧
          (⟨4, Options.none, 5, 5, 2, 2, 0, 0, [7, 2, 5, 6]⟩ : streambuffer) =
            stream_out_commit 32 before [5, 6, 7] 3)) :=
  ⟨by decide,
    stream_out_zero_or_length 32 3 ⟨4, Options.none, 2, 2, 0, 0, 0, 0, [1, 2, 0, 0]⟩ [5, 6, 7] 3
      { Options.none with ALLOW_PARTIAL := true, NO_BLOCK := true } 3
      ⟨4, Options.none, 5, 5, 2, 2, 0, 0, [7, 2, 5, 6]⟩ [] (by decide)⟩

/-- C29: into a fresh buffer of capacity 32 (32-bit `size_t`) a packet of payload length
0 and then a packet with the one-byte payload 7 are written.  The first non-PEEK
`streambuffer_read_packet_start` returns length 1 with base 8: it is the second packet,
the empty one was passed over, and consumer_index has advanced by 9, over both packets.
`streambuffer_read_packet_end(8, 1)` then leaves consumer_committed at 5, not equal to
consumer_index.  When the empty packet is the only one, the read returns 0, as if
nothing were there, with consumer_index advanced by 4. -/
theorem read_packet_skips_empty_packet :
    write_packet 32 2
        (streambuffer_construct ⟨0, Options.none, 0, 0, 0, 0, 0, 0, List.replicate 32 0⟩ 32
          Options.none) [] Options.none =
      some ⟨32, Options.none, 4, 4, 0, 0, 0, 0, List.replicate 32 0⟩ ∧
    write_packet 32 2 ⟨32, Options.none, 4, 4, 0, 0, 0, 0, List.replicate 32 0⟩ [7]
        Options.none =
      some ⟨32, Options.none, 9, 9, 0, 0, 0, 0,
        [0, 0, 0, 0, 1, 0, 0, 0, 7] ++ List.replicate 23 0⟩ ∧
    streambuffer_read_packet_start 32 3
        ⟨32, Options.none, 9, 9, 0, 0, 0, 0, [0, 0, 0, 0, 1, 0, 0, 0, 7] ++ List.replicate 23 0⟩
        { Options.none with NO_BLOCK := true } 0 0 =
      .returned (1, 8, 8)
        ⟨32, Options.none, 9, 9, 9, 0, 0, 0, [0, 0, 0, 0, 1, 0, 0, 0, 7] ++ List.replicate 23 0⟩
        [] ∧
    streambuffer_read_packet_end 32
        ⟨32, Options.none, 9, 9, 9, 0, 0, 0, [0, 0, 0, 0, 1, 0, 0, 0, 7] ++ List.replicate 23 0⟩
        8 1 =
      .returned ()
        ⟨32, Options.none, 9, 9, 9, 5, 0, 0, [0, 0, 0, 0, 1, 0, 0, 0, 7] ++ List.replicate 23 0⟩
        [] ∧
    streambuffer_read_packet_start 32 3
        ⟨32, Options.none, 4, 4, 0, 0, 0, 0, List.replicate 32 0⟩
        { Options.none with NO_BLOCK := true } 0 0 =
      .returned (0, 4, 4) ⟨32, Options.none, 4, 4, 4, 0, 0, 0, List.replicate 32 0⟩ [] := by
  decide

/-- C30: a buffer of capacity 16 with OVERWRITE_ENABLED holds 16 unread bytes written at
offset 0 (cursors 16/16/0/0, consistent and non-wrapped).  A `streambuffer_stream_out`
of 4 more bytes returns 4 when the buffer options have neither MULTIPLE_READERS nor
MULTIPLE_WRITERS; with both set the same call never returns: the commit-order wait in
`streambuffer_try_truncate` compares consumer_committed = 0 with 0 - 4, which wraps, and
busy-waits.  With a 32-bit and with a 64-bit `size_t`. -/
theorem overwrite_spins_with_multiple_readers :
    streambuffer_stream_out 32 3
        ⟨16, { Options.none with OVERWRITE_ENABLED := true }, 16, 16, 0, 0, 0, 0,
          List.range 16⟩ [100, 101, 102, 103] 4 Options.none =
      .returned 4
        ⟨16, { Options.none with OVERWRITE_ENABLED := true }, 20, 20, 4, 4, 0, 0,
          [100, 101, 102, 103, 4, 5, 6, 7, 8, 9, 10, 11, 12, 13, 14, 15]⟩ [] ∧
    streambuffer_stream_out 32 3
        ⟨16,
          { Options.none with
            OVERWRITE_ENABLED := true, MULTIPLE_READERS := true, MULTIPLE_WRITERS := true },
          16, 16, 0, 0, 0, 0, List.range 16⟩
        [100, 101, 102, 103] 4 Options.none =
      .spinning
        ⟨16,
          { Options.none with
            OVERWRITE_ENABLED := true, MULTIPLE_READERS := true, MULTIPLE_WRITERS := true },
          16, 16, 4, 0, 0, 0, List.range 16⟩ [] ∧
    streambuffer_stream_out 64 3
        ⟨16, { Options.none with OVERWRITE_ENABLED := true }, 16, 16, 0, 0, 0, 0,
          List.range 16⟩ [100, 101, 102, 103] 4 Options.none =
      .returned 4
        ⟨16, { Options.none with OVERWRITE_ENABLED := true }, 20, 20, 4, 4, 0, 0,
          [100, 101, 102, 103, 4, 5, 6, 7, 8, 9, 10, 11, 12, 13, 14, 15]⟩ [] ∧
    streambuffer_stream_out 64 3
        ⟨16,
          { Options.none with
            OVERWRITE_ENABLED := true, MULTIPLE_READERS := true, MULTIPLE_WRITERS := true },
          16, 16, 0, 0, 0, 0, List.range 16⟩
        [100, 101, 102, 103] 4 Options.none =
      .spinning
        ⟨16,
          { Options.none with
            OVERWRITE_ENABLED := true, MULTIPLE_READERS := true, MULTIPLE_WRITERS := true },
          16, 16, 4, 0, 0, 0, List.range 16⟩ [] := by
  decide

end MollenOS
